import Mathlib

/-!
# Bomber: the Level Map (`AGeneratedMap`)

A shallow embedding of `Source/Bomber/Private/GeneratedMap.cpp` and
`Source/Bomber/Public/GeneratedMap.h`, followed by theorems about it.

Modelling conventions.

* `FVector` components are `float` values, each modelled by the rational it
  denotes; every float operation of the code rounds its result to the nearest
  float (`Float32`). `FIntVector` components are `int32` values.
* An actor pointer `AActor*` is `Option AActor`; `none` is `nullptr`.
* `TMap<FCell, const AActor*>` is an association list in insertion order with
  the engine's behaviour: `Add` on an existing key replaces the value in
  place, on a new key appends; `GetKeys` lists the keys in that order.
* The engine and the parts of the project that are not in the sources at hand
  (`Bomber.h`, `Cell.h`, the singleton library's helpers, the world) are
  collected in `Env` and every operation takes them as a parameter.
* `OnConstruction`, `GenerateLevelActorsTrace` and `GenerateLevelActors` are
  the game build (`WITH_EDITOR` off); `GenerateLevelActorsTraceEditor` is the
  pass of the editor build. Logging is dropped.
-/

namespace Bomber

/-- Engine vector, three components. -/
structure FVector where
  X : ℚ
  Y : ℚ
  Z : ℚ
deriving DecidableEq

/-- Engine integer vector; the components are `int32` values. -/
structure FIntVector where
  X : Int
  Y : Int
  Z : Int
deriving DecidableEq

/-- Modelled from the spec: `Cell.h` is not among the sources. A cell is a
snapped world position; two cells are equal iff their positions are. -/
structure FCell where
  Location : FVector
deriving DecidableEq

/-- Modelled from the spec: the distinguished zero cell, `FCell::ZeroCell`. -/
def FCell.ZeroCell : FCell := ⟨⟨0, 0, 0⟩⟩

/-- The actor types the generator names (`Bomber.h` is not among the sources;
these are the enumerators `GeneratedMap.cpp` uses). -/
inductive EActorTypeEnum where
  | None
  | Wall
  | Box
  | Player
deriving DecidableEq, Repr

/-- An actor object, identified by its unique id. -/
structure AActor where
  UniqueID : Nat
deriving DecidableEq, Repr

/-- The engine and project facilities `GeneratedMap.cpp` calls. -/
structure Env where
  /-- Member `USingletonLibrary::GetGridSize()`. -/
  GridSize : ℚ
  /-- Member `IS_VALID(Obj)` of `Bomber.h` on a non-null object. -/
  IS_VALID : AActor → Bool
  /-- Whether `Cast<AMyCharacter>(Actor)` succeeds. -/
  IsMyCharacter : AActor → Bool
  /-- Member `USingletonLibrary::IsActorInTypes(Actor, TO_FLAG(EActorTypeEnum::All))`. -/
  IsActorInTypes : AActor → Bool
  /-- Member `USingletonLibrary::CalculateVectorAsRotatedCell(Vector, 1.f)` for a
  Level Map of the given yaw. -/
  CalculateVectorAsRotatedCell : ℚ → FVector → FCell
  /-- Whether `GetWorld()` is non-null. -/
  HasWorld : Bool
  /-- Member `World->SpawnActorAbsolute(FindClassByActorType(Type), FTransform(Cell.Location))`
  at the n-th call of the world's spawner. -/
  SpawnActorAbsolute : Nat → EActorTypeEnum → FCell → Option AActor
  /-- The raw value behind the n-th call of `FMath::RandRange`. -/
  Rand : Nat → Nat

/-- Macro `IS_VALID` on a pointer: a null pointer is not valid. -/
def Env.IsValidPtr (env : Env) : Option AActor → Bool
  | none => false
  | some a => env.IS_VALID a

/-! ## `TMap<FCell, const AActor*>` -/

/-- The map as its list of pairs, in insertion order. -/
abbrev TMap := List (FCell × Option AActor)

namespace TMap

/-- Function `TMap::Num`. -/
def Num (m : TMap) : Nat := m.length

/-- Function `TMap::GetKeys`. -/
def GetKeys (m : TMap) : List FCell := m.map Prod.fst

/-- Function `TMap::Contains`. -/
def Contains (m : TMap) (k : FCell) : Bool := m.any (fun p => decide (p.1 = k))

/-- Function `TMap::Find`: the value stored under the key, `none` when the key is absent. -/
def Find : TMap → FCell → Option (Option AActor)
  | [], _ => none
  | (k', v) :: m, k => if k' = k then some v else Find m k

/-- Function `TMap::FindKey`: the first key whose value equals the given one. -/
def FindKey : TMap → Option AActor → Option FCell
  | [], _ => none
  | (k, v') :: m, v => if v' = v then some k else FindKey m v

/-- Replace the value of the first pair with key `k`. -/
def Replace : TMap → FCell → Option AActor → TMap
  | [], _, _ => []
  | (k', v') :: m, k, v => if k' = k then (k', v) :: m else (k', v') :: Replace m k v

/-- Function `TMap::Add(Key, Value)`: an existing key keeps its place and gets the new
value, a new key is appended. -/
def Add (m : TMap) (k : FCell) (v : Option AActor) : TMap :=
  if Contains m k then Replace m k v else m ++ [(k, v)]

end TMap

/-! ## The Level Map object -/

/-- The fields of `AGeneratedMap` the code reads and writes, the actor's
transform, and two counters of the world: how many times the random generator
and the spawner have been called. -/
structure AGeneratedMap where
  /-- Member `CharactersOnMap`. -/
  CharactersOnMap : List AActor
  /-- Member `CharactersNumber` (default 4). -/
  CharactersNumber : Int
  /-- Member `GridArray_`. -/
  GridArray_ : TMap
  /-- Member `BoxesChance_` (default 50). -/
  BoxesChance_ : Int
  /-- Member `IS_TRANSIENT(this)`. -/
  bTransient : Bool
  /-- Member `GetActorLocation()`. -/
  ActorLocation : FVector
  /-- Yaw of `GetActorRotation()`. -/
  ActorYaw : ℚ
  /-- Member `GetActorScale3D()`. -/
  ActorScale3D : FVector
  /-- Number of `FMath::RandRange` calls made so far. -/
  RandCalls : Nat
  /-- Number of `SpawnActorAbsolute` calls made so far. -/
  SpawnCalls : Nat

/-- Function `FMath::RandRange(Min, Max)`: the next draw, within `[Min, Max]`. -/
def RandRange (env : Env) (calls : Nat) (Min Max : Int) : Int :=
  Min + ((env.Rand calls : Int) % (Max - Min + 1))

/-- Function `AGeneratedMap::IsEmptyCell(Cell, ExcludeActor)`. -/
def IsEmptyCell (env : Env) (s : AGeneratedMap) (Cell : FCell)
    (ExcludeActor : Option AActor) : Bool :=
  match s.GridArray_.Find Cell with
  | none => false
  | some FoundActor => decide (FoundActor = ExcludeActor) || !env.IsValidPtr FoundActor

/-- Function `AGeneratedMap::RemoveActorFromGridArray(Actor)` for a non-null actor (the
function dereferences `Actor` once a cell is found). -/
def RemoveActorFromGridArray (s : AGeneratedMap) (Actor : AActor) : AGeneratedMap :=
  match s.GridArray_.FindKey (some Actor) with
  | none => s
  | some Cell => { s with GridArray_ := s.GridArray_.Add Cell none }

/-- Function `AGeneratedMap::AddActorToGridArray(Cell, UpdateActor)`. The transform and
attachment of the actor are not part of the state; the yaw draw is counted. -/
def AddActorToGridArray (env : Env) (s : AGeneratedMap) (Cell : FCell)
    (UpdateActor : Option AActor) : AGeneratedMap :=
  match UpdateActor with
  | none => s
  | some a =>
    if env.IS_VALID a = false || s.GridArray_.Contains Cell = false then s
    else
      let s1 : AGeneratedMap :=
        if env.IsMyCharacter a then
          if s.CharactersOnMap.contains a = false then
            { s with CharactersOnMap := s.CharactersOnMap ++ [a] }
          else s
        else if env.IsActorInTypes a then
          let s0 := RemoveActorFromGridArray s a
          { s0 with GridArray_ := s0.GridArray_.Add Cell (some a) }
        else s
      { s1 with RandCalls := s1.RandCalls + 1 }

/-- Function `AGeneratedMap::SpawnActorByType(Type, Cell)`: the new state and the
returned pointer. -/
def SpawnActorByType (env : Env) (s : AGeneratedMap) (ActorType : EActorTypeEnum)
    (Cell : FCell) : AGeneratedMap × Option AActor :=
  if env.HasWorld = false || decide (Cell = FCell.ZeroCell) then (s, none)
  else
    let SpawnedActor := env.SpawnActorAbsolute s.SpawnCalls ActorType Cell
    let s1 : AGeneratedMap := { s with SpawnCalls := s.SpawnCalls + 1 }
    (AddActorToGridArray env s1 Cell SpawnedActor, SpawnedActor)

/-- Function `AGeneratedMap::DestroyActorsFromMap_Implementation(Keys)`: the body only
writes a log line. -/
def DestroyActorsFromMap_Implementation (s : AGeneratedMap) (_Keys : List FCell) :
    AGeneratedMap :=
  s

/-! ## Floats and `int32`

The components of an `FVector` are `float` values. A `float` is modelled by
the rational it denotes, and every arithmetic operation of the code on floats
is followed by `Float32`, the rounding to the nearest `float` (IEEE 754
binary32, ties to even, subnormal numbers included). A result of magnitude
`2 ^ 128` or more, which is infinite in the engine, has no rational; the
theorems below bound the values so that none arises. -/

/-- The number of binary digits of `n`, found by halving at most `fuel` times. -/
def BitLength : Nat → Nat → Nat
  | 0, _ => 0
  | fuel + 1, n => if n = 0 then 0 else BitLength fuel (n / 2) + 1

/-- Power of two with an integer exponent. -/
def Pow2 (e : Int) : ℚ :=
  if 0 ≤ e then ((2 ^ e.toNat : Nat) : ℚ) else 1 / ((2 ^ (-e).toNat : Nat) : ℚ)

/-- The exponent `e` with `2 ^ e ≤ |q| < 2 ^ (e + 1)`, for `q` other than zero. -/
def Log2Floor (q : ℚ) : Int :=
  let e0 : Int := (BitLength q.num.natAbs q.num.natAbs : Int) - (BitLength q.den q.den : Int)
  if Pow2 e0 ≤ |q| then e0 else e0 - 1

/-- Rounding to the nearest integer, a tie to the even one. -/
def RoundHalfEven (q : ℚ) : Int :=
  if q - (⌊q⌋ : ℚ) < 1 / 2 then ⌊q⌋
  else if 1 / 2 < q - (⌊q⌋ : ℚ) then ⌊q⌋ + 1
  else if ⌊q⌋ % 2 = 0 then ⌊q⌋ else ⌊q⌋ + 1

/-- The `float` nearest to a real value: the value is rounded to a multiple
of the unit in the last place of its binade, `2 ^ (e - 23)`, where the
exponent `e` is at least `-126`. -/
def Float32 (q : ℚ) : ℚ :=
  if q = 0 then 0
  else (RoundHalfEven (q / Pow2 (max (Log2Floor q) (-126) - 23)) : ℚ)
    * Pow2 (max (Log2Floor q) (-126) - 23)

/-- Operator `FVector * float` (and `*=`) of the engine. -/
def FVector.MulScalar (v : FVector) (Scale : ℚ) : FVector :=
  ⟨Float32 (v.X * Scale), Float32 (v.Y * Scale), Float32 (v.Z * Scale)⟩

/-- Operator `FVector / float` of the engine, which multiplies by the
reciprocal `1.f / Scale`. -/
def FVector.DivScalar (v : FVector) (Scale : ℚ) : FVector :=
  v.MulScalar (Float32 (1 / Scale))

/-- Operator `FVector + FVector` (and `+=`) of the engine. -/
def FVector.Add (v w : FVector) : FVector :=
  ⟨Float32 (v.X + w.X), Float32 (v.Y + w.Y), Float32 (v.Z + w.Z)⟩

/-- Operator `FVector - FVector` (and `-=`) of the engine. -/
def FVector.Sub (v w : FVector) : FVector :=
  ⟨Float32 (v.X - w.X), Float32 (v.Y - w.Y), Float32 (v.Z - w.Z)⟩

/-! ## Construction -/

/-- Function `FMath::GridSnap(Location, Grid)` of the engine,
`FloorToFloat((Location + 0.5 * Grid) / Grid) * Grid`, evaluated in single
precision. -/
def GridSnap (Location Grid : ℚ) : ℚ :=
  if Grid = 0 then Location
  else Float32 ((⌊Float32 (Float32 (Location + Float32 (1 / 2 * Grid)) / Grid)⌋ : ℚ) * Grid)

/-- Function `FVector::GridSnap(GridSz)`, component by component. -/
def FVector.GridSnap (v : FVector) (GridSz : ℚ) : FVector :=
  ⟨Bomber.GridSnap v.X GridSz, Bomber.GridSnap v.Y GridSz, Bomber.GridSnap v.Z GridSz⟩

/-- Function `FMath::TruncToInt`: rounding toward zero to an `int32`. A value
outside the range of `int32` gives the smallest `int32`, as the conversion
instruction of the engine's platforms does. -/
def TruncToInt (q : ℚ) : Int :=
  let t : Int := if 0 ≤ q then ⌊q⌋ else ⌈q⌉
  if -2147483648 ≤ t ∧ t ≤ 2147483647 then t else -2147483648

/-- The conversion `FIntVector(FVector)`. -/
def FIntVector.ofVector (v : FVector) : FIntVector :=
  ⟨TruncToInt v.X, TruncToInt v.Y, TruncToInt v.Z⟩

/-- The conversion `FVector(FIntVector)`: every `int32` becomes the nearest
`float`. -/
def FVector.ofIntVector (v : FIntVector) : FVector :=
  ⟨Float32 v.X, Float32 v.Y, Float32 v.Z⟩

/-- The size-and-snap step of `OnConstruction` on the scale: `MapScale` after
the two parity corrections and the height assignment. `%` is the remainder of
C++, which takes the sign of the dividend. -/
def CorrectedMapScale (Scale : FVector) : FIntVector :=
  let MapScale := FIntVector.ofVector Scale
  let X := if Int.tmod MapScale.X 2 ≠ 1 then MapScale.X + 1 else MapScale.X
  let Y := if Int.tmod MapScale.Y 2 ≠ 1 then MapScale.Y + 1 else MapScale.Y
  ⟨X, Y, 1⟩

/-- The cell `OnConstruction` computes in the iteration `(X, Y)` of its loops:
`FoundVector(X, Y, 0.f)`, `*= GridSize`, `+= GetActorLocation()`,
`-= GetActorScale3D() / 2 * GridSize`, `GridSnap`, rotation. -/
def FoundCell (env : Env) (s : AGeneratedMap) (Y X : Nat) : FCell :=
  let V : FVector := ⟨Float32 (X : ℚ), Float32 (Y : ℚ), 0⟩
  let V0 : FVector := V.MulScalar env.GridSize
  let V1 : FVector := V0.Add s.ActorLocation
  let V2 : FVector := V1.Sub ((s.ActorScale3D.DivScalar 2).MulScalar env.GridSize)
  env.CalculateVectorAsRotatedCell s.ActorYaw (V2.GridSnap env.GridSize)

/-- Function `AGeneratedMap::OnConstruction`: align the transform, correct the scale,
empty the grid array and fill it cell by cell. -/
def OnConstruction (env : Env) (s : AGeneratedMap) : AGeneratedMap :=
  if s.bTransient then s
  else
    let MapScale := CorrectedMapScale s.ActorScale3D
    let s1 : AGeneratedMap :=
      { s with
        ActorLocation := s.ActorLocation.GridSnap env.GridSize
        ActorScale3D := FVector.ofIntVector MapScale
        GridArray_ := [] }
    (List.range MapScale.Y.toNat).foldl
      (fun sY Y =>
        (List.range MapScale.X.toNat).foldl
          (fun sX X => { sX with GridArray_ := sX.GridArray_.Add (FoundCell env sX Y X) none })
          sY)
      s1

/-! ## Generation -/

/-- The loop over `CharactersOnMap` at the start of `GenerateLevelActors`,
from index `i - 1` down to `0`, with `RemoveAt` on every invalid entry. -/
def RosterHygiene (env : Env) : Nat → List AActor → List AActor
  | 0, l => l
  | i + 1, l =>
    RosterHygiene env i
      (match l[i]? with
       | some a => if env.IS_VALID a = false then l.eraseIdx i else l
       | none => l)

/-- The variables of the population loops: the Level Map, the counter
`SpawnedCharactersN`, a record of the value `ActorTypeToSpawn` has at the
end of the selection part in every iteration that reaches it, and a record of
every read `CellsArray[MapScale.X * Y + X]`: the index and the cell read. -/
structure FGenerateLoop where
  Map : AGeneratedMap
  SpawnedCharactersN : Int
  Selected : List (Nat × Nat × EActorTypeEnum)
  Visited : List (Int × FCell)

/-- The selection part of the loop body for an empty cell: the type selected,
the new counter of characters, and whether `RandRange` was called. -/
def SelectActorType (MapScale : FIntVector) (CharactersNumber BoxesChance_ : Int)
    (SpawnedCharactersN : Int) (Draw : Int) (Y X : Nat) : EActorTypeEnum × Int × Bool :=
  let T0 : EActorTypeEnum :=
    if X % 2 = 1 ∧ Y % 2 = 1 then EActorTypeEnum.Wall else EActorTypeEnum.None
  let bIsCornerX : Bool := decide ((X : Int) = 0 ∨ (X : Int) = MapScale.X - 1)
  let bIsCornerY : Bool := decide ((Y : Int) = 0 ∨ (Y : Int) = MapScale.Y - 1)
  let bPlayer : Bool := bIsCornerX && bIsCornerY && decide (SpawnedCharactersN < CharactersNumber)
  let T1 : EActorTypeEnum := if bPlayer then EActorTypeEnum.Player else T0
  let N1 : Int := if bPlayer then SpawnedCharactersN + 1 else SpawnedCharactersN
  let bDraw : Bool := decide (T1 = EActorTypeEnum.None)
  let bBox : Bool :=
    bDraw && decide (Draw < BoxesChance_)
      && ((!bIsCornerX && decide ((X : Int) ≠ 1) && decide ((X : Int) ≠ MapScale.X - 2))
          || (!bIsCornerY && decide ((Y : Int) ≠ 1) && decide ((Y : Int) ≠ MapScale.Y - 2)))
  let T2 : EActorTypeEnum := if bBox then EActorTypeEnum.Box else T1
  (T2, N1, bDraw)

/-- The Level Map after the test of the box rule: the call of `RandRange` is
counted when the test reaches it. -/
def CountDraw (bDraw : Bool) (m : AGeneratedMap) : AGeneratedMap :=
  if bDraw then { m with RandCalls := m.RandCalls + 1 } else m

/-- One iteration of the inner loop of `GenerateLevelActors`. `none` is the
out-of-range access `CellsArray[MapScale.X * Y + X]`; inside the loops
`MapScale.X` is positive, so the index is not negative. -/
def GenerateLoopBody (env : Env) (MapScale : FIntVector) (CellsArray : List FCell)
    (Y : Nat) (st : FGenerateLoop) (X : Nat) : Option FGenerateLoop :=
  match CellsArray[(MapScale.X * Y + X).toNat]? with
  | none => none
  | some CellIt =>
    if IsEmptyCell env st.Map CellIt none = false then
      some { st with Visited := st.Visited ++ [(MapScale.X * Y + X, CellIt)] }
    else
      let Draw := RandRange env st.Map.RandCalls 0 99
      let Sel := SelectActorType MapScale st.Map.CharactersNumber st.Map.BoxesChance_
        st.SpawnedCharactersN Draw Y X
      let M1 : AGeneratedMap := CountDraw Sel.2.2 st.Map
      let M2 : AGeneratedMap :=
        if Sel.1 ≠ EActorTypeEnum.None then (SpawnActorByType env M1 Sel.1 CellIt).1 else M1
      some { Map := M2, SpawnedCharactersN := Sel.2.1,
             Selected := st.Selected ++ [(X, Y, Sel.1)],
             Visited := st.Visited ++ [(MapScale.X * Y + X, CellIt)] }

/-- The inner loop, `for (X = 0; X < MapScale.X; ++X)`. -/
def GenerateRow (env : Env) (MapScale : FIntVector) (CellsArray : List FCell)
    (st : FGenerateLoop) (Y : Nat) : Option FGenerateLoop :=
  (List.range MapScale.X.toNat).foldlM (GenerateLoopBody env MapScale CellsArray Y) st

/-- The two population loops of `GenerateLevelActors`. -/
def GenerateLoops (env : Env) (MapScale : FIntVector) (CellsArray : List FCell)
    (st : FGenerateLoop) : Option FGenerateLoop :=
  (List.range MapScale.Y.toNat).foldlM (GenerateRow env MapScale CellsArray) st

/-- Function `AGeneratedMap::GenerateLevelActors_Implementation` in the game build
(`WITH_EDITOR` off), with the records of the loops; `none` when an array
access is out of range. -/
def GenerateLevelActorsTrace (env : Env) (s : AGeneratedMap) : Option FGenerateLoop :=
  if s.GridArray_.Num = 0 then some ⟨s, 0, [], []⟩
  else
    let s1 : AGeneratedMap :=
      { s with CharactersOnMap := RosterHygiene env s.CharactersOnMap.length s.CharactersOnMap }
    GenerateLoops env (FIntVector.ofVector s1.ActorScale3D) s1.GridArray_.GetKeys
      ⟨s1, 0, [], []⟩

/-- Function `AGeneratedMap::GenerateLevelActors_Implementation` in the game build: the
Level Map after the call. -/
def GenerateLevelActors (env : Env) (s : AGeneratedMap) : Option AGeneratedMap :=
  (GenerateLevelActorsTrace env s).map FGenerateLoop.Map

/-! ## The editor build

With `WITH_EDITOR` on, `GenerateLevelActors` has a block between the hygiene
of the roster and the loops: `DestroyAttachedActors(true)` and
`USingletonLibrary::BroadcastActorsUpdating()`. -/

/-- The facilities of the engine and of the project that only the editor
build calls. -/
structure EditorEnv where
  /-- Member `GetAttachedActors(AttachedActors)` of the Level Map. -/
  AttachedActors : List AActor
  /-- Member `AActor::IsEditorOnly()`. -/
  IsEditorOnly : AActor → Bool
  /-- Member `USingletonLibrary::BroadcastActorsUpdating()`: what the receivers of the
  broadcast, the actors dragged to the Level Map, do to the Level Map. -/
  BroadcastActorsUpdating : AGeneratedMap → AGeneratedMap

/-- Member `AActor::Destroy()`: the world after it, in which the actor is not
valid any more. -/
def Env.Destroy (env : Env) (a : AActor) : Env :=
  { env with IS_VALID := fun b => env.IS_VALID b && !decide (b = a) }

/-- Function `AGeneratedMap::DestroyAttachedActors(bIsEditorOnly)` in the editor build:
the world after the loop over the attached actors, from the last to the
first. -/
def DestroyAttachedActors (env : Env) (ed : EditorEnv) (s : AGeneratedMap)
    (bIsEditorOnly : Bool) : Env :=
  if s.bTransient then env
  else
    ed.AttachedActors.reverse.foldl
      (fun w a => if bIsEditorOnly = false || ed.IsEditorOnly a then w.Destroy a else w) env

/-- Function `AGeneratedMap::GenerateLevelActors_Implementation` in the editor build
(`WITH_EDITOR` on), with the records of the loops. The loops run in the world
after the destruction, on the Level Map after the broadcast. The flag
`bIsEditorOnlyActor` the loops set on the actors they spawn in the editor is
read by no one before the next call of `DestroyAttachedActors`, whose world
(`IsEditorOnly`) has it. -/
def GenerateLevelActorsTraceEditor (env : Env) (ed : EditorEnv) (s : AGeneratedMap) :
    Option FGenerateLoop :=
  if s.GridArray_.Num = 0 then some ⟨s, 0, [], []⟩
  else
    let s1 : AGeneratedMap :=
      { s with CharactersOnMap := RosterHygiene env s.CharactersOnMap.length s.CharactersOnMap }
    let env1 : Env := DestroyAttachedActors env ed s1 true
    let s2 : AGeneratedMap := ed.BroadcastActorsUpdating s1
    GenerateLoops env1 (FIntVector.ofVector s2.ActorScale3D) s2.GridArray_.GetKeys
      ⟨s2, 0, [], []⟩

/-! ## States reachable from a rebuild -/

/-- The Level Maps obtained from a rebuild of a non-transient map by calls of
`AddActorToGridArray` and `RemoveActorFromGridArray`. -/
inductive Reachable (env : Env) : AGeneratedMap → Prop where
  | rebuild (s : AGeneratedMap) (h : s.bTransient = false) : Reachable env (OnConstruction env s)
  | add (s : AGeneratedMap) (Cell : FCell) (UpdateActor : Option AActor) :
      Reachable env s → Reachable env (AddActorToGridArray env s Cell UpdateActor)
  | remove (s : AGeneratedMap) (Actor : AActor) :
      Reachable env s → Reachable env (RemoveActorFromGridArray s Actor)

/-- Every occupant is the value of at most one cell. -/
def SingleCell (m : TMap) : Prop :=
  ∀ (c1 c2 : FCell) (a : AActor),
    m.Find c1 = some (some a) → m.Find c2 = some (some a) → c1 = c2

/-- The invariant of the grid array: keys are distinct, an occupant has one
cell, and every occupant passed the checks of `AddActorToGridArray`. -/
structure GridInv (env : Env) (m : TMap) : Prop where
  keys : m.GetKeys.Nodup
  single : SingleCell m
  checked : ∀ (c : FCell) (a : AActor), m.Find c = some (some a) →
    env.IS_VALID a = true ∧ env.IsMyCharacter a = false ∧ env.IsActorInTypes a = true

/-! ## Concrete boards -/

/-- A world for concrete runs: grid size 200, every actor valid, the spawner
always succeeds and hands out fresh ids whose remainder modulo 4 tells the
type (3 for the character class), every draw is the given value. -/
def DemoEnv (Draw : Nat) : Env where
  GridSize := 200
  IS_VALID := fun _ => true
  IsMyCharacter := fun a => a.UniqueID % 4 == 3
  IsActorInTypes := fun _ => true
  CalculateVectorAsRotatedCell := fun _ v => ⟨v⟩
  HasWorld := true
  SpawnActorAbsolute := fun n t _ =>
    some ⟨4 * (n + 1) +
      (match t with
       | EActorTypeEnum.None => 0
       | EActorTypeEnum.Wall => 1
       | EActorTypeEnum.Box => 2
       | EActorTypeEnum.Player => 3)⟩
  Rand := fun _ => Draw

/-- A non-transient Level Map at the origin with the given scale, number of
characters and chance of boxes, before its construction. -/
def DemoMap (W L : ℚ) (Characters Chance : Int) : AGeneratedMap where
  CharactersOnMap := []
  CharactersNumber := Characters
  GridArray_ := []
  BoxesChance_ := Chance
  bTransient := false
  ActorLocation := ⟨0, 0, 0⟩
  ActorYaw := 0
  ActorScale3D := ⟨W, L, 1⟩
  RandCalls := 0
  SpawnCalls := 0

/-- The cell at the given position of the plane. -/
def DemoCell (X Y : ℚ) : FCell := ⟨⟨X, Y, 0⟩⟩

/-- A wall, a box and a character of `DemoEnv`. -/
def DemoWall : AActor := ⟨1⟩

def DemoBox : AActor := ⟨2⟩

def DemoCharacter : AActor := ⟨3⟩

/-- The 3 x 1 board with the wall on its first cell. -/
def DemoRow : AGeneratedMap :=
  AddActorToGridArray (DemoEnv 99) (OnConstruction (DemoEnv 99) (DemoMap 3 1 4 0))
    (DemoCell (-200) 0) (some DemoWall)

/-! ## The row-major list of cells -/

/-- The snap of the specification, in exact arithmetic: the multiple of the
cell size nearest to the value (the upper one at a tie). -/
def SnapToGrid (v cellSize : ℚ) : ℚ :=
  if cellSize = 0 then v else (⌊(v + (1 / 2) * cellSize) / cellSize⌋ : ℚ) * cellSize

/-- The cell of the specification for the pair `(x, y)`, in exact arithmetic:
snap(origin + (x, y, 0) × cellSize − (scale / 2) × cellSize). -/
def SynthesizedCell (cellSize : ℚ) (origin scale : FVector) (x y : Nat) : FCell :=
  ⟨⟨SnapToGrid (origin.X + (x : ℚ) * cellSize - scale.X / 2 * cellSize) cellSize,
    SnapToGrid (origin.Y + (y : ℚ) * cellSize - scale.Y / 2 * cellSize) cellSize,
    SnapToGrid (origin.Z + 0 * cellSize - scale.Z / 2 * cellSize) cellSize⟩⟩

/-- The values of `cell` on `L` rows of width `W`, row after row. -/
def RowMajorCells {α : Type} (cell : Nat → Nat → α) (W : Nat) : Nat → List α
  | 0 => []
  | L + 1 => RowMajorCells cell W L ++ (List.range W).map (cell L)

/-- The Level Maps that have the same transform. -/
def SameTransform (t t0 : AGeneratedMap) : Prop :=
  t.ActorLocation = t0.ActorLocation ∧ t.ActorScale3D = t0.ActorScale3D ∧
    t.ActorYaw = t0.ActorYaw

/-- A Level Map of 3 x 3 cells whose scale was set to 2 x 2 after its
construction, with 4 characters to spawn. -/
def DemoEvenMap : AGeneratedMap :=
  { OnConstruction (DemoEnv 99) (DemoMap 2 2 4 0) with ActorScale3D := ⟨2, 2, 1⟩ }

/-! ## The conditions of the selection -/

/-- The corner condition of the loop body, `bIsCornerX && bIsCornerY`. -/
def IsCornerCell (MapScale : FIntVector) (X Y : Nat) : Prop :=
  ((X : Int) = 0 ∨ (X : Int) = MapScale.X - 1) ∧ ((Y : Int) = 0 ∨ (Y : Int) = MapScale.Y - 1)

instance (MapScale : FIntVector) (X Y : Nat) : Decidable (IsCornerCell MapScale X Y) := by
  unfold IsCornerCell
  infer_instance

/-- The zone condition of the box rule, the last conjunct of its test. -/
def InBoxZone (MapScale : FIntVector) (X Y : Nat) : Prop :=
  (¬ ((X : Int) = 0 ∨ (X : Int) = MapScale.X - 1) ∧ (X : Int) ≠ 1 ∧ (X : Int) ≠ MapScale.X - 2) ∨
  (¬ ((Y : Int) = 0 ∨ (Y : Int) = MapScale.Y - 1) ∧ (Y : Int) ≠ 1 ∧ (Y : Int) ≠ MapScale.Y - 2)

instance (MapScale : FIntVector) (X Y : Nat) : Decidable (InBoxZone MapScale X Y) := by
  unfold InBoxZone
  infer_instance

/-! ## Corners and the record -/

/-- The board of one cell with the wall on it. -/
def DemoFull : AGeneratedMap :=
  AddActorToGridArray (DemoEnv 99) (OnConstruction (DemoEnv 99) (DemoMap 1 1 4 50))
    (DemoCell 0 0) (some DemoWall)

/-- The board of 5 x 5 cells after one pass with 4 characters and boxes
wherever the box rule allows them. -/
def DemoAfterPass : AGeneratedMap :=
  (GenerateLevelActors (DemoEnv 0) (OnConstruction (DemoEnv 0) (DemoMap 4 4 4 100))).getD
    (DemoMap 4 4 4 100)

/-- Whether every occupant of the map has an id below `n`. -/
def BoundBelow (m : TMap) (n : Nat) : Bool :=
  m.all (fun p =>
    match p.2 with
    | none => true
    | some b => decide (b.UniqueID < n))

/-! ## Queries -/

/-- Function `AGeneratedMap::IntersectionCellsByTypes_Implementation(Cells,
ActorsTypesBitmask, ExcludePlayer)`: the body returns `Cells`. The Level Map
is a parameter because the function is a member; the body does not read it. -/
def IntersectionCellsByTypes_Implementation (_s : AGeneratedMap) (Cells : List FCell)
    (_ActorsTypesBitmask : Int) (_ExcludePlayer : Option AActor) : List FCell :=
  Cells

/-! ## Rounding to an odd integer -/

/-- A world like `DemoEnv 99` in which the actors with an id of 1000 or more
are not valid any more. -/
def StaleEnv : Env :=
  { DemoEnv 99 with IS_VALID := fun a => decide (a.UniqueID < 1000) }

/-! ## States reachable with a roster -/

/-- The Level Maps obtained from one whose roster is duplicate-free (such as
a new Level Map, whose roster is empty) by constructions, calls of
`AddActorToGridArray` and `RemoveActorFromGridArray`, and passes of
`GenerateLevelActors` that return. -/
inductive RosterReachable (env : Env) : AGeneratedMap → Prop where
  | start (s : AGeneratedMap) (h : s.CharactersOnMap.Nodup) : RosterReachable env s
  | construct (s : AGeneratedMap) : RosterReachable env s → RosterReachable env (OnConstruction env s)
  | add (s : AGeneratedMap) (Cell : FCell) (UpdateActor : Option AActor) :
      RosterReachable env s → RosterReachable env (AddActorToGridArray env s Cell UpdateActor)
  | remove (s : AGeneratedMap) (Actor : AActor) :
      RosterReachable env s → RosterReachable env (RemoveActorFromGridArray s Actor)
  | generate (s s' : AGeneratedMap) :
      RosterReachable env s → GenerateLevelActors env s = some s' → RosterReachable env s'

/-- The board of 3 x 3 cells with the character added at two of its cells,
one after the other. -/
def DemoTwice : AGeneratedMap :=
  AddActorToGridArray (DemoEnv 99)
    (AddActorToGridArray (DemoEnv 99) (OnConstruction (DemoEnv 99) (DemoMap 2 2 4 0))
      (DemoCell 0 0) (some DemoCharacter))
    (DemoCell 200 0) (some DemoCharacter)

/-- The board of one cell with the wall on it and a roster of five
characters, of which the second and the fourth are not valid in `StaleEnv`. -/
def DemoStale : AGeneratedMap :=
  { DemoFull with CharactersOnMap := [⟨3⟩, ⟨1003⟩, ⟨7⟩, ⟨2007⟩, ⟨11⟩] }

/-- The Level Map of scale 3 x 1 at `(10 ^ 10, 0, 0)`, before its
construction. -/
def DemoFar : AGeneratedMap :=
  { DemoMap 3 1 4 0 with ActorLocation := ⟨10000000000, 0, 0⟩ }

/-! ## The start of the loops in the editor build -/

/-- The Level Map after the hygiene loop of `GenerateLevelActors`. -/
def AfterHygiene (env : Env) (s : AGeneratedMap) : AGeneratedMap :=
  { s with CharactersOnMap := RosterHygiene env s.CharactersOnMap.length s.CharactersOnMap }

/-- The world in which the loops of the editor build run: the world after
`DestroyAttachedActors(true)`. -/
def EditorWorld (env : Env) (ed : EditorEnv) (s : AGeneratedMap) : Env :=
  DestroyAttachedActors env ed (AfterHygiene env s) true

/-- The Level Map on which the loops of the editor build start: the one the
broadcast leaves. -/
def EditorStart (env : Env) (ed : EditorEnv) (s : AGeneratedMap) : AGeneratedMap :=
  ed.BroadcastActorsUpdating (AfterHygiene env s)

/-- An editor in which the wall `DemoWall` is attached to the Level Map and
editor-only, and the broadcast has no receiver. -/
def DemoEditor : EditorEnv where
  AttachedActors := [DemoWall]
  IsEditorOnly := fun _ => true
  BroadcastActorsUpdating := fun s => s

/-- A Level Map of 5 x 5 cells whose scale was set to 4 x 4 after its
construction, with 4 characters to spawn. -/
def DemoEven4 : AGeneratedMap :=
  { OnConstruction (DemoEnv 99) (DemoMap 4 4 4 0) with ActorScale3D := ⟨4, 4, 1⟩ }

/-! ## Lemmas on the map -/

namespace TMap

theorem Contains_iff (m : TMap) (k : FCell) : Contains m k = true ↔ k ∈ GetKeys m := by
  induction m with
  | nil => simp [Contains, GetKeys]
  | cons p m ih =>
    simp only [Contains, GetKeys, List.any_cons, Bool.or_eq_true, decide_eq_true_eq,
      List.map_cons, List.mem_cons] at ih ⊢
    constructor
    · rintro (h | h)
      · exact Or.inl h.symm
      · exact Or.inr (ih.mp h)
    · rintro (h | h)
      · exact Or.inl h.symm
      · exact Or.inr (ih.mpr h)

theorem GetKeys_Replace (m : TMap) (k : FCell) (v : Option AActor) :
    GetKeys (Replace m k v) = GetKeys m := by
  induction m with
  | nil => rfl
  | cons p m ih =>
    obtain ⟨k', v'⟩ := p
    unfold Replace
    by_cases h : k' = k
    · simp [h, GetKeys]
    · simp only [h, if_false]
      simp only [GetKeys, List.map_cons] at ih ⊢
      rw [ih]

theorem GetKeys_Add_of_mem (m : TMap) (k : FCell) (v : Option AActor) (h : k ∈ GetKeys m) :
    GetKeys (Add m k v) = GetKeys m := by
  unfold Add
  rw [if_pos ((Contains_iff m k).mpr h)]
  exact GetKeys_Replace m k v

theorem GetKeys_Add_of_not_mem (m : TMap) (k : FCell) (v : Option AActor)
    (h : k ∉ GetKeys m) : GetKeys (Add m k v) = GetKeys m ++ [k] := by
  unfold Add
  have hc : Contains m k = false := by
    cases hb : Contains m k
    · rfl
    · exact absurd ((Contains_iff m k).mp hb) h
  simp [hc, GetKeys]

theorem Nodup_Add (m : TMap) (k : FCell) (v : Option AActor) (h : (GetKeys m).Nodup) :
    (GetKeys (Add m k v)).Nodup := by
  by_cases hk : k ∈ GetKeys m
  · rw [GetKeys_Add_of_mem m k v hk]
    exact h
  · rw [GetKeys_Add_of_not_mem m k v hk]
    exact List.Nodup.append h (List.nodup_singleton k) (by simpa using hk)

theorem Find_isSome_iff (m : TMap) (k : FCell) : (Find m k).isSome = true ↔ k ∈ GetKeys m := by
  induction m with
  | nil => simp [Find, GetKeys]
  | cons p m ih =>
    obtain ⟨k', v'⟩ := p
    unfold Find
    by_cases h : k' = k
    · simp [h, GetKeys]
    · simp only [h, if_false]
      rw [ih]
      simp only [GetKeys, List.map_cons, List.mem_cons]
      constructor
      · exact Or.inr
      · rintro (h' | h')
        · exact absurd h'.symm h
        · exact h'

theorem mem_GetKeys_of_Find (m : TMap) (k : FCell) (v : Option AActor)
    (h : Find m k = some v) : k ∈ GetKeys m :=
  (Find_isSome_iff m k).mp (by rw [h]; rfl)

theorem Find_Replace_self (m : TMap) (k : FCell) (v : Option AActor) (h : k ∈ GetKeys m) :
    Find (Replace m k v) k = some v := by
  induction m with
  | nil => simp [GetKeys] at h
  | cons p m ih =>
    obtain ⟨k', v'⟩ := p
    unfold Replace
    by_cases hk : k' = k
    · simp [hk, Find]
    · simp only [hk, if_false, Find]
      apply ih
      simp only [GetKeys, List.map_cons, List.mem_cons] at h
      rcases h with h | h
      · exact absurd h.symm hk
      · exact h

theorem Find_Replace_ne (m : TMap) (k k' : FCell) (v : Option AActor) (h : k' ≠ k) :
    Find (Replace m k v) k' = Find m k' := by
  induction m with
  | nil => rfl
  | cons p m ih =>
    obtain ⟨k0, v0⟩ := p
    unfold Replace
    by_cases hk : k0 = k
    · subst hk
      have : ¬ k0 = k' := fun e => h e.symm
      simp [Find, this]
    · simp only [hk, if_false, Find]
      rw [ih]

theorem Find_append_single (m : TMap) (k k' : FCell) (v : Option AActor) :
    Find (m ++ [(k, v)]) k' =
      match Find m k' with
      | some w => some w
      | none => if k = k' then some v else none := by
  induction m with
  | nil => simp [Find]
  | cons p m ih =>
    obtain ⟨k0, v0⟩ := p
    simp only [List.cons_append, Find]
    by_cases hk : k0 = k'
    · simp [hk]
    · simp only [hk, if_false]
      exact ih

theorem Find_Add_self (m : TMap) (k : FCell) (v : Option AActor) :
    Find (Add m k v) k = some v := by
  unfold Add
  by_cases hc : Contains m k = true
  · rw [if_pos hc]
    exact Find_Replace_self m k v ((Contains_iff m k).mp hc)
  · rw [if_neg hc, Find_append_single]
    have hn : Find m k = none := by
      cases hf : Find m k with
      | none => rfl
      | some w => exact absurd ((Contains_iff m k).mpr (mem_GetKeys_of_Find m k w hf)) hc
    simp [hn]

theorem Find_Add_ne (m : TMap) (k k' : FCell) (v : Option AActor) (h : k' ≠ k) :
    Find (Add m k v) k' = Find m k' := by
  unfold Add
  by_cases hc : Contains m k = true
  · rw [if_pos hc]
    exact Find_Replace_ne m k k' v h
  · rw [if_neg hc, Find_append_single]
    have : ¬ k = k' := fun e => h e.symm
    cases hf : Find m k' <;> simp [this]

theorem Find_of_FindKey (m : TMap) (v : Option AActor) (k : FCell) (hn : (GetKeys m).Nodup)
    (h : FindKey m v = some k) : Find m k = some v := by
  induction m with
  | nil => simp [FindKey] at h
  | cons p m ih =>
    obtain ⟨k0, v0⟩ := p
    simp only [GetKeys, List.map_cons, List.nodup_cons] at hn
    unfold FindKey at h
    by_cases hv : v0 = v
    · simp only [hv, if_true, Option.some.injEq] at h
      simp [Find, h, hv]
    · simp only [hv, if_false] at h
      have hk : k ∈ GetKeys m := mem_GetKeys_of_Find m k v (ih hn.2 h)
      have hne : ¬ k0 = k := fun e => hn.1 (e ▸ hk)
      simp only [Find, hne, if_false]
      exact ih hn.2 h

theorem mem_GetKeys_of_FindKey (m : TMap) (v : Option AActor) (k : FCell)
    (h : FindKey m v = some k) : k ∈ GetKeys m := by
  induction m with
  | nil => simp [FindKey] at h
  | cons p m ih =>
    obtain ⟨k0, v0⟩ := p
    unfold FindKey at h
    by_cases hv : v0 = v
    · simp only [hv, if_true, Option.some.injEq] at h
      simp [GetKeys, h]
    · simp only [hv, if_false] at h
      simp only [GetKeys, List.map_cons, List.mem_cons]
      exact Or.inr (ih h)

theorem FindKey_eq_none (m : TMap) (v : Option AActor) (h : FindKey m v = none)
    (k : FCell) : Find m k ≠ some v := by
  induction m with
  | nil => simp [Find]
  | cons p m ih =>
    obtain ⟨k0, v0⟩ := p
    unfold FindKey at h
    by_cases hv : v0 = v
    · simp [hv] at h
    · simp only [hv, if_false] at h
      unfold Find
      by_cases hk : k0 = k
      · simp only [hk, if_true]
        intro e
        exact hv (Option.some.inj e)
      · simp only [hk, if_false]
        exact ih h

end TMap

/-! ## The grid invariant -/

theorem GridInv_Add_none (env : Env) (m : TMap) (c : FCell) (h : GridInv env m) :
    GridInv env (m.Add c none) := by
  refine ⟨TMap.Nodup_Add m c none h.keys, ?_, ?_⟩
  · intro c1 c2 a h1 h2
    have e1 : c1 ≠ c := by
      intro e
      rw [e, TMap.Find_Add_self] at h1
      simp at h1
    have e2 : c2 ≠ c := by
      intro e
      rw [e, TMap.Find_Add_self] at h2
      simp at h2
    rw [TMap.Find_Add_ne m c c1 none e1] at h1
    rw [TMap.Find_Add_ne m c c2 none e2] at h2
    exact h.single c1 c2 a h1 h2
  · intro c1 a h1
    have e1 : c1 ≠ c := by
      intro e
      rw [e, TMap.Find_Add_self] at h1
      simp at h1
    rw [TMap.Find_Add_ne m c c1 none e1] at h1
    exact h.checked c1 a h1

theorem RemoveActorFromGridArray_GridInv (env : Env) (s : AGeneratedMap) (a : AActor)
    (h : GridInv env s.GridArray_) : GridInv env (RemoveActorFromGridArray s a).GridArray_ := by
  unfold RemoveActorFromGridArray
  cases hf : s.GridArray_.FindKey (some a) with
  | none => exact h
  | some c => exact GridInv_Add_none env s.GridArray_ c h

/-- After the removal no cell maps to the actor. -/
theorem RemoveActorFromGridArray_absent (env : Env) (s : AGeneratedMap) (a : AActor)
    (h : GridInv env s.GridArray_) (c : FCell) :
    (RemoveActorFromGridArray s a).GridArray_.Find c ≠ some (some a) := by
  unfold RemoveActorFromGridArray
  cases hf : s.GridArray_.FindKey (some a) with
  | none => exact TMap.FindKey_eq_none s.GridArray_ (some a) hf c
  | some c0 =>
    have h0 : s.GridArray_.Find c0 = some (some a) :=
      TMap.Find_of_FindKey s.GridArray_ (some a) c0 h.keys hf
    intro hc
    by_cases e : c = c0
    · rw [e] at hc
      simp only [TMap.Find_Add_self] at hc
      simp at hc
    · simp only [TMap.Find_Add_ne s.GridArray_ c0 c none e] at hc
      exact e (h.single c c0 a hc h0)

/-- The removal changes no cell that maps to another occupant or to none. -/
theorem RemoveActorFromGridArray_other (env : Env) (s : AGeneratedMap) (a : AActor)
    (h : GridInv env s.GridArray_) (c : FCell) (hc : s.GridArray_.Find c ≠ some (some a)) :
    (RemoveActorFromGridArray s a).GridArray_.Find c = s.GridArray_.Find c := by
  unfold RemoveActorFromGridArray
  cases hf : s.GridArray_.FindKey (some a) with
  | none => rfl
  | some c0 =>
    have h0 : s.GridArray_.Find c0 = some (some a) :=
      TMap.Find_of_FindKey s.GridArray_ (some a) c0 h.keys hf
    have e : c ≠ c0 := by
      intro e
      rw [e] at hc
      exact hc h0
    exact TMap.Find_Add_ne s.GridArray_ c0 c none e

theorem RemoveActorFromGridArray_GetKeys (s : AGeneratedMap) (a : AActor) :
    (RemoveActorFromGridArray s a).GridArray_.GetKeys = s.GridArray_.GetKeys := by
  unfold RemoveActorFromGridArray
  cases hf : s.GridArray_.FindKey (some a) with
  | none => rfl
  | some c0 =>
    exact TMap.GetKeys_Add_of_mem s.GridArray_ c0 none
      (TMap.mem_GetKeys_of_FindKey s.GridArray_ (some a) c0 hf)

/-- The grid array after `AddActorToGridArray` when every check passes and the
actor is not a character. -/
theorem AddActorToGridArray_grid_placed (env : Env) (s : AGeneratedMap) (Cell : FCell)
    (a : AActor) (hv : env.IS_VALID a = true) (hc : s.GridArray_.Contains Cell = true)
    (hch : env.IsMyCharacter a = false) (ht : env.IsActorInTypes a = true) :
    (AddActorToGridArray env s Cell (some a)).GridArray_ =
      (RemoveActorFromGridArray s a).GridArray_.Add Cell (some a) := by
  simp [AddActorToGridArray, hv, hc, hch, ht]

/-- The grid array is left as it is when the actor is a character. -/
theorem AddActorToGridArray_grid_character (env : Env) (s : AGeneratedMap) (Cell : FCell)
    (a : AActor) (hch : env.IsMyCharacter a = true) :
    (AddActorToGridArray env s Cell (some a)).GridArray_ = s.GridArray_ := by
  unfold AddActorToGridArray
  simp only [hch, if_true]
  split_ifs <;> rfl

/-- The grid array after `AddActorToGridArray` is either the old one or the
old one with the actor removed and then written to the cell. -/
theorem AddActorToGridArray_grid_cases (env : Env) (s : AGeneratedMap) (Cell : FCell)
    (p : Option AActor) :
    (AddActorToGridArray env s Cell p).GridArray_ = s.GridArray_ ∨
      ∃ a, p = some a ∧ env.IS_VALID a = true ∧ s.GridArray_.Contains Cell = true ∧
        env.IsMyCharacter a = false ∧ env.IsActorInTypes a = true ∧
        (AddActorToGridArray env s Cell p).GridArray_ =
          (RemoveActorFromGridArray s a).GridArray_.Add Cell (some a) := by
  cases p with
  | none => exact Or.inl rfl
  | some a =>
    by_cases hv : env.IS_VALID a = true
    · by_cases hc : s.GridArray_.Contains Cell = true
      · by_cases hch : env.IsMyCharacter a = true
        · exact Or.inl (AddActorToGridArray_grid_character env s Cell a hch)
        · by_cases ht : env.IsActorInTypes a = true
          · have hch' : env.IsMyCharacter a = false := by simpa using hch
            exact Or.inr ⟨a, rfl, hv, hc, hch', ht,
              AddActorToGridArray_grid_placed env s Cell a hv hc hch' ht⟩
          · left
            simp [AddActorToGridArray, hv, hc, hch, ht]
      · left
        simp [AddActorToGridArray, hc]
    · left
      simp [AddActorToGridArray, hv]

theorem AddActorToGridArray_GridInv (env : Env) (s : AGeneratedMap) (Cell : FCell)
    (p : Option AActor) (h : GridInv env s.GridArray_) :
    GridInv env (AddActorToGridArray env s Cell p).GridArray_ := by
  rcases AddActorToGridArray_grid_cases env s Cell p with e | ⟨a, -, hv, -, hch, ht, e⟩
  · rw [e]
    exact h
  · rw [e]
    have hr := RemoveActorFromGridArray_GridInv env s a h
    have ha := RemoveActorFromGridArray_absent env s a h
    refine ⟨TMap.Nodup_Add _ Cell (some a) hr.keys, ?_, ?_⟩
    · intro c1 c2 b h1 h2
      by_cases e1 : c1 = Cell
      · by_cases e2 : c2 = Cell
        · rw [e1, e2]
        · rw [e1, TMap.Find_Add_self] at h1
          rw [TMap.Find_Add_ne _ Cell c2 _ e2] at h2
          have hb : a = b := by simpa using h1
          rw [← hb] at h2
          exact absurd h2 (ha c2)
      · by_cases e2 : c2 = Cell
        · rw [e2, TMap.Find_Add_self] at h2
          rw [TMap.Find_Add_ne _ Cell c1 _ e1] at h1
          have hb : a = b := by simpa using h2
          rw [← hb] at h1
          exact absurd h1 (ha c1)
        · rw [TMap.Find_Add_ne _ Cell c1 _ e1] at h1
          rw [TMap.Find_Add_ne _ Cell c2 _ e2] at h2
          exact hr.single c1 c2 b h1 h2
    · intro c b hb
      by_cases e1 : c = Cell
      · rw [e1, TMap.Find_Add_self] at hb
        have hb' : a = b := by simpa using hb
        rw [← hb']
        exact ⟨hv, hch, ht⟩
      · rw [TMap.Find_Add_ne _ Cell c _ e1] at hb
        exact hr.checked c b hb

theorem foldl_preserves {α β : Type} (Q : α → Prop) (f : α → β → α)
    (hf : ∀ a b, Q a → Q (f a b)) (l : List β) (a : α) (h : Q a) : Q (l.foldl f a) := by
  induction l generalizing a with
  | nil => exact h
  | cons b l ih => exact ih (f a b) (hf a b h)

/-- A property of the empty map that `Add` of an empty cell preserves holds of
the grid array `OnConstruction` builds. -/
theorem OnConstruction_GridArray_induction (env : Env) (s : AGeneratedMap)
    (hs : s.bTransient = false) (P : TMap → Prop) (h0 : P [])
    (hstep : ∀ (m : TMap) (c : FCell), P m → P (m.Add c none)) :
    P (OnConstruction env s).GridArray_ := by
  unfold OnConstruction
  simp only [hs, Bool.false_eq_true, if_false]
  apply foldl_preserves (fun t : AGeneratedMap => P t.GridArray_)
  · intro t Y ht
    apply foldl_preserves (fun t : AGeneratedMap => P t.GridArray_)
    · intro t' X ht'
      exact hstep _ _ ht'
    · exact ht
  · exact h0

theorem GridInv_nil (env : Env) : GridInv env [] := by
  refine ⟨by simp [TMap.GetKeys], ?_, ?_⟩
  · intro c1 c2 a h1
    simp [TMap.Find] at h1
  · intro c a h1
    simp [TMap.Find] at h1

theorem OnConstruction_GridInv (env : Env) (s : AGeneratedMap) (hs : s.bTransient = false) :
    GridInv env (OnConstruction env s).GridArray_ :=
  OnConstruction_GridArray_induction env s hs (GridInv env) (GridInv_nil env)
    (fun m c h => GridInv_Add_none env m c h)

theorem Reachable_GridInv (env : Env) (s : AGeneratedMap) (h : Reachable env s) :
    GridInv env s.GridArray_ := by
  induction h with
  | rebuild s hs => exact OnConstruction_GridInv env s hs
  | add s Cell p _ ih => exact AddActorToGridArray_GridInv env s Cell p ih
  | remove s a _ ih => exact RemoveActorFromGridArray_GridInv env s a ih

/-- After a valid non-character actor of a level type, bound to `oldCell`, is
added at another cell of the grid, `oldCell` is empty and the new cell maps
to the actor. -/
theorem AddActorToGridArray_moves (env : Env) (s : AGeneratedMap)
    (h : GridInv env s.GridArray_) (oldCell newCell : FCell) (a : AActor)
    (hold : s.GridArray_.Find oldCell = some (some a)) (hne : oldCell ≠ newCell)
    (hnew : s.GridArray_.Contains newCell = true) :
    (AddActorToGridArray env s newCell (some a)).GridArray_.Find oldCell = some none ∧
      (AddActorToGridArray env s newCell (some a)).GridArray_.Find newCell = some (some a) := by
  obtain ⟨hv, hch, ht⟩ := h.checked oldCell a hold
  rw [AddActorToGridArray_grid_placed env s newCell a hv hnew hch ht]
  refine ⟨?_, TMap.Find_Add_self _ _ _⟩
  rw [TMap.Find_Add_ne _ newCell oldCell _ hne]
  unfold RemoveActorFromGridArray
  cases hf : s.GridArray_.FindKey (some a) with
  | none => exact absurd hold (TMap.FindKey_eq_none s.GridArray_ (some a) hf oldCell)
  | some c0 =>
    have h0 : s.GridArray_.Find c0 = some (some a) :=
      TMap.Find_of_FindKey s.GridArray_ (some a) c0 h.keys hf
    have e : oldCell = c0 := h.single oldCell c0 a hold h0
    rw [e]
    exact TMap.Find_Add_self _ _ _

/-! ## C1: one cell per occupant -/

/-- C1. In every state reachable from a rebuild by calls of
`AddActorToGridArray` and `RemoveActorFromGridArray`, an occupant is the value
of at most one cell; and adding an actor that is bound to `oldCell` at another
cell `newCell` of the grid leaves `oldCell` without occupant and `newCell`
mapped to the actor. -/
theorem Reachable_single_cell (env : Env) (s : AGeneratedMap) (h : Reachable env s) :
    (∀ (c1 c2 : FCell) (a : AActor),
        s.GridArray_.Find c1 = some (some a) → s.GridArray_.Find c2 = some (some a) → c1 = c2) ∧
    (∀ (oldCell newCell : FCell) (a : AActor),
        s.GridArray_.Find oldCell = some (some a) → oldCell ≠ newCell →
        s.GridArray_.Contains newCell = true →
        (AddActorToGridArray env s newCell (some a)).GridArray_.Find oldCell = some none ∧
        (AddActorToGridArray env s newCell (some a)).GridArray_.Find newCell = some (some a)) :=
  ⟨(Reachable_GridInv env s h).single,
    fun oldCell newCell a hold hne hnew =>
      AddActorToGridArray_moves env s (Reachable_GridInv env s h) oldCell newCell a hold hne hnew⟩

theorem Reachable_single_cell_witness :
    Reachable (DemoEnv 99) DemoRow ∧
    DemoRow.GridArray_.Find (DemoCell (-200) 0) = some (some DemoWall) ∧
    DemoCell (-200) 0 ≠ DemoCell 200 0 ∧
    DemoRow.GridArray_.Contains (DemoCell 200 0) = true ∧
    (AddActorToGridArray (DemoEnv 99) DemoRow (DemoCell 200 0) (some DemoWall)).GridArray_.Find
        (DemoCell (-200) 0) = some none ∧
    (AddActorToGridArray (DemoEnv 99) DemoRow (DemoCell 200 0) (some DemoWall)).GridArray_.Find
        (DemoCell 200 0) = some (some DemoWall) :=
  have hr : Reachable (DemoEnv 99) DemoRow :=
    Reachable.add _ _ _ (Reachable.rebuild (DemoMap 3 1 4 0) rfl)
  have h1 : DemoRow.GridArray_.Find (DemoCell (-200) 0) = some (some DemoWall) := by decide!
  have h2 : DemoCell (-200) 0 ≠ DemoCell 200 0 := by decide
  have h3 : DemoRow.GridArray_.Contains (DemoCell 200 0) = true := by decide!
  ⟨hr, h1, h2, h3,
    (Reachable_single_cell (DemoEnv 99) DemoRow hr).2 (DemoCell (-200) 0) (DemoCell 200 0) DemoWall
      h1 h2 h3⟩

/-! ## C2: lookup after placing -/

/-- The roster after `AddActorToGridArray` of a valid character at a cell of
the grid holds the character. -/
theorem AddActorToGridArray_roster_mem (env : Env) (s : AGeneratedMap) (Cell : FCell)
    (a : AActor) (hv : env.IS_VALID a = true) (hc : s.GridArray_.Contains Cell = true)
    (hch : env.IsMyCharacter a = true) :
    a ∈ (AddActorToGridArray env s Cell (some a)).CharactersOnMap := by
  by_cases hm : a ∈ s.CharactersOnMap
  · simp [AddActorToGridArray, hv, hc, hch, hm]
  · simp [AddActorToGridArray, hv, hc, hch, hm]

/-- C2, as the code has it. For a cell of the grid and a valid actor: if the
actor is not a character and is of a level type, the lookup of the cell after
`AddActorToGridArray` returns the actor and `IsEmptyCell` is false; if the
actor is a character, the grid array is unchanged and the character is in the
roster. -/
theorem AddActorToGridArray_lookup (env : Env) (s : AGeneratedMap) (Cell : FCell) (a : AActor)
    (hc : s.GridArray_.Contains Cell = true) (hv : env.IS_VALID a = true) :
    (env.IsMyCharacter a = false → env.IsActorInTypes a = true →
      (AddActorToGridArray env s Cell (some a)).GridArray_.Find Cell = some (some a) ∧
      IsEmptyCell env (AddActorToGridArray env s Cell (some a)) Cell none = false) ∧
    (env.IsMyCharacter a = true →
      (AddActorToGridArray env s Cell (some a)).GridArray_ = s.GridArray_ ∧
      a ∈ (AddActorToGridArray env s Cell (some a)).CharactersOnMap) := by
  constructor
  · intro hch ht
    have hf : (AddActorToGridArray env s Cell (some a)).GridArray_.Find Cell = some (some a) := by
      rw [AddActorToGridArray_grid_placed env s Cell a hv hc hch ht]
      exact TMap.Find_Add_self _ _ _
    refine ⟨hf, ?_⟩
    unfold IsEmptyCell
    rw [hf]
    simp [Env.IsValidPtr, hv]
  · intro hch
    exact ⟨AddActorToGridArray_grid_character env s Cell a hch,
      AddActorToGridArray_roster_mem env s Cell a hv hc hch⟩

theorem AddActorToGridArray_lookup_witness :
    ((AddActorToGridArray (DemoEnv 99) (OnConstruction (DemoEnv 99) (DemoMap 3 1 4 0))
        (DemoCell 200 0) (some DemoWall)).GridArray_.Find (DemoCell 200 0) = some (some DemoWall) ∧
      IsEmptyCell (DemoEnv 99)
        (AddActorToGridArray (DemoEnv 99) (OnConstruction (DemoEnv 99) (DemoMap 3 1 4 0))
          (DemoCell 200 0) (some DemoWall)) (DemoCell 200 0) none = false) ∧
    ((AddActorToGridArray (DemoEnv 99) (OnConstruction (DemoEnv 99) (DemoMap 3 1 4 0))
        (DemoCell 200 0) (some DemoCharacter)).GridArray_ =
        (OnConstruction (DemoEnv 99) (DemoMap 3 1 4 0)).GridArray_ ∧
      DemoCharacter ∈ (AddActorToGridArray (DemoEnv 99)
        (OnConstruction (DemoEnv 99) (DemoMap 3 1 4 0))
        (DemoCell 200 0) (some DemoCharacter)).CharactersOnMap) :=
  ⟨(AddActorToGridArray_lookup (DemoEnv 99) (OnConstruction (DemoEnv 99) (DemoMap 3 1 4 0))
      (DemoCell 200 0) DemoWall (by decide!) rfl).1 rfl rfl,
    (AddActorToGridArray_lookup (DemoEnv 99) (OnConstruction (DemoEnv 99) (DemoMap 3 1 4 0))
      (DemoCell 200 0) DemoCharacter (by decide!) rfl).2 rfl⟩

/-- C2 as stated fails for a player character: a valid character added at a
cell of the grid is not what the lookup of the cell returns, and the cell
still counts as empty. -/
theorem AddActorToGridArray_lookup_character_counterexample :
    ¬ (∀ (env : Env) (s : AGeneratedMap) (Cell : FCell) (a : AActor),
        s.GridArray_.Contains Cell = true → env.IS_VALID a = true →
        (AddActorToGridArray env s Cell (some a)).GridArray_.Find Cell = some (some a) ∧
        IsEmptyCell env (AddActorToGridArray env s Cell (some a)) Cell none = false) := by
  intro h
  have h1 := (h (DemoEnv 99) (OnConstruction (DemoEnv 99) (DemoMap 3 1 4 0)) (DemoCell 200 0)
    DemoCharacter (by decide!) rfl).2
  revert h1
  decide!

/-! ## Floats -/

theorem Pow2_eq (e : Int) : Pow2 e = (2 : ℚ) ^ e := by
  unfold Pow2
  by_cases h : 0 ≤ e
  · rw [if_pos h]
    obtain ⟨n, rfl⟩ := Int.eq_ofNat_of_zero_le h
    simp
  · rw [if_neg h]
    have hn : 0 ≤ -e := by omega
    obtain ⟨n, hn'⟩ := Int.eq_ofNat_of_zero_le hn
    have he : e = -(n : Int) := by omega
    rw [he]
    simp

theorem Pow2_pos (e : Int) : 0 < Pow2 e := by
  rw [Pow2_eq]
  positivity

theorem Pow2_add (a b : Int) : Pow2 (a + b) = Pow2 a * Pow2 b := by
  rw [Pow2_eq, Pow2_eq, Pow2_eq, zpow_add₀ (by norm_num)]

theorem Pow2_natCast (n : Nat) : Pow2 (n : Int) = ((2 ^ n : Nat) : ℚ) := by
  rw [Pow2_eq]
  simp

theorem Pow2_lt (a b : Int) (h : Pow2 a < Pow2 b) : a < b := by
  rw [Pow2_eq, Pow2_eq] at h
  by_contra hc
  have hba : b ≤ a := by omega
  have := zpow_le_zpow_right₀ (by norm_num : (1 : ℚ) ≤ 2) hba
  exact absurd h (not_lt.mpr this)

theorem BitLength_spec (fuel n : Nat) (hn : n ≤ fuel) (h0 : n ≠ 0) :
    1 ≤ BitLength fuel n ∧ 2 ^ (BitLength fuel n - 1) ≤ n ∧ n < 2 ^ BitLength fuel n := by
  induction fuel generalizing n with
  | zero => omega
  | succ fuel ih =>
    unfold BitLength
    rw [if_neg h0]
    by_cases h2 : n / 2 = 0
    · have h1 : n = 1 := by omega
      have hb : BitLength fuel (n / 2) = 0 := by
        rw [h2]
        cases fuel <;> simp [BitLength]
      rw [hb, h1]
      simp
    · obtain ⟨i1, i2, i3⟩ := ih (n / 2) (by omega) h2
      have e : 2 ^ BitLength fuel (n / 2) = 2 * 2 ^ (BitLength fuel (n / 2) - 1) := by
        conv_lhs => rw [← Nat.sub_add_cancel i1]
        rw [pow_succ]
        ring
      refine ⟨by omega, ?_, ?_⟩
      · rw [Nat.add_sub_cancel, e]
        omega
      · rw [pow_succ]
        omega

/-- The binade of a value other than zero starts at or below the value. -/
theorem Log2Floor_le (q : ℚ) (hq : q ≠ 0) : Pow2 (Log2Floor q) ≤ |q| := by
  unfold Log2Floor
  simp only
  split_ifs with h
  · exact h
  · have hnum : q.num.natAbs ≠ 0 := by
      rw [Ne, Int.natAbs_eq_zero]
      exact Rat.num_ne_zero.mpr hq
    obtain ⟨a1, a2, -⟩ := BitLength_spec q.num.natAbs q.num.natAbs (Nat.le_refl _) hnum
    obtain ⟨-, -, d3⟩ := BitLength_spec q.den q.den (Nat.le_refl _) q.den_nz
    have habs : |q| = (q.num.natAbs : ℚ) / (q.den : ℚ) := by
      conv_lhs => rw [← Rat.num_div_den q]
      rw [abs_div, Nat.abs_cast, Nat.cast_natAbs, Int.cast_abs]
    have hexp : (BitLength q.num.natAbs q.num.natAbs : Int) - (BitLength q.den q.den : Int) - 1
        = ((BitLength q.num.natAbs q.num.natAbs - 1 : Nat) : Int) -
          ((BitLength q.den q.den : Nat) : Int) := by
      omega
    rw [habs, hexp, Pow2_eq, zpow_sub₀ (by norm_num), zpow_natCast, zpow_natCast]
    have hd : (0 : ℚ) < (q.den : ℚ) := by exact_mod_cast q.den_pos
    have h1 : ((2 : ℚ) ^ (BitLength q.num.natAbs q.num.natAbs - 1)) ≤ (q.num.natAbs : ℚ) := by
      exact_mod_cast a2
    have h2 : (q.den : ℚ) ≤ (2 : ℚ) ^ BitLength q.den q.den := by
      exact_mod_cast le_of_lt d3
    exact div_le_div₀ (by positivity) h1 hd h2

theorem RoundHalfEven_intCast (n : Int) : RoundHalfEven (n : ℚ) = n := by
  unfold RoundHalfEven
  rw [Int.floor_intCast, sub_self, if_pos (by norm_num)]

/-- A value `m * 2 ^ j` with `|m| < 2 ^ 24` and `j` at least `-149` is a
float: rounding leaves it as it is. -/
theorem Float32_exact (m j : Int) (hm : |m| < 2 ^ 24) (hj : -149 ≤ j) :
    Float32 ((m : ℚ) * Pow2 j) = (m : ℚ) * Pow2 j := by
  unfold Float32
  by_cases h0 : (m : ℚ) * Pow2 j = 0
  · rw [if_pos h0, h0]
  · rw [if_neg h0]
    have hle := Log2Floor_le _ h0
    have hlt : |(m : ℚ) * Pow2 j| < Pow2 (24 + j) := by
      rw [abs_mul, abs_of_pos (Pow2_pos j), Pow2_add]
      apply mul_lt_mul_of_pos_right _ (Pow2_pos j)
      have : Pow2 24 = ((2 ^ 24 : Int) : ℚ) := by
        rw [Pow2_eq]
        norm_num
      rw [this, ← Int.cast_abs]
      exact_mod_cast hm
    have he : Log2Floor ((m : ℚ) * Pow2 j) < 24 + j := Pow2_lt _ _ (lt_of_le_of_lt hle hlt)
    have hk : max (Log2Floor ((m : ℚ) * Pow2 j)) (-126) - 23 ≤ j := by
      rcases max_cases (Log2Floor ((m : ℚ) * Pow2 j)) (-126) with ⟨e, -⟩ | ⟨e, -⟩ <;> rw [e] <;> omega
    generalize max (Log2Floor ((m : ℚ) * Pow2 j)) (-126) - 23 = k at hk ⊢
    obtain ⟨n, hn⟩ := Int.eq_ofNat_of_zero_le (sub_nonneg.mpr hk)
    have hj' : j = (n : Int) + k := by omega
    have hquot : (m : ℚ) * Pow2 j / Pow2 k = ((m * 2 ^ n : Int) : ℚ) := by
      rw [hj', Pow2_add, Pow2_natCast]
      field_simp [ne_of_gt (Pow2_pos k)]
      ring
    rw [hquot, RoundHalfEven_intCast, hj', Pow2_add, Pow2_natCast]
    push_cast
    ring

theorem Float32_intCast (n : Int) (hn : |n| < 2 ^ 24) : Float32 (n : ℚ) = (n : ℚ) := by
  have h := Float32_exact n 0 hn (by norm_num)
  have e : Pow2 0 = 1 := by decide
  rw [e, mul_one] at h
  exact h

/-! ## C3: the corrected scale -/

/-- The state `OnConstruction` runs its loops on. -/
theorem OnConstruction_eq (env : Env) (s : AGeneratedMap) (hs : s.bTransient = false) :
    OnConstruction env s =
      (List.range (CorrectedMapScale s.ActorScale3D).Y.toNat).foldl
        (fun sY Y =>
          (List.range (CorrectedMapScale s.ActorScale3D).X.toNat).foldl
            (fun sX X => { sX with GridArray_ := sX.GridArray_.Add (FoundCell env sX Y X) none })
            sY)
        { s with
          ActorLocation := s.ActorLocation.GridSnap env.GridSize
          ActorScale3D := FVector.ofIntVector (CorrectedMapScale s.ActorScale3D)
          GridArray_ := [] } := by
  unfold OnConstruction
  simp [hs]

/-- The loops of `OnConstruction` change the grid array only. -/
theorem OnConstruction_frame (env : Env) (s : AGeneratedMap) (hs : s.bTransient = false) :
    (OnConstruction env s).ActorScale3D = FVector.ofIntVector (CorrectedMapScale s.ActorScale3D) ∧
    (OnConstruction env s).ActorLocation = s.ActorLocation.GridSnap env.GridSize ∧
    (OnConstruction env s).ActorYaw = s.ActorYaw ∧
    (OnConstruction env s).CharactersOnMap = s.CharactersOnMap ∧
    (OnConstruction env s).CharactersNumber = s.CharactersNumber ∧
    (OnConstruction env s).BoxesChance_ = s.BoxesChance_ := by
  rw [OnConstruction_eq env s hs]
  apply foldl_preserves (fun t : AGeneratedMap =>
    t.ActorScale3D = FVector.ofIntVector (CorrectedMapScale s.ActorScale3D) ∧
    t.ActorLocation = s.ActorLocation.GridSnap env.GridSize ∧
    t.ActorYaw = s.ActorYaw ∧
    t.CharactersOnMap = s.CharactersOnMap ∧
    t.CharactersNumber = s.CharactersNumber ∧
    t.BoxesChance_ = s.BoxesChance_)
  · intro t Y ht
    apply foldl_preserves (fun t : AGeneratedMap =>
      t.ActorScale3D = FVector.ofIntVector (CorrectedMapScale s.ActorScale3D) ∧
      t.ActorLocation = s.ActorLocation.GridSnap env.GridSize ∧
      t.ActorYaw = s.ActorYaw ∧
      t.CharactersOnMap = s.CharactersOnMap ∧
      t.CharactersNumber = s.CharactersNumber ∧
      t.BoxesChance_ = s.BoxesChance_)
    · intro t' X ht'
      exact ht'
    · exact ht
  · exact ⟨rfl, rfl, rfl, rfl, rfl, rfl⟩

theorem TruncToInt_natCast (n : ℕ) (hn : n < 2 ^ 31) : TruncToInt (n : ℚ) = (n : Int) := by
  unfold TruncToInt
  simp only
  rw [if_pos (Nat.cast_nonneg n), Int.floor_natCast, if_pos (by constructor <;> omega)]

/-- The parity correction on a non-negative integer gives an odd integer that
is at least 1 and at most one above it. -/
theorem corrected_natCast (n : ℕ) :
    (if Int.tmod (n : Int) 2 ≠ 1 then (n : Int) + 1 else (n : Int)) % 2 = 1 ∧
      1 ≤ (if Int.tmod (n : Int) 2 ≠ 1 then (n : Int) + 1 else (n : Int)) ∧
      ((n : Int) % 2 = 1 →
        (if Int.tmod (n : Int) 2 ≠ 1 then (n : Int) + 1 else (n : Int)) = n) ∧
      ((n : Int) % 2 = 0 →
        (if Int.tmod (n : Int) 2 ≠ 1 then (n : Int) + 1 else (n : Int)) = n + 1) := by
  have e : Int.tmod (n : Int) 2 = (n : Int) % 2 := Int.tmod_eq_emod (by omega) (by omega)
  rw [e]
  split_ifs with h <;> omega

/-- The scale `OnConstruction` stores for a width and a length that are
non-negative integers below `2 ^ 24`: the corrected integers, which are
floats. -/
theorem OnConstruction_scale_natCast (env : Env) (s : AGeneratedMap) (n m : ℕ)
    (hs : s.bTransient = false) (hX : s.ActorScale3D.X = (n : ℚ))
    (hY : s.ActorScale3D.Y = (m : ℚ)) (hn : n < 2 ^ 24) (hm : m < 2 ^ 24) :
    (OnConstruction env s).ActorScale3D =
      ⟨(((if Int.tmod (n : Int) 2 ≠ 1 then (n : Int) + 1 else (n : Int)) : Int) : ℚ),
        (((if Int.tmod (m : Int) 2 ≠ 1 then (m : Int) + 1 else (m : Int)) : Int) : ℚ), 1⟩ := by
  rw [(OnConstruction_frame env s hs).1]
  have bn : |(if Int.tmod (n : Int) 2 ≠ 1 then (n : Int) + 1 else (n : Int))| < 2 ^ 24 := by
    have h := corrected_natCast n
    rw [abs_lt]
    constructor
    · omega
    · by_cases hp : (n : Int) % 2 = 1
      · rw [h.2.2.1 hp]
        omega
      · rw [h.2.2.2 (by omega)]
        omega
  have bm : |(if Int.tmod (m : Int) 2 ≠ 1 then (m : Int) + 1 else (m : Int))| < 2 ^ 24 := by
    have h := corrected_natCast m
    rw [abs_lt]
    constructor
    · omega
    · by_cases hp : (m : Int) % 2 = 1
      · rw [h.2.2.1 hp]
        omega
      · rw [h.2.2.2 (by omega)]
        omega
  simp only [FVector.ofIntVector, CorrectedMapScale, FIntVector.ofVector, hX, hY,
    TruncToInt_natCast n (by omega), TruncToInt_natCast m (by omega), FVector.mk.injEq]
  refine ⟨Float32_intCast _ bn, Float32_intCast _ bm, ?_⟩
  have h1 := Float32_intCast 1 (by norm_num)
  simpa using h1

/-- The scale stored for the width `2 ^ 24`: the correction gives
`2 ^ 24 + 1`, which is no float, and the nearest float is `2 ^ 24`. -/
theorem CorrectedMapScale_large :
    FVector.ofIntVector (CorrectedMapScale ⟨16777216, 1, 1⟩) = ⟨16777216, 1, 1⟩ := by decide!

/-- C3, as the code has it. When the width and the length of the scale are
non-negative integers below `2 ^ 24`, `OnConstruction` stores a scale whose
width and length are odd integers that are at least 1 and whose height
is 1. -/
theorem OnConstruction_scale_odd (env : Env) (s : AGeneratedMap) (n m : ℕ)
    (hs : s.bTransient = false) (hX : s.ActorScale3D.X = (n : ℚ))
    (hY : s.ActorScale3D.Y = (m : ℚ)) (hn : n < 2 ^ 24) (hm : m < 2 ^ 24) :
    ∃ W L : Int, (OnConstruction env s).ActorScale3D = ⟨(W : ℚ), (L : ℚ), 1⟩ ∧
      W % 2 = 1 ∧ L % 2 = 1 ∧ 1 ≤ W ∧ 1 ≤ L :=
  ⟨_, _, OnConstruction_scale_natCast env s n m hs hX hY hn hm, (corrected_natCast n).1,
    (corrected_natCast m).1, (corrected_natCast n).2.1, (corrected_natCast m).2.1⟩

theorem OnConstruction_scale_odd_witness :
    ∃ W L : Int, (OnConstruction (DemoEnv 99) (DemoMap 6 6 4 0)).ActorScale3D =
        ⟨(W : ℚ), (L : ℚ), 1⟩ ∧ W % 2 = 1 ∧ L % 2 = 1 ∧ 1 ≤ W ∧ 1 ≤ L :=
  OnConstruction_scale_odd (DemoEnv 99) (DemoMap 6 6 4 0) 6 6 rfl (by simp [DemoMap])
    (by simp [DemoMap]) (by norm_num) (by norm_num)

/-- C3 as stated fails for a width of `2 ^ 24`: the correction gives the odd
integer `2 ^ 24 + 1`, the scale is stored as a vector of floats, and the
float for `2 ^ 24 + 1` is `2 ^ 24`, which is even. -/
theorem OnConstruction_scale_odd_large_counterexample :
    ¬ (∀ (env : Env) (s : AGeneratedMap) (n m : ℕ), s.bTransient = false →
        s.ActorScale3D.X = (n : ℚ) → s.ActorScale3D.Y = (m : ℚ) →
        ∃ W L : Int, (OnConstruction env s).ActorScale3D = ⟨(W : ℚ), (L : ℚ), 1⟩ ∧
          W % 2 = 1 ∧ L % 2 = 1 ∧ 1 ≤ W ∧ 1 ≤ L) := by
  intro h
  obtain ⟨W, L, hsc, hW, -⟩ := h (DemoEnv 99) (DemoMap 16777216 1 4 0) 16777216 1 rfl
    (by simp [DemoMap]) (by simp [DemoMap])
  rw [(OnConstruction_frame (DemoEnv 99) (DemoMap 16777216 1 4 0) rfl).1] at hsc
  have e : (DemoMap 16777216 1 4 0).ActorScale3D = ⟨16777216, 1, 1⟩ := rfl
  rw [e, CorrectedMapScale_large] at hsc
  have hW2 : (16777216 : ℚ) = (W : ℚ) := (FVector.mk.injEq _ _ _ _ _ _ ▸ hsc).1
  have hW3 : W = 16777216 := by exact_mod_cast hW2.symm
  omega

/-! ## C4: the keys after construction -/

theorem RowMajorCells_length {α : Type} (cell : Nat → Nat → α) (W L : Nat) :
    (RowMajorCells cell W L).length = W * L := by
  induction L with
  | zero => rfl
  | succ L ih => simp [RowMajorCells, ih, Nat.mul_succ]

theorem RowMajorCells_getElem? {α : Type} (cell : Nat → Nat → α) (W L : Nat) (x y : Nat)
    (hx : x < W) (hy : y < L) : (RowMajorCells cell W L)[W * y + x]? = some (cell y x) := by
  induction L with
  | zero => omega
  | succ L ih =>
    unfold RowMajorCells
    by_cases h : y < L
    · have h1 : W * (y + 1) ≤ W * L := Nat.mul_le_mul_left W h
      rw [Nat.mul_succ] at h1
      rw [List.getElem?_append_left (by rw [RowMajorCells_length]; omega)]
      exact ih h
    · have e : y = L := by omega
      subst e
      rw [List.getElem?_append_right (by rw [RowMajorCells_length]; omega), RowMajorCells_length]
      have e2 : W * y + x - W * y = x := by omega
      rw [e2, List.getElem?_map, List.getElem?_range hx]
      rfl

theorem mem_RowMajorCells {α : Type} (cell : Nat → Nat → α) (W L : Nat) (c : α)
    (h : c ∈ RowMajorCells cell W L) : ∃ y x, y < L ∧ x < W ∧ c = cell y x := by
  induction L with
  | zero => simp [RowMajorCells] at h
  | succ L ih =>
    simp only [RowMajorCells, List.mem_append, List.mem_map, List.mem_range] at h
    rcases h with h | ⟨x, hx, e⟩
    · obtain ⟨y, x, hy, hx, e⟩ := ih h
      exact ⟨y, x, by omega, hx, e⟩
    · exact ⟨L, x, by omega, hx, e.symm⟩

theorem RowMajorCells_nodup {α : Type} (cell : Nat → Nat → α) (W L : Nat)
    (hinj : ∀ y x y' x', cell y x = cell y' x' → y = y' ∧ x = x') :
    (RowMajorCells cell W L).Nodup := by
  induction L with
  | zero => simp [RowMajorCells]
  | succ L ih =>
    unfold RowMajorCells
    rw [List.nodup_append]
    refine ⟨ih, ?_, ?_⟩
    · exact List.Nodup.map_on (fun a _ b _ e => (hinj L a L b e).2) (List.nodup_range W)
    · intro c h1 h2
      obtain ⟨y, x, hy, -, e⟩ := mem_RowMajorCells cell W L c h1
      simp only [List.mem_map, List.mem_range] at h2
      obtain ⟨x', -, e'⟩ := h2
      have := (hinj y x L x' (by rw [← e, e'])).1
      omega

theorem TMap.Add_of_not_mem (m : TMap) (k : FCell) (v : Option AActor)
    (h : k ∉ TMap.GetKeys m) : TMap.Add m k v = m ++ [(k, v)] := by
  unfold TMap.Add
  have hc : TMap.Contains m k = false := by
    cases hb : TMap.Contains m k
    · rfl
    · exact absurd ((TMap.Contains_iff m k).mp hb) h
  simp [hc]

/-- Adding keys that are new and distinct appends them in order. -/
theorem foldl_Add_fresh (l : List FCell) (m : TMap) (h : (m.GetKeys ++ l).Nodup) :
    l.foldl (fun (m : TMap) k => m.Add k none) m = m ++ l.map (fun k => (k, none)) := by
  induction l generalizing m with
  | nil => simp
  | cons k l ih =>
    have hk : k ∉ m.GetKeys := by
      intro hk
      rw [List.nodup_append] at h
      exact h.2.2 hk (List.mem_cons_self k l)
    simp only [List.foldl_cons, List.map_cons]
    rw [TMap.Add_of_not_mem m k none hk, ih]
    · simp
    · have e : TMap.GetKeys (m ++ [(k, none)]) ++ l = m.GetKeys ++ k :: l := by
        simp [TMap.GetKeys]
      rw [e]
      exact h

/-- The two loops of `OnConstruction` on the map alone give the row-major list
of cells, each without occupant, when the cells are pairwise distinct. -/
theorem foldl_rows_eq (cell : Nat → Nat → FCell) (W L : Nat)
    (hinj : ∀ y x y' x', cell y x = cell y' x' → y = y' ∧ x = x') :
    (List.range L).foldl
        (fun (m : TMap) Y => (List.range W).foldl (fun (m : TMap) X => m.Add (cell Y X) none) m)
        [] =
      (RowMajorCells cell W L).map (fun k => (k, none)) := by
  induction L with
  | zero => rfl
  | succ L ih =>
    rw [List.range_succ, List.foldl_append, ih]
    simp only [List.foldl_cons, List.foldl_nil]
    have e := List.foldl_map (cell L) (fun (m : TMap) k => m.Add k none) (List.range W)
      ((RowMajorCells cell W L).map (fun k => (k, none)))
    rw [← e, foldl_Add_fresh]
    · simp [RowMajorCells]
    · have hn := RowMajorCells_nodup cell W (L + 1) hinj
      simpa [RowMajorCells, TMap.GetKeys, Function.comp_def] using hn

theorem FoundCell_congr (env : Env) (t t0 : AGeneratedMap) (h : SameTransform t t0)
    (Y X : Nat) : FoundCell env t Y X = FoundCell env t0 Y X := by
  obtain ⟨h1, h2, h3⟩ := h
  simp [FoundCell, h1, h2, h3]

/-- A loop on the Level Map whose steps act on the grid array as `g` does. -/
theorem foldl_grid {β : Type} (Q : AGeneratedMap → Prop) (f : AGeneratedMap → β → AGeneratedMap)
    (g : TMap → β → TMap) (hQ : ∀ t b, Q t → Q (f t b))
    (hfg : ∀ t b, Q t → (f t b).GridArray_ = g t.GridArray_ b) (l : List β)
    (t : AGeneratedMap) (ht : Q t) :
    Q (l.foldl f t) ∧ (l.foldl f t).GridArray_ = l.foldl g t.GridArray_ := by
  induction l generalizing t with
  | nil => exact ⟨ht, rfl⟩
  | cons b l ih =>
    simp only [List.foldl_cons]
    rw [← hfg t b ht]
    exact ih (f t b) (hQ t b ht)

/-- The two loops of `OnConstruction`, started on a Level Map with the
transform of `t0`, act on the grid array alone. -/
theorem construction_loops_grid (env : Env) (t0 : AGeneratedMap) (W L : Nat)
    (t : AGeneratedMap) (ht : SameTransform t t0) :
    ((List.range L).foldl
        (fun sY Y =>
          (List.range W).foldl
            (fun sX X => { sX with GridArray_ := sX.GridArray_.Add (FoundCell env sX Y X) none })
            sY)
        t).GridArray_ =
      (List.range L).foldl
        (fun (m : TMap) Y =>
          (List.range W).foldl (fun (m : TMap) X => m.Add (FoundCell env t0 Y X) none) m)
        t.GridArray_ := by
  have hinner : ∀ (Y : Nat) (t : AGeneratedMap), SameTransform t t0 →
      SameTransform ((List.range W).foldl
          (fun sX X => { sX with GridArray_ := sX.GridArray_.Add (FoundCell env sX Y X) none }) t)
        t0 ∧
      ((List.range W).foldl
          (fun sX X => { sX with GridArray_ := sX.GridArray_.Add (FoundCell env sX Y X) none })
          t).GridArray_ =
        (List.range W).foldl (fun (m : TMap) X => m.Add (FoundCell env t0 Y X) none)
          t.GridArray_ := by
    intro Y t ht
    refine foldl_grid (fun t => SameTransform t t0)
      (fun sX X => { sX with GridArray_ := sX.GridArray_.Add (FoundCell env sX Y X) none })
      (fun (m : TMap) X => m.Add (FoundCell env t0 Y X) none) ?_ ?_ _ t ht
    · intro t' X ht'
      exact ht'
    · intro t' X ht'
      simp only
      rw [FoundCell_congr env t' t0 ht']
  refine (foldl_grid (fun t => SameTransform t t0)
    (fun sY Y =>
      (List.range W).foldl
        (fun sX X => { sX with GridArray_ := sX.GridArray_.Add (FoundCell env sX Y X) none }) sY)
    (fun (m : TMap) Y =>
      (List.range W).foldl (fun (m : TMap) X => m.Add (FoundCell env t0 Y X) none) m)
    ?_ ?_ _ t ht).2
  · intro t Y ht
    exact (hinner Y t ht).1
  · intro t Y ht
    exact (hinner Y t ht).2

/-- The grid array `OnConstruction` builds, as a loop on the map alone. -/
theorem OnConstruction_GridArray (env : Env) (s : AGeneratedMap) (hs : s.bTransient = false) :
    (OnConstruction env s).GridArray_ =
      (List.range (CorrectedMapScale s.ActorScale3D).Y.toNat).foldl
        (fun (m : TMap) Y =>
          (List.range (CorrectedMapScale s.ActorScale3D).X.toNat).foldl
            (fun (m : TMap) X => m.Add (FoundCell env (OnConstruction env s) Y X) none) m)
        [] := by
  have hfr := OnConstruction_frame env s hs
  conv_lhs => rw [OnConstruction_eq env s hs]
  exact construction_loops_grid env (OnConstruction env s) _ _ _
    ⟨hfr.2.1.symm, hfr.1.symm, hfr.2.2.1.symm⟩

theorem SnapToGrid_add_nat (c g : ℚ) (x : ℕ) (hg : g ≠ 0) :
    SnapToGrid (c + (x : ℚ) * g) g = ((⌊(c + 1 / 2 * g) / g⌋ + (x : Int) : Int) : ℚ) * g := by
  unfold SnapToGrid
  rw [if_neg hg]
  have e : (c + (x : ℚ) * g + 1 / 2 * g) / g = (c + 1 / 2 * g) / g + (x : ℚ) := by
    field_simp
    ring
  rw [e, Int.floor_add_nat]

/-- The snap of the specification is injective along the steps of the grid. -/
theorem SnapToGrid_step_injective (c g : ℚ) (x x' : ℕ) (hg : g ≠ 0)
    (h : SnapToGrid (c + (x : ℚ) * g) g = SnapToGrid (c + (x' : ℚ) * g) g) : x = x' := by
  rw [SnapToGrid_add_nat c g x hg, SnapToGrid_add_nat c g x' hg] at h
  have h2 := mul_right_cancel₀ hg h
  have h3 : ⌊(c + 1 / 2 * g) / g⌋ + (x : Int) = ⌊(c + 1 / 2 * g) / g⌋ + (x' : Int) := by
    exact_mod_cast h2
  omega

theorem SynthesizedCell_injective (g : ℚ) (origin scale : FVector) (hg : g ≠ 0)
    (x y x' y' : Nat)
    (h : SynthesizedCell g origin scale x y = SynthesizedCell g origin scale x' y') :
    x = x' ∧ y = y' := by
  simp only [SynthesizedCell, FCell.mk.injEq, FVector.mk.injEq] at h
  obtain ⟨h1, h2, -⟩ := h
  constructor
  · apply SnapToGrid_step_injective (origin.X - scale.X / 2 * g) g x x' hg
    have e : ∀ n : ℕ, origin.X - scale.X / 2 * g + (n : ℚ) * g
        = origin.X + (n : ℚ) * g - scale.X / 2 * g := fun n => by ring
    rw [e, e]
    exact h1
  · apply SnapToGrid_step_injective (origin.Y - scale.Y / 2 * g) g y y' hg
    have e : ∀ n : ℕ, origin.Y - scale.Y / 2 * g + (n : ℚ) * g
        = origin.Y + (n : ℚ) * g - scale.Y / 2 * g := fun n => by ring
    rw [e, e]
    exact h2

/-- A half-integer multiple `k / 2` of the grid size `G * 2 ^ j` is a float
when `|k| * G < 2 ^ 24`. -/
theorem Float32_grid (G : ℕ) (j k : Int) (hj : -148 ≤ j) (hk : |k| * (G : Int) < 2 ^ 24) :
    Float32 ((k : ℚ) / 2 * ((G : ℚ) * Pow2 j)) = (k : ℚ) / 2 * ((G : ℚ) * Pow2 j) := by
  have e : (k : ℚ) / 2 * ((G : ℚ) * Pow2 j) = ((k * (G : Int) : Int) : ℚ) * Pow2 (j - 1) := by
    have h2 : Pow2 j = Pow2 (j - 1) * 2 := by
      have : j = (j - 1) + 1 := by ring
      conv_lhs => rw [this, Pow2_add]
      rfl
    rw [h2]
    push_cast
    ring
  rw [e]
  apply Float32_exact _ _ _ (by omega)
  rw [abs_mul, Int.abs_natCast]
  exact hk

/-- A half-integer `k / 2` with `|k| < 2 ^ 24` is a float. -/
theorem Float32_half (k : Int) (hk : |k| < 2 ^ 24) : Float32 ((k : ℚ) / 2) = (k : ℚ) / 2 := by
  have e : (k : ℚ) / 2 = (k : ℚ) * Pow2 (-1) := by
    have : Pow2 (-1) = 1 / 2 := by
      rw [Pow2_eq]
      norm_num
    rw [this]
    ring
  rw [e]
  exact Float32_exact k (-1) hk (by norm_num)

theorem grid_bound (k B : Int) (G : ℕ) (hG : 0 < G) (hk : |k| ≤ 2 * B)
    (hB : B * (G : Int) < 2 ^ 23) : |k| * (G : Int) < 2 ^ 24 ∧ |k| < 2 ^ 24 := by
  have hG' : (1 : Int) ≤ (G : Int) := by exact_mod_cast hG
  have h0 : 0 ≤ |k| := abs_nonneg k
  have h1 : |k| * (G : Int) ≤ 2 * B * (G : Int) := Int.mul_le_mul_of_nonneg_right hk (by omega)
  have h2 : |k| * 1 ≤ |k| * (G : Int) := Int.mul_le_mul_of_nonneg_left hG' h0
  constructor
  · nlinarith
  · nlinarith

/-- One component of the cell `OnConstruction` computes, for a grid size
`G * 2 ^ j`, a location `c` cells from the origin and a scale `w`: every
intermediate value is a float, so the result is the snap of the specification
in exact arithmetic. -/
theorem FoundCell_component (g : ℚ) (G : ℕ) (j c : Int) (x w : ℕ) (v0 : ℚ)
    (hg : g = (G : ℚ) * Pow2 j) (hG : 0 < G) (hj : -148 ≤ j) (hv0 : v0 = (x : ℚ))
    (hx : x ≤ w) (hB : (|c| + (w : Int) + 1) * (G : Int) < 2 ^ 23) :
    GridSnap (Float32 (Float32 (Float32 (v0 * g) + (c : ℚ) * g) -
        Float32 (Float32 ((w : ℚ) * Float32 (1 / 2)) * g))) g =
      SnapToGrid ((c : ℚ) * g + (x : ℚ) * g - (w : ℚ) / 2 * g) g := by
  have hg0 : g ≠ 0 := by
    rw [hg]
    have : (0 : ℚ) < (G : ℚ) := by exact_mod_cast hG
    exact ne_of_gt (mul_pos this (Pow2_pos j))
  have hc0 : 0 ≤ |c| := abs_nonneg c
  have F : ∀ k : Int, |k| ≤ 2 * (|c| + (w : Int) + 1) →
      Float32 ((k : ℚ) / 2 * g) = (k : ℚ) / 2 * g := by
    intro k hk
    rw [hg]
    exact Float32_grid G j k hj (grid_bound k _ G hG hk hB).1
  have H : ∀ k : Int, |k| ≤ 2 * (|c| + (w : Int) + 1) →
      Float32 ((k : ℚ) / 2) = (k : ℚ) / 2 := by
    intro k hk
    exact Float32_half k (grid_bound k _ G hG hk hB).2
  have hhalf : Float32 ((1 : ℚ) / 2) = 1 / 2 := by
    have := Float32_half 1 (by norm_num)
    simpa using this
  -- the steps
  have s1 : Float32 (v0 * g) = ((2 * (x : Int) : Int) : ℚ) / 2 * g := by
    rw [hv0, show (x : ℚ) * g = ((2 * (x : Int) : Int) : ℚ) / 2 * g by push_cast; ring]
    exact F (2 * (x : Int)) (by rw [abs_of_nonneg (by omega)]; omega)
  have s2 : Float32 (((2 * (x : Int) : Int) : ℚ) / 2 * g + (c : ℚ) * g)
      = ((2 * ((x : Int) + c) : Int) : ℚ) / 2 * g := by
    rw [show ((2 * (x : Int) : Int) : ℚ) / 2 * g + (c : ℚ) * g
      = ((2 * ((x : Int) + c) : Int) : ℚ) / 2 * g by push_cast; ring]
    exact F (2 * ((x : Int) + c)) (by
      rw [abs_le]
      rcases abs_cases c with ⟨e, -⟩ | ⟨e, -⟩ <;> omega)
  have s3 : Float32 ((w : ℚ) * Float32 (1 / 2)) = (((w : Int) : Int) : ℚ) / 2 := by
    rw [hhalf, show (w : ℚ) * (1 / 2) = (((w : Int) : Int) : ℚ) / 2 by push_cast; ring]
    exact H (w : Int) (by rw [abs_of_nonneg (by omega)]; omega)
  have s4 : Float32 ((((w : Int) : Int) : ℚ) / 2 * g) = (((w : Int) : Int) : ℚ) / 2 * g :=
    F (w : Int) (by rw [abs_of_nonneg (by omega)]; omega)
  have s5 : Float32 (((2 * ((x : Int) + c) : Int) : ℚ) / 2 * g - (((w : Int) : Int) : ℚ) / 2 * g)
      = ((2 * ((x : Int) + c) - (w : Int) : Int) : ℚ) / 2 * g := by
    rw [show ((2 * ((x : Int) + c) : Int) : ℚ) / 2 * g - (((w : Int) : Int) : ℚ) / 2 * g
      = ((2 * ((x : Int) + c) - (w : Int) : Int) : ℚ) / 2 * g by push_cast; ring]
    exact F (2 * ((x : Int) + c) - (w : Int)) (by
      rw [abs_le]
      rcases abs_cases c with ⟨e, -⟩ | ⟨e, -⟩ <;> omega)
  have s6 : Float32 (1 / 2 * g) = 1 / 2 * g := by
    have := F 1 (by rw [abs_of_nonneg (by omega)]; omega)
    simpa using this
  have s7 : Float32 (((2 * ((x : Int) + c) - (w : Int) : Int) : ℚ) / 2 * g + 1 / 2 * g)
      = ((2 * ((x : Int) + c) - (w : Int) + 1 : Int) : ℚ) / 2 * g := by
    rw [show ((2 * ((x : Int) + c) - (w : Int) : Int) : ℚ) / 2 * g + 1 / 2 * g
      = ((2 * ((x : Int) + c) - (w : Int) + 1 : Int) : ℚ) / 2 * g by push_cast; ring]
    exact F (2 * ((x : Int) + c) - (w : Int) + 1) (by
      rw [abs_le]
      rcases abs_cases c with ⟨e, -⟩ | ⟨e, -⟩ <;> omega)
  have s8 : Float32 (((2 * ((x : Int) + c) - (w : Int) + 1 : Int) : ℚ) / 2 * g / g)
      = ((2 * ((x : Int) + c) - (w : Int) + 1 : Int) : ℚ) / 2 := by
    rw [show ((2 * ((x : Int) + c) - (w : Int) + 1 : Int) : ℚ) / 2 * g / g
      = ((2 * ((x : Int) + c) - (w : Int) + 1 : Int) : ℚ) / 2 by field_simp; ring]
    exact H (2 * ((x : Int) + c) - (w : Int) + 1) (by
      rw [abs_le]
      rcases abs_cases c with ⟨e, -⟩ | ⟨e, -⟩ <;> omega)
  have s9 : ⌊((2 * ((x : Int) + c) - (w : Int) + 1 : Int) : ℚ) / 2⌋
      = (2 * ((x : Int) + c) - (w : Int) + 1) / 2 := by
    have := Rat.floor_intCast_div_natCast (2 * ((x : Int) + c) - (w : Int) + 1) 2
    simpa using this
  have s10 : Float32 ((((2 * ((x : Int) + c) - (w : Int) + 1) / 2 : Int) : ℚ) * g)
      = (((2 * ((x : Int) + c) - (w : Int) + 1) / 2 : Int) : ℚ) * g := by
    have := F (2 * ((2 * ((x : Int) + c) - (w : Int) + 1) / 2)) (by
      rw [abs_le]
      rcases abs_cases c with ⟨e, -⟩ | ⟨e, -⟩ <;> omega)
    rw [show (((2 * ((x : Int) + c) - (w : Int) + 1) / 2 : Int) : ℚ) * g =
      ((2 * ((2 * ((x : Int) + c) - (w : Int) + 1) / 2) : Int) : ℚ) / 2 * g by push_cast; ring]
    exact this
  unfold GridSnap SnapToGrid
  rw [if_neg hg0, if_neg hg0, s1, s2, s3, s4, s5, s6, s7, s8, s9, s10]
  have e : ((c : ℚ) * g + (x : ℚ) * g - (w : ℚ) / 2 * g + 1 / 2 * g) / g
      = ((2 * ((x : Int) + c) - (w : Int) + 1 : Int) : ℚ) / 2 := by
    field_simp
    ring
  rw [e, s9]

/-- The alignment of a coordinate: for a grid size `G * 2 ^ j` the snap of the
code is the multiple `n` of the grid size it computes, when `n * G` has a
24-bit mantissa. -/
theorem GridSnap_grid_point (g : ℚ) (G : ℕ) (j n : Int) (p : ℚ)
    (hg : g = (G : ℚ) * Pow2 j) (hG : 0 < G) (hj : -148 ≤ j)
    (hn : ⌊Float32 (Float32 (p + Float32 (1 / 2 * g)) / g)⌋ = n)
    (hb : |n| * (G : Int) < 2 ^ 23) : GridSnap p g = (n : ℚ) * g := by
  have hg0 : g ≠ 0 := by
    rw [hg]
    have : (0 : ℚ) < (G : ℚ) := by exact_mod_cast hG
    exact ne_of_gt (mul_pos this (Pow2_pos j))
  unfold GridSnap
  rw [if_neg hg0, hn, hg]
  have h := Float32_grid G j (2 * n) hj (by
    rw [abs_mul, abs_of_pos (by norm_num : (0 : Int) < 2), mul_assoc]
    omega)
  have e : ((2 * n : Int) : ℚ) / 2 * ((G : ℚ) * Pow2 j) = (n : ℚ) * ((G : ℚ) * Pow2 j) := by
    push_cast
    ring
  rw [e] at h
  exact h

/-- On a Level Map whose rotation helper is the identity, whose grid size is
`G * 2 ^ j`, whose location is a point of the grid and whose extent stays
below `2 ^ 23` units of `2 ^ j`, the cell of the code for a pair in range is
the cell of the specification: the float operations are exact. -/
theorem FoundCell_eq_SynthesizedCell (env : Env) (t : AGeneratedMap) (G W L : ℕ)
    (j cx cy cz : Int)
    (hrot : ∀ v, env.CalculateVectorAsRotatedCell t.ActorYaw v = ⟨v⟩)
    (hg : env.GridSize = (G : ℚ) * Pow2 j) (hG : 0 < G) (hj : -148 ≤ j)
    (hloc : t.ActorLocation =
      ⟨(cx : ℚ) * env.GridSize, (cy : ℚ) * env.GridSize, (cz : ℚ) * env.GridSize⟩)
    (hscale : t.ActorScale3D = ⟨(W : ℚ), (L : ℚ), 1⟩)
    (hbX : (|cx| + (W : Int) + 1) * (G : Int) < 2 ^ 23)
    (hbY : (|cy| + (L : Int) + 1) * (G : Int) < 2 ^ 23)
    (hbZ : (|cz| + 2) * (G : Int) < 2 ^ 23)
    (Y X : Nat) (hX : X < W) (hY : Y < L) :
    FoundCell env t Y X = SynthesizedCell env.GridSize t.ActorLocation t.ActorScale3D X Y := by
  have hG1 : (1 : Int) ≤ (G : Int) := by exact_mod_cast hG
  have hW24 : (W : Int) < 2 ^ 23 := by
    have := abs_nonneg cx
    nlinarith
  have hL24 : (L : Int) < 2 ^ 23 := by
    have := abs_nonneg cy
    nlinarith
  have fX : Float32 ((X : ℕ) : ℚ) = (X : ℚ) := by
    have := Float32_intCast (X : Int) (by rw [abs_of_nonneg (by omega)]; omega)
    simpa using this
  have fY : Float32 ((Y : ℕ) : ℚ) = (Y : ℚ) := by
    have := Float32_intCast (Y : Int) (by rw [abs_of_nonneg (by omega)]; omega)
    simpa using this
  have cX := FoundCell_component env.GridSize G j cx X W (Float32 (X : ℚ)) hg hG hj fX
    (le_of_lt hX) hbX
  have cY := FoundCell_component env.GridSize G j cy Y L (Float32 (Y : ℚ)) hg hG hj fY
    (le_of_lt hY) hbY
  have cZ := FoundCell_component env.GridSize G j cz 0 1 0 hg hG hj (by norm_num)
    (by norm_num) (by
      have e : |cz| + ((1 : ℕ) : Int) + 1 = |cz| + 2 := by push_cast; ring
      rw [e]
      exact hbZ)
  simp only [Nat.cast_zero, Nat.cast_one] at cZ
  simp only [FoundCell, SynthesizedCell, FVector.MulScalar, FVector.DivScalar, FVector.Add,
    FVector.Sub, FVector.GridSnap, hrot, hloc, hscale, FCell.mk.injEq, FVector.mk.injEq]
  exact ⟨cX, cY, cZ⟩

/-- The loops on the map give the same map for two families of cells that
agree on the pairs in range. -/
theorem foldl_rows_congr (cell cell' : Nat → Nat → FCell) (W L : Nat)
    (h : ∀ y x, y < L → x < W → cell y x = cell' y x) (m : TMap) :
    (List.range L).foldl
        (fun (m : TMap) Y => (List.range W).foldl (fun (m : TMap) X => m.Add (cell Y X) none) m)
        m =
      (List.range L).foldl
        (fun (m : TMap) Y => (List.range W).foldl (fun (m : TMap) X => m.Add (cell' Y X) none) m)
        m := by
  apply List.foldl_ext
  intro m1 Y hYm
  apply List.foldl_ext
  intro m2 X hXm
  rw [h Y X (List.mem_range.mp hYm) (List.mem_range.mp hXm)]

/-- The grid array after construction is the row-major list of the cells of
the specification, each without occupant. -/
theorem OnConstruction_GridArray_row_major (env : Env) (s : AGeneratedMap) (G W L : ℕ)
    (j cx cy cz : Int)
    (hs : s.bTransient = false) (hyaw : s.ActorYaw = 0)
    (hrot : ∀ v, env.CalculateVectorAsRotatedCell 0 v = ⟨v⟩)
    (hW : (CorrectedMapScale s.ActorScale3D).X = (W : Int))
    (hL : (CorrectedMapScale s.ActorScale3D).Y = (L : Int))
    (hg : env.GridSize = (G : ℚ) * Pow2 j) (hG : 0 < G) (hj : -148 ≤ j)
    (hcx : ⌊Float32 (Float32 (s.ActorLocation.X + Float32 (1 / 2 * env.GridSize)) /
      env.GridSize)⌋ = cx)
    (hcy : ⌊Float32 (Float32 (s.ActorLocation.Y + Float32 (1 / 2 * env.GridSize)) /
      env.GridSize)⌋ = cy)
    (hcz : ⌊Float32 (Float32 (s.ActorLocation.Z + Float32 (1 / 2 * env.GridSize)) /
      env.GridSize)⌋ = cz)
    (hbX : (|cx| + (W : Int) + 1) * (G : Int) < 2 ^ 23)
    (hbY : (|cy| + (L : Int) + 1) * (G : Int) < 2 ^ 23)
    (hbZ : (|cz| + 2) * (G : Int) < 2 ^ 23) :
    (OnConstruction env s).ActorScale3D = ⟨(W : ℚ), (L : ℚ), 1⟩ ∧
    (OnConstruction env s).GridArray_ =
      (RowMajorCells
        (fun y x => SynthesizedCell env.GridSize (OnConstruction env s).ActorLocation
          (OnConstruction env s).ActorScale3D x y) W L).map (fun k => (k, none)) := by
  have hfr := OnConstruction_frame env s hs
  have hrot' : ∀ v, env.CalculateVectorAsRotatedCell (OnConstruction env s).ActorYaw v = ⟨v⟩ := by
    rw [hfr.2.2.1, hyaw]
    exact hrot
  have hG1 : (1 : Int) ≤ (G : Int) := by exact_mod_cast hG
  have hloc : (OnConstruction env s).ActorLocation =
      ⟨(cx : ℚ) * env.GridSize, (cy : ℚ) * env.GridSize, (cz : ℚ) * env.GridSize⟩ := by
    rw [hfr.2.1]
    simp only [FVector.GridSnap, FVector.mk.injEq]
    have hax := abs_nonneg cx
    have hay := abs_nonneg cy
    have haz := abs_nonneg cz
    exact ⟨GridSnap_grid_point _ G j cx _ hg hG hj hcx (by nlinarith),
      GridSnap_grid_point _ G j cy _ hg hG hj hcy (by nlinarith),
      GridSnap_grid_point _ G j cz _ hg hG hj hcz (by nlinarith)⟩
  have hg0 : env.GridSize ≠ 0 := by
    rw [hg]
    have : (0 : ℚ) < (G : ℚ) := by exact_mod_cast hG
    exact ne_of_gt (mul_pos this (Pow2_pos j))
  have hscale : (OnConstruction env s).ActorScale3D = ⟨(W : ℚ), (L : ℚ), 1⟩ := by
    rw [hfr.1]
    have e : CorrectedMapScale s.ActorScale3D = ⟨(W : Int), (L : Int), 1⟩ := by
      rw [← hW, ← hL]
      rfl
    rw [e]
    have fW := Float32_intCast (W : Int) (by
      rw [abs_of_nonneg (by omega)]
      have := abs_nonneg cx
      nlinarith)
    have fL := Float32_intCast (L : Int) (by
      rw [abs_of_nonneg (by omega)]
      have := abs_nonneg cy
      nlinarith)
    have f1 := Float32_intCast 1 (by norm_num)
    simp only [FVector.ofIntVector, FVector.mk.injEq]
    exact ⟨by simpa using fW, by simpa using fL, by simpa using f1⟩
  refine ⟨hscale, ?_⟩
  rw [OnConstruction_GridArray env s hs, hW, hL]
  simp only [Int.toNat_ofNat]
  rw [foldl_rows_congr (fun Y X => FoundCell env (OnConstruction env s) Y X)
    (fun Y X => SynthesizedCell env.GridSize (OnConstruction env s).ActorLocation
      (OnConstruction env s).ActorScale3D X Y) W L
    (fun y x hy hx => FoundCell_eq_SynthesizedCell env (OnConstruction env s) G W L j cx cy cz
      hrot' hg hG hj hloc hscale hbX hbY hbZ y x hx hy)]
  exact foldl_rows_eq _ W L
    (fun y x y' x' e => (SynthesizedCell_injective env.GridSize _ _ hg0 x y x' y' e).symm)

/-- C4, as the code has it. After `OnConstruction` on an unrotated Level Map
of corrected width `W` and length `L`, for a grid size `G * 2 ^ j` (every
positive float is of this form), an origin that the alignment puts
`(cx, cy, cz)` cells from the origin of the world, and an extent below
`2 ^ 23` units of `2 ^ j`, which makes every float operation exact: distinct
pairs `(x, y)` in range give distinct cells, the number of keys is `W * L`,
and the key at position `W * y + x` is the cell
snap(origin + (x, y, 0) × cellSize − (scale / 2) × cellSize). -/
theorem OnConstruction_keys_row_major (env : Env) (s : AGeneratedMap) (G W L : ℕ)
    (j cx cy cz : Int)
    (hs : s.bTransient = false) (hyaw : s.ActorYaw = 0)
    (hrot : ∀ v, env.CalculateVectorAsRotatedCell 0 v = ⟨v⟩)
    (hW : (CorrectedMapScale s.ActorScale3D).X = (W : Int))
    (hL : (CorrectedMapScale s.ActorScale3D).Y = (L : Int))
    (hg : env.GridSize = (G : ℚ) * Pow2 j) (hG : 0 < G) (hj : -148 ≤ j ∧ j ≤ 100)
    (hcx : ⌊Float32 (Float32 (s.ActorLocation.X + Float32 (1 / 2 * env.GridSize)) /
      env.GridSize)⌋ = cx)
    (hcy : ⌊Float32 (Float32 (s.ActorLocation.Y + Float32 (1 / 2 * env.GridSize)) /
      env.GridSize)⌋ = cy)
    (hcz : ⌊Float32 (Float32 (s.ActorLocation.Z + Float32 (1 / 2 * env.GridSize)) /
      env.GridSize)⌋ = cz)
    (hbX : (|cx| + (W : Int) + 1) * (G : Int) < 2 ^ 23)
    (hbY : (|cy| + (L : Int) + 1) * (G : Int) < 2 ^ 23)
    (hbZ : (|cz| + 2) * (G : Int) < 2 ^ 23) :
    (∀ x y x' y' : Nat, x < W → y < L → x' < W → y' < L →
      SynthesizedCell env.GridSize (OnConstruction env s).ActorLocation
          (OnConstruction env s).ActorScale3D x y =
        SynthesizedCell env.GridSize (OnConstruction env s).ActorLocation
          (OnConstruction env s).ActorScale3D x' y' → x = x' ∧ y = y') ∧
    (OnConstruction env s).GridArray_.Num = W * L ∧
    (∀ x y : Nat, x < W → y < L →
      (OnConstruction env s).GridArray_.GetKeys[W * y + x]? =
        some (SynthesizedCell env.GridSize (OnConstruction env s).ActorLocation
          (OnConstruction env s).ActorScale3D x y)) := by
  have hgrid := (OnConstruction_GridArray_row_major env s G W L j cx cy cz hs hyaw hrot hW hL
    hg hG hj.1 hcx hcy hcz hbX hbY hbZ).2
  have hg0 : env.GridSize ≠ 0 := by
    rw [hg]
    have : (0 : ℚ) < (G : ℚ) := by exact_mod_cast hG
    exact ne_of_gt (mul_pos this (Pow2_pos j))
  refine ⟨?_, ?_, ?_⟩
  · intro x y x' y' _ _ _ _ e
    exact SynthesizedCell_injective env.GridSize _ _ hg0 x y x' y' e
  · rw [hgrid]
    simp [TMap.Num, RowMajorCells_length]
  · intro x y hx hy
    rw [hgrid]
    simp only [TMap.GetKeys, List.map_map, Function.comp_def, List.map_id']
    exact RowMajorCells_getElem? _ W L x y hx hy

theorem OnConstruction_keys_row_major_witness :
    (OnConstruction (DemoEnv 99) (DemoMap 6 6 4 0)).GridArray_.Num = 7 * 7 ∧
    (OnConstruction (DemoEnv 99) (DemoMap 6 6 4 0)).GridArray_.GetKeys[7 * 2 + 3]? =
      some (SynthesizedCell (DemoEnv 99).GridSize
        (OnConstruction (DemoEnv 99) (DemoMap 6 6 4 0)).ActorLocation
        (OnConstruction (DemoEnv 99) (DemoMap 6 6 4 0)).ActorScale3D 3 2) :=
  have h := OnConstruction_keys_row_major (DemoEnv 99) (DemoMap 6 6 4 0) 25 7 7 3 0 0 0 rfl
    rfl (fun _ => rfl) (by decide!) (by decide!) (by decide!) (by decide) (by decide)
    (by decide!) (by decide!) (by decide!) (by decide) (by decide) (by decide)
  ⟨h.2.1, h.2.2 3 2 (by decide) (by decide)⟩

/-- C4 as stated fails far from the origin of the world: on the unrotated
Level Map of scale 3 x 1 at `(10 ^ 10, 0, 0)`, where neighbouring floats are
1024 apart, the three cells of the row are the same float vector, so the grid
array has one key and not three. -/
theorem OnConstruction_keys_far_counterexample :
    ¬ (∀ (env : Env) (s : AGeneratedMap) (W L : ℕ), s.bTransient = false →
        0 < env.GridSize → s.ActorYaw = 0 →
        (∀ v, env.CalculateVectorAsRotatedCell 0 v = ⟨v⟩) →
        (CorrectedMapScale s.ActorScale3D).X = (W : Int) →
        (CorrectedMapScale s.ActorScale3D).Y = (L : Int) →
        (OnConstruction env s).GridArray_.Num = W * L) := by
  intro h
  have h1 := h (DemoEnv 99) DemoFar 3 1 rfl (by norm_num [DemoEnv]) rfl (fun _ => rfl)
    (by decide!) (by decide!)
  have h2 : (OnConstruction (DemoEnv 99) DemoFar).GridArray_.Num = 1 := by decide!
  rw [h2] at h1
  omega

/-! ## The record of the selections -/

theorem foldlM_preserves {σ β : Type} (Q : σ → Prop) (f : σ → β → Option σ)
    (hf : ∀ a b a', Q a → f a b = some a' → Q a') (l : List β) (a a' : σ) (h : Q a)
    (hr : l.foldlM f a = some a') : Q a' := by
  induction l generalizing a with
  | nil =>
    simp only [List.foldlM_nil, Option.pure_def, Option.some.injEq] at hr
    rw [← hr]
    exact h
  | cons b l ih =>
    simp only [List.foldlM_cons, Option.bind_eq_bind] at hr
    cases hb : f a b with
    | none => simp [hb] at hr
    | some a1 =>
      simp only [hb, Option.some_bind] at hr
      exact ih a1 (hf a b a1 h hb) hr

/-- A property that every iteration preserves holds after the two loops. -/
theorem GenerateLoops_preserves (Q : FGenerateLoop → Prop) (env : Env) (M : FIntVector)
    (CellsArray : List FCell)
    (hbody : ∀ (Y X : Nat) (st st' : FGenerateLoop), Q st →
      GenerateLoopBody env M CellsArray Y st X = some st' → Q st')
    (st0 r : FGenerateLoop) (h0 : Q st0) (h : GenerateLoops env M CellsArray st0 = some r) :
    Q r := by
  unfold GenerateLoops at h
  refine foldlM_preserves Q _ ?_ _ _ r h0 h
  intro st Y st' hst hrow
  unfold GenerateRow at hrow
  exact foldlM_preserves Q _ (fun st1 X st2 h1 hb => hbody Y X st1 st2 h1 hb) _ _ st' hst hrow

/-- A pass of the game build returns at once when the grid array has no key,
and runs the loops on the Level Map after the hygiene otherwise. -/
theorem GenerateLevelActorsTrace_cases (env : Env) (s : AGeneratedMap) (r : FGenerateLoop)
    (h : GenerateLevelActorsTrace env s = some r) :
    (s.GridArray_.Num = 0 ∧ r = ⟨s, 0, [], []⟩) ∨
    (s.GridArray_.Num ≠ 0 ∧
      GenerateLoops env (FIntVector.ofVector s.ActorScale3D) s.GridArray_.GetKeys
        ⟨AfterHygiene env s, 0, [], []⟩ = some r) := by
  unfold GenerateLevelActorsTrace at h
  by_cases h0 : s.GridArray_.Num = 0
  · simp only [h0, if_true, Option.some.injEq] at h
    exact Or.inl ⟨h0, h.symm⟩
  · simp only [h0, if_false] at h
    exact Or.inr ⟨h0, h⟩

/-- A pass of the editor build returns at once when the grid array has no
key, and otherwise runs the loops in the world after the destruction on the
Level Map after the broadcast. -/
theorem GenerateLevelActorsTraceEditor_cases (env : Env) (ed : EditorEnv) (s : AGeneratedMap)
    (r : FGenerateLoop) (h : GenerateLevelActorsTraceEditor env ed s = some r) :
    (s.GridArray_.Num = 0 ∧ r = ⟨s, 0, [], []⟩) ∨
    (s.GridArray_.Num ≠ 0 ∧
      GenerateLoops (EditorWorld env ed s) (FIntVector.ofVector (EditorStart env ed s).ActorScale3D)
        (EditorStart env ed s).GridArray_.GetKeys ⟨EditorStart env ed s, 0, [], []⟩ = some r) := by
  unfold GenerateLevelActorsTraceEditor at h
  by_cases h0 : s.GridArray_.Num = 0
  · simp only [h0, if_true, Option.some.injEq] at h
    exact Or.inl ⟨h0, h.symm⟩
  · simp only [h0, if_false] at h
    exact Or.inr ⟨h0, h⟩

/-- The loop of `DestroyAttachedActors` changes the validity of actors only:
an actor is valid afterwards when it was valid and the loop did not destroy
it. -/
theorem foldl_Destroy (ed : EditorEnv) (b : Bool) (l : List AActor) (w : Env) :
    (l.foldl (fun w a => if b = false || ed.IsEditorOnly a then w.Destroy a else w)
        w).SpawnActorAbsolute = w.SpawnActorAbsolute ∧
    (l.foldl (fun w a => if b = false || ed.IsEditorOnly a then w.Destroy a else w)
        w).HasWorld = w.HasWorld ∧
    (l.foldl (fun w a => if b = false || ed.IsEditorOnly a then w.Destroy a else w)
        w).Rand = w.Rand ∧
    ∀ a, (l.foldl (fun w a => if b = false || ed.IsEditorOnly a then w.Destroy a else w)
        w).IS_VALID a =
      (w.IS_VALID a && !(l.any (fun x => decide (x = a) && (!b || ed.IsEditorOnly x)))) := by
  induction l generalizing w with
  | nil => simp
  | cons x l ih =>
    simp only [List.foldl_cons, List.any_cons]
    by_cases hc : (b = false || ed.IsEditorOnly x) = true
    · rw [if_pos hc]
      obtain ⟨i1, i2, i3, i4⟩ := ih (w.Destroy x)
      refine ⟨i1, i2, i3, ?_⟩
      intro a
      rw [i4 a]
      have hc' : (!b || ed.IsEditorOnly x) = true := by
        cases b
        · simp
        · simpa using hc
      simp only [Env.Destroy, hc', Bool.and_true]
      by_cases hxa : x = a
      · simp [hxa]
      · have hax : ¬ a = x := fun e => hxa e.symm
        simp [hxa, hax]
    · rw [if_neg hc]
      obtain ⟨i1, i2, i3, i4⟩ := ih w
      refine ⟨i1, i2, i3, ?_⟩
      intro a
      rw [i4 a]
      have hc' : (!b || ed.IsEditorOnly x) = false := by
        cases b
        · simp at hc
        · simpa using hc
      simp [hc']

/-- The world after `DestroyAttachedActors`: the spawner, the world and the
random generator are as before, and an actor is valid when it was valid and
is not an attached actor the call destroys. -/
theorem DestroyAttachedActors_world (env : Env) (ed : EditorEnv) (s : AGeneratedMap)
    (b : Bool) :
    (DestroyAttachedActors env ed s b).SpawnActorAbsolute = env.SpawnActorAbsolute ∧
    (DestroyAttachedActors env ed s b).HasWorld = env.HasWorld ∧
    (DestroyAttachedActors env ed s b).Rand = env.Rand ∧
    ∀ a, (DestroyAttachedActors env ed s b).IS_VALID a =
      (env.IS_VALID a && !(!s.bTransient &&
        ed.AttachedActors.any (fun x => decide (x = a) && (!b || ed.IsEditorOnly x)))) := by
  unfold DestroyAttachedActors
  by_cases ht : s.bTransient = true
  · simp [ht]
  · have ht' : s.bTransient = false := by simpa using ht
    simp only [ht', Bool.false_eq_true, if_false, Bool.not_false, Bool.true_and]
    obtain ⟨i1, i2, i3, i4⟩ := foldl_Destroy ed b ed.AttachedActors.reverse env
    refine ⟨i1, i2, i3, ?_⟩
    intro a
    rw [i4 a, List.any_reverse]

/-- One iteration either leaves the record as it is or appends the selection
made for its cell. -/
theorem GenerateLoopBody_Selected (env : Env) (MapScale : FIntVector) (CellsArray : List FCell)
    (Y X : Nat) (st st' : FGenerateLoop)
    (h : GenerateLoopBody env MapScale CellsArray Y st X = some st') :
    st'.Selected = st.Selected ∨
      ∃ Draw : Int, st'.Selected = st.Selected ++
        [(X, Y, (SelectActorType MapScale st.Map.CharactersNumber st.Map.BoxesChance_
          st.SpawnedCharactersN Draw Y X).1)] := by
  unfold GenerateLoopBody at h
  cases hc : CellsArray[(MapScale.X * ↑Y + ↑X).toNat]? with
  | none => simp [hc] at h
  | some CellIt =>
    simp only [hc] at h
    by_cases he : IsEmptyCell env st.Map CellIt none = false
    · simp only [he, if_true, Option.some.injEq] at h
      left
      rw [← h]
    · have he' : IsEmptyCell env st.Map CellIt none = true := by simpa using he
      simp only [he', Bool.true_eq_false, if_false, Option.some.injEq] at h
      right
      refine ⟨RandRange env st.Map.RandCalls 0 99, ?_⟩
      rw [← h]

/-- A property of every selection the selection part can make holds of every
entry of the record of a pass. -/
theorem GenerateLevelActorsTrace_Selected (env : Env) (s : AGeneratedMap) (r : FGenerateLoop)
    (P : Nat × Nat × EActorTypeEnum → Prop)
    (hP : ∀ (n c sp d : Int) (X Y : Nat),
      P (X, Y, (SelectActorType (FIntVector.ofVector s.ActorScale3D) n c sp d Y X).1))
    (h : GenerateLevelActorsTrace env s = some r) : ∀ e ∈ r.Selected, P e := by
  unfold GenerateLevelActorsTrace at h
  by_cases h0 : s.GridArray_.Num = 0
  · simp only [h0, if_true, Option.some.injEq] at h
    rw [← h]
    simp
  · simp only [h0, if_false] at h
    refine foldlM_preserves (fun st : FGenerateLoop => ∀ e ∈ st.Selected, P e) _ ?_ _ _ r ?_ h
    · intro st Y st' hst hrow
      refine foldlM_preserves (fun st : FGenerateLoop => ∀ e ∈ st.Selected, P e) _ ?_ _ _ st' hst
        hrow
      intro st1 X st2 hst1 hbody
      rcases GenerateLoopBody_Selected env _ _ Y X st1 st2 hbody with e | ⟨d, e⟩
      · rw [e]
        exact hst1
      · rw [e]
        intro x hx
        rcases List.mem_append.mp hx with hx | hx
        · exact hst1 x hx
        · rw [List.mem_singleton.mp hx]
          exact hP _ _ _ _ X Y
    · simp

/-- A property of every selection the selection part can make holds of every
entry the loops add to the record. -/
theorem GenerateLoops_Selected (env : Env) (M : FIntVector) (CellsArray : List FCell)
    (st0 r : FGenerateLoop) (P : Nat × Nat × EActorTypeEnum → Prop)
    (hP : ∀ (n c sp d : Int) (X Y : Nat), P (X, Y, (SelectActorType M n c sp d Y X).1))
    (h0 : ∀ e ∈ st0.Selected, P e)
    (h : GenerateLoops env M CellsArray st0 = some r) : ∀ e ∈ r.Selected, P e := by
  refine GenerateLoops_preserves (fun st : FGenerateLoop => ∀ e ∈ st.Selected, P e) env M
    CellsArray ?_ st0 r h0 h
  intro Y X st1 st2 hst1 hbody
  rcases GenerateLoopBody_Selected env _ _ Y X st1 st2 hbody with e | ⟨d, e⟩
  · rw [e]
    exact hst1
  · rw [e]
    intro x hx
    rcases List.mem_append.mp hx with hx | hx
    · exact hst1 x hx
    · rw [List.mem_singleton.mp hx]
      exact hP _ _ _ _ X Y

/-- A property of every selection the selection part can make holds of every
entry of the record of a pass of the editor build. -/
theorem GenerateLevelActorsTraceEditor_Selected (env : Env) (ed : EditorEnv)
    (s : AGeneratedMap) (r : FGenerateLoop) (P : Nat × Nat × EActorTypeEnum → Prop)
    (hP : ∀ (n c sp d : Int) (X Y : Nat),
      P (X, Y, (SelectActorType (FIntVector.ofVector (EditorStart env ed s).ActorScale3D)
        n c sp d Y X).1))
    (h : GenerateLevelActorsTraceEditor env ed s = some r) : ∀ e ∈ r.Selected, P e := by
  rcases GenerateLevelActorsTraceEditor_cases env ed s r h with ⟨-, e⟩ | ⟨-, hloops⟩
  · rw [e]
    simp
  · exact GenerateLoops_Selected _ _ _ _ r P hP (by simp) hloops

/-! ## C5: the wall rule -/

/-- The selection part, rule by rule. -/
theorem SelectActorType_eq (M : FIntVector) (n c sp d : Int) (Y X : Nat) :
    SelectActorType M n c sp d Y X =
      if IsCornerCell M X Y ∧ sp < n then (EActorTypeEnum.Player, sp + 1, false)
      else if X % 2 = 1 ∧ Y % 2 = 1 then (EActorTypeEnum.Wall, sp, false)
      else if d < c ∧ InBoxZone M X Y then (EActorTypeEnum.Box, sp, true)
      else (EActorTypeEnum.None, sp, true) := by
  unfold SelectActorType IsCornerCell InBoxZone
  by_cases h1 : ((X : Int) = 0 ∨ (X : Int) = M.X - 1)
  <;> by_cases h2 : ((Y : Int) = 0 ∨ (Y : Int) = M.Y - 1)
  <;> by_cases h3 : sp < n
  <;> by_cases h4 : (X % 2 = 1 ∧ Y % 2 = 1)
  <;> by_cases h5 : d < c
  <;> simp only [h1, h2, h3, h4, h5, decide_True, decide_False, Bool.and_true, Bool.true_and,
    Bool.and_false, Bool.false_and, if_true, if_false, and_true, true_and, and_false, false_and,
    Bool.false_eq_true, Bool.not_true, Bool.not_false, Bool.or_false, Bool.false_or,
    not_true_eq_false, not_false_eq_true, or_false, false_or, reduceCtorEq, Bool.and_eq_true,
    Bool.or_eq_true, decide_eq_true_eq, ne_eq, decide_not, Bool.not_eq_true',
    decide_eq_false_iff_not, and_self, ite_self]
  all_goals (split_ifs <;> rfl)

/-- The selection for a cell with both indices odd: the wall, unless the cell
is the corner `(MapScale.X - 1, MapScale.Y - 1)` and a player slot is left, in
which case it is the player. The box is never selected for it. -/
theorem SelectActorType_odd (M : FIntVector) (n c sp d : Int) (X Y : Nat)
    (hX : X % 2 = 1) (hY : Y % 2 = 1) :
    (SelectActorType M n c sp d Y X).1 =
      if (X : Int) = M.X - 1 ∧ (Y : Int) = M.Y - 1 ∧ sp < n then EActorTypeEnum.Player
      else EActorTypeEnum.Wall := by
  rw [SelectActorType_eq]
  have hX0 : ¬ (X : Int) = 0 := by omega
  have hY0 : ¬ (Y : Int) = 0 := by omega
  by_cases h : (X : Int) = M.X - 1 ∧ (Y : Int) = M.Y - 1 ∧ sp < n
  · have hc : IsCornerCell M X Y ∧ sp < n := ⟨⟨Or.inr h.1, Or.inr h.2.1⟩, h.2.2⟩
    rw [if_pos hc, if_pos h]
  · have hc : ¬ (IsCornerCell M X Y ∧ sp < n) := by
      rintro ⟨⟨h1, h2⟩, h3⟩
      rcases h1 with h1 | h1
      · exact hX0 h1
      · rcases h2 with h2 | h2
        · exact hY0 h2
        · exact h ⟨h1, h2, h3⟩
    rw [if_neg hc, if_neg h, if_pos ⟨hX, hY⟩]

/-- The selection for a cell with both indices odd on a board whose width or
length is odd is the wall. -/
theorem SelectActorType_wall (MapScale : FIntVector) (n c sp d : Int) (X Y : Nat)
    (hodd : MapScale.X % 2 = 1 ∨ MapScale.Y % 2 = 1) (hX : X % 2 = 1) (hY : Y % 2 = 1) :
    (SelectActorType MapScale n c sp d Y X).1 = EActorTypeEnum.Wall := by
  rw [SelectActorType_odd MapScale n c sp d X Y hX hY, if_neg]
  omega

/-- One iteration on an empty cell returns and appends to the record the
selection made for the cell. -/
theorem GenerateLoopBody_empty_Selected (env : Env) (M : FIntVector) (CellsArray : List FCell)
    (Y X : Nat) (st : FGenerateLoop) (CellIt : FCell)
    (hidx : CellsArray[(M.X * Y + X).toNat]? = some CellIt)
    (he : IsEmptyCell env st.Map CellIt none = true) :
    ∃ st', GenerateLoopBody env M CellsArray Y st X = some st' ∧
      st'.Selected = st.Selected ++
        [(X, Y, (SelectActorType M st.Map.CharactersNumber st.Map.BoxesChance_
          st.SpawnedCharactersN (RandRange env st.Map.RandCalls 0 99) Y X).1)] := by
  unfold GenerateLoopBody
  simp only [hidx, he, Bool.true_eq_false, if_false]
  exact ⟨_, rfl, rfl⟩

/-- C5, as the code has it. Whatever the width and the length of the board,
the number of characters, the chance of boxes and the draws: for a cell with
both indices odd the selection part selects the wall, except at the cell
`(MapScale.X - 1, MapScale.Y - 1)` while a player slot is left, where it
selects the player (this cell is a corner, and both its indices are odd only
on a board of even width and length); the box is never selected for such a
cell. An iteration on an empty cell with both indices odd records this
selection; every entry of the record of a pass for such a cell is the wall or
the player at that corner; and on a board whose width or length is odd every
such entry is the wall. The same holds of the pass of the editor build. -/
theorem GenerateLevelActors_wall_rule (env : Env) (s : AGeneratedMap) :
    (∀ (M : FIntVector) (n c sp d : Int) (X Y : Nat), X % 2 = 1 → Y % 2 = 1 →
      (SelectActorType M n c sp d Y X).1 =
        if (X : Int) = M.X - 1 ∧ (Y : Int) = M.Y - 1 ∧ sp < n then EActorTypeEnum.Player
        else EActorTypeEnum.Wall) ∧
    (∀ (w : Env) (M : FIntVector) (CellsArray : List FCell) (Y X : Nat) (st : FGenerateLoop)
        (CellIt : FCell), X % 2 = 1 → Y % 2 = 1 →
      CellsArray[(M.X * Y + X).toNat]? = some CellIt →
      IsEmptyCell w st.Map CellIt none = true →
      ∃ st', GenerateLoopBody w M CellsArray Y st X = some st' ∧
        st'.Selected = st.Selected ++
          [(X, Y,
            if (X : Int) = M.X - 1 ∧ (Y : Int) = M.Y - 1 ∧
                st.SpawnedCharactersN < st.Map.CharactersNumber then EActorTypeEnum.Player
            else EActorTypeEnum.Wall)]) ∧
    (∀ r, GenerateLevelActorsTrace env s = some r →
      ∀ (X Y : Nat) (T : EActorTypeEnum), (X, Y, T) ∈ r.Selected → X % 2 = 1 → Y % 2 = 1 →
        T = EActorTypeEnum.Wall ∨
          (T = EActorTypeEnum.Player ∧ (X : Int) = (FIntVector.ofVector s.ActorScale3D).X - 1 ∧
            (Y : Int) = (FIntVector.ofVector s.ActorScale3D).Y - 1)) ∧
    (∀ r, (FIntVector.ofVector s.ActorScale3D).X % 2 = 1 ∨
        (FIntVector.ofVector s.ActorScale3D).Y % 2 = 1 →
      GenerateLevelActorsTrace env s = some r →
      ∀ (X Y : Nat) (T : EActorTypeEnum), (X, Y, T) ∈ r.Selected → X % 2 = 1 → Y % 2 = 1 →
        T = EActorTypeEnum.Wall) ∧
    (∀ (ed : EditorEnv) (r : FGenerateLoop), GenerateLevelActorsTraceEditor env ed s = some r →
      ∀ (X Y : Nat) (T : EActorTypeEnum), (X, Y, T) ∈ r.Selected → X % 2 = 1 → Y % 2 = 1 →
        T = EActorTypeEnum.Wall ∨
          (T = EActorTypeEnum.Player ∧
            (X : Int) = (FIntVector.ofVector (EditorStart env ed s).ActorScale3D).X - 1 ∧
            (Y : Int) = (FIntVector.ofVector (EditorStart env ed s).ActorScale3D).Y - 1)) := by
  have hsel : ∀ (M : FIntVector) (n c sp d : Int) (X Y : Nat), X % 2 = 1 → Y % 2 = 1 →
      ((SelectActorType M n c sp d Y X).1 = EActorTypeEnum.Wall ∨
        ((SelectActorType M n c sp d Y X).1 = EActorTypeEnum.Player ∧ (X : Int) = M.X - 1 ∧
          (Y : Int) = M.Y - 1)) := by
    intro M n c sp d X Y hX hY
    rw [SelectActorType_odd M n c sp d X Y hX hY]
    by_cases h : (X : Int) = M.X - 1 ∧ (Y : Int) = M.Y - 1 ∧ sp < n
    · rw [if_pos h]
      exact Or.inr ⟨rfl, h.1, h.2.1⟩
    · rw [if_neg h]
      exact Or.inl rfl
  refine ⟨fun M n c sp d X Y hX hY => SelectActorType_odd M n c sp d X Y hX hY, ?_, ?_, ?_, ?_⟩
  · intro w M CellsArray Y X st CellIt hX hY hidx he
    obtain ⟨st', h1, h2⟩ := GenerateLoopBody_empty_Selected w M CellsArray Y X st CellIt hidx he
    refine ⟨st', h1, ?_⟩
    rw [h2, SelectActorType_odd M _ _ _ _ X Y hX hY]
  · intro r hr X Y T hmem
    exact GenerateLevelActorsTrace_Selected env s r
      (fun e => e.1 % 2 = 1 → e.2.1 % 2 = 1 →
        (e.2.2 = EActorTypeEnum.Wall ∨
          (e.2.2 = EActorTypeEnum.Player ∧
            (e.1 : Int) = (FIntVector.ofVector s.ActorScale3D).X - 1 ∧
            (e.2.1 : Int) = (FIntVector.ofVector s.ActorScale3D).Y - 1)))
      (fun n c sp d X Y hX hY => hsel _ n c sp d X Y hX hY) hr (X, Y, T) hmem
  · intro r hodd hr X Y T hmem
    exact GenerateLevelActorsTrace_Selected env s r
      (fun e => e.1 % 2 = 1 → e.2.1 % 2 = 1 → e.2.2 = EActorTypeEnum.Wall)
      (fun n c sp d X Y hX hY => SelectActorType_wall _ n c sp d X Y hodd hX hY) hr (X, Y, T) hmem
  · intro ed r hr X Y T hmem
    exact GenerateLevelActorsTraceEditor_Selected env ed s r
      (fun e => e.1 % 2 = 1 → e.2.1 % 2 = 1 →
        (e.2.2 = EActorTypeEnum.Wall ∨
          (e.2.2 = EActorTypeEnum.Player ∧
            (e.1 : Int) = (FIntVector.ofVector (EditorStart env ed s).ActorScale3D).X - 1 ∧
            (e.2.1 : Int) = (FIntVector.ofVector (EditorStart env ed s).ActorScale3D).Y - 1)))
      (fun n c sp d X Y hX hY => hsel _ n c sp d X Y hX hY) hr (X, Y, T) hmem

theorem GenerateLevelActors_wall_rule_witness :
    (∀ r, GenerateLevelActorsTrace (DemoEnv 99) DemoEven4 = some r →
      ∀ (X Y : Nat) (T : EActorTypeEnum), (X, Y, T) ∈ r.Selected → X % 2 = 1 → Y % 2 = 1 →
        T = EActorTypeEnum.Wall ∨
          (T = EActorTypeEnum.Player ∧
            (X : Int) = (FIntVector.ofVector DemoEven4.ActorScale3D).X - 1 ∧
            (Y : Int) = (FIntVector.ofVector DemoEven4.ActorScale3D).Y - 1)) ∧
    (GenerateLevelActorsTrace (DemoEnv 99) DemoEven4).map
        (fun r => [r.Selected[5]?, r.Selected[7]?, r.Selected[13]?, r.Selected[15]?]) =
      some [some (1, 1, EActorTypeEnum.Wall), some (3, 1, EActorTypeEnum.Wall),
        some (1, 3, EActorTypeEnum.Wall), some (3, 3, EActorTypeEnum.Player)] :=
  ⟨(GenerateLevelActors_wall_rule (DemoEnv 99) DemoEven4).2.2.1, by decide!⟩

/-- C5 as stated fails on a board of even width and length: on the map of
scale 2 x 2 the pass visits the empty cell (1, 1), a corner with both indices
odd, and selects the player for it. -/
theorem GenerateLevelActors_wall_rule_even_counterexample :
    ¬ (∀ (env : Env) (s : AGeneratedMap) (r : FGenerateLoop),
        GenerateLevelActorsTrace env s = some r →
        ∀ (X Y : Nat) (T : EActorTypeEnum), (X, Y, T) ∈ r.Selected → X % 2 = 1 → Y % 2 = 1 →
          T = EActorTypeEnum.Wall) := by
  intro h
  have h1 : (GenerateLevelActorsTrace (DemoEnv 99) DemoEvenMap).map (fun r => r.Selected) =
      some [(0, 0, EActorTypeEnum.Player), (1, 0, EActorTypeEnum.Player),
        (0, 1, EActorTypeEnum.Player), (1, 1, EActorTypeEnum.Player)] := by decide!
  cases hr : GenerateLevelActorsTrace (DemoEnv 99) DemoEvenMap with
  | none => simp [hr] at h1
  | some r =>
    simp only [hr, Option.map_some', Option.some.injEq] at h1
    have h2 := h (DemoEnv 99) DemoEvenMap r hr 1 1 EActorTypeEnum.Player (by simp [h1])
      (by decide) (by decide)
    exact absurd h2 (by decide)

/-! ## What a spawn leaves as it is -/

theorem AddActorToGridArray_GetKeys (env : Env) (s : AGeneratedMap) (Cell : FCell)
    (p : Option AActor) :
    (AddActorToGridArray env s Cell p).GridArray_.GetKeys = s.GridArray_.GetKeys := by
  rcases AddActorToGridArray_grid_cases env s Cell p with e | ⟨a, -, -, hc, -, -, e⟩
  · rw [e]
  · rw [e, TMap.GetKeys_Add_of_mem, RemoveActorFromGridArray_GetKeys]
    rw [RemoveActorFromGridArray_GetKeys]
    exact (TMap.Contains_iff _ _).mp hc

theorem RemoveActorFromGridArray_fields (s : AGeneratedMap) (a : AActor) :
    (RemoveActorFromGridArray s a).CharactersNumber = s.CharactersNumber ∧
    (RemoveActorFromGridArray s a).BoxesChance_ = s.BoxesChance_ ∧
    (RemoveActorFromGridArray s a).ActorScale3D = s.ActorScale3D ∧
    (RemoveActorFromGridArray s a).CharactersOnMap = s.CharactersOnMap := by
  unfold RemoveActorFromGridArray
  cases s.GridArray_.FindKey (some a) <;> exact ⟨rfl, rfl, rfl, rfl⟩

theorem SpawnActorByType_GetKeys (env : Env) (s : AGeneratedMap) (T : EActorTypeEnum)
    (Cell : FCell) :
    (SpawnActorByType env s T Cell).1.GridArray_.GetKeys = s.GridArray_.GetKeys := by
  unfold SpawnActorByType
  split_ifs
  · rfl
  · simp only
    rw [AddActorToGridArray_GetKeys]

/-- A loop over `0, ..., n - 1` with an invariant indexed by the position
returns, and the invariant holds at `n`. -/
theorem range_foldlM_invariant {σ : Type} (f : σ → Nat → Option σ) (Inv : Nat → σ → Prop)
    (n : Nat) (hstep : ∀ i st, i < n → Inv i st → ∃ st', f st i = some st' ∧ Inv (i + 1) st')
    (st : σ) (h0 : Inv 0 st) : ∃ st', (List.range n).foldlM f st = some st' ∧ Inv n st' := by
  induction n with
  | zero => exact ⟨st, rfl, h0⟩
  | succ n ih =>
    obtain ⟨st1, h1, hi1⟩ := ih (fun i st hi => hstep i st (by omega))
    obtain ⟨st2, h2, hi2⟩ := hstep n st1 (by omega) hi1
    refine ⟨st2, ?_, hi2⟩
    rw [List.range_succ, List.foldlM_append, h1]
    simp [h2]

/-- The counting of the draw leaves the fields the loop reads as they are. -/
theorem CountDraw_fields (b : Bool) (m : AGeneratedMap) :
    (CountDraw b m).GridArray_ = m.GridArray_ ∧
    (CountDraw b m).CharactersNumber = m.CharactersNumber ∧
    (CountDraw b m).BoxesChance_ = m.BoxesChance_ ∧
    (CountDraw b m).ActorScale3D = m.ActorScale3D ∧
    (CountDraw b m).CharactersOnMap = m.CharactersOnMap := by
  cases b <;> exact ⟨rfl, rfl, rfl, rfl, rfl⟩

/-- The hygiene of the roster does not change what `IsEmptyCell` reads. -/
theorem IsEmptyCell_roster (env : Env) (s : AGeneratedMap) (l : List AActor) (c : FCell)
    (p : Option AActor) :
    IsEmptyCell env { s with CharactersOnMap := l } c p = IsEmptyCell env s c p := rfl

/-- The selection is the box only outside the cells with both indices odd and
outside the corner zones. -/
theorem SelectActorType_box (M : FIntVector) (n c sp d : Int) (X Y : Nat)
    (h : (SelectActorType M n c sp d Y X).1 = EActorTypeEnum.Box) :
    ¬ (X % 2 = 1 ∧ Y % 2 = 1) ∧
    ¬ (((X : Int) = 0 ∨ (X : Int) = 1 ∨ (X : Int) = M.X - 2 ∨ (X : Int) = M.X - 1) ∧
      ((Y : Int) = 0 ∨ (Y : Int) = 1 ∨ (Y : Int) = M.Y - 2 ∨ (Y : Int) = M.Y - 1)) := by
  rw [SelectActorType_eq] at h
  by_cases h1 : IsCornerCell M X Y ∧ sp < n
  · rw [if_pos h1] at h
    simp at h
  · rw [if_neg h1] at h
    by_cases h2 : X % 2 = 1 ∧ Y % 2 = 1
    · rw [if_pos h2] at h
      simp at h
    · rw [if_neg h2] at h
      by_cases h3 : d < c ∧ InBoxZone M X Y
      · refine ⟨h2, ?_⟩
        have hz := h3.2
        unfold InBoxZone at hz
        omega
      · rw [if_neg h3] at h
        simp at h

/-- C7. Whatever the width and the length of the board, the number of
characters, the chance of boxes and the draws: the selection part never
selects the box for a cell with both indices odd nor for a cell with `x` in
{0, 1, W - 2, W - 1} and `y` in {0, 1, L - 2, L - 1}, and no entry of the
record of a pass has the box at such a cell. -/
theorem GenerateLevelActors_no_box_in_margin (env : Env) (s : AGeneratedMap) :
    (∀ (n c sp d : Int) (X Y : Nat),
      (SelectActorType (FIntVector.ofVector s.ActorScale3D) n c sp d Y X).1
          = EActorTypeEnum.Box →
        ¬ (X % 2 = 1 ∧ Y % 2 = 1) ∧
        ¬ (((X : Int) = 0 ∨ (X : Int) = 1 ∨
              (X : Int) = (FIntVector.ofVector s.ActorScale3D).X - 2 ∨
              (X : Int) = (FIntVector.ofVector s.ActorScale3D).X - 1) ∧
            ((Y : Int) = 0 ∨ (Y : Int) = 1 ∨
              (Y : Int) = (FIntVector.ofVector s.ActorScale3D).Y - 2 ∨
              (Y : Int) = (FIntVector.ofVector s.ActorScale3D).Y - 1))) ∧
    (∀ r, GenerateLevelActorsTrace env s = some r →
      ∀ (X Y : Nat), (X, Y, EActorTypeEnum.Box) ∈ r.Selected →
        ¬ (X % 2 = 1 ∧ Y % 2 = 1) ∧
        ¬ (((X : Int) = 0 ∨ (X : Int) = 1 ∨
              (X : Int) = (FIntVector.ofVector s.ActorScale3D).X - 2 ∨
              (X : Int) = (FIntVector.ofVector s.ActorScale3D).X - 1) ∧
            ((Y : Int) = 0 ∨ (Y : Int) = 1 ∨
              (Y : Int) = (FIntVector.ofVector s.ActorScale3D).Y - 2 ∨
              (Y : Int) = (FIntVector.ofVector s.ActorScale3D).Y - 1))) := by
  constructor
  · intro n c sp d X Y h
    exact SelectActorType_box _ n c sp d X Y h
  · intro r hr X Y hmem
    exact GenerateLevelActorsTrace_Selected env s r
      (fun e => e.2.2 = EActorTypeEnum.Box →
        ¬ (e.1 % 2 = 1 ∧ e.2.1 % 2 = 1) ∧
        ¬ (((e.1 : Int) = 0 ∨ (e.1 : Int) = 1 ∨
              (e.1 : Int) = (FIntVector.ofVector s.ActorScale3D).X - 2 ∨
              (e.1 : Int) = (FIntVector.ofVector s.ActorScale3D).X - 1) ∧
            ((e.2.1 : Int) = 0 ∨ (e.2.1 : Int) = 1 ∨
              (e.2.1 : Int) = (FIntVector.ofVector s.ActorScale3D).Y - 2 ∨
              (e.2.1 : Int) = (FIntVector.ofVector s.ActorScale3D).Y - 1)))
      (fun n c sp d X Y h => SelectActorType_box _ n c sp d X Y h) hr (X, Y, EActorTypeEnum.Box)
      hmem rfl

theorem GenerateLevelActors_no_box_in_margin_witness :
    ∃ r, GenerateLevelActorsTrace (DemoEnv 0) (OnConstruction (DemoEnv 0) (DemoMap 4 4 4 100))
        = some r ∧
      (2, 0, EActorTypeEnum.Box) ∈ r.Selected ∧
      ¬ (2 % 2 = 1 ∧ 0 % 2 = 1) ∧
      ¬ ((((2 : Nat) : Int) = 0 ∨ ((2 : Nat) : Int) = 1 ∨
            ((2 : Nat) : Int) = (FIntVector.ofVector
              (OnConstruction (DemoEnv 0) (DemoMap 4 4 4 100)).ActorScale3D).X - 2 ∨
            ((2 : Nat) : Int) = (FIntVector.ofVector
              (OnConstruction (DemoEnv 0) (DemoMap 4 4 4 100)).ActorScale3D).X - 1) ∧
          (((0 : Nat) : Int) = 0 ∨ ((0 : Nat) : Int) = 1 ∨
            ((0 : Nat) : Int) = (FIntVector.ofVector
              (OnConstruction (DemoEnv 0) (DemoMap 4 4 4 100)).ActorScale3D).Y - 2 ∨
            ((0 : Nat) : Int) = (FIntVector.ofVector
              (OnConstruction (DemoEnv 0) (DemoMap 4 4 4 100)).ActorScale3D).Y - 1)) := by
  have h1 : (GenerateLevelActorsTrace (DemoEnv 0)
      (OnConstruction (DemoEnv 0) (DemoMap 4 4 4 100))).map
        (fun r => decide ((2, 0, EActorTypeEnum.Box) ∈ r.Selected)) = some true := by decide!
  cases hr : GenerateLevelActorsTrace (DemoEnv 0)
      (OnConstruction (DemoEnv 0) (DemoMap 4 4 4 100)) with
  | none => simp [hr] at h1
  | some r =>
    simp only [hr, Option.map_some', Option.some.injEq, decide_eq_true_eq] at h1
    exact ⟨r, rfl, h1,
      (GenerateLevelActors_no_box_in_margin (DemoEnv 0)
        (OnConstruction (DemoEnv 0) (DemoMap 4 4 4 100))).2 r hr 2 0 h1⟩

/-! ## C8: the board without boxes -/

theorem RosterHygiene_valid (env : Env) (i : Nat) (l : List AActor)
    (h : ∀ a ∈ l, env.IS_VALID a = true) : RosterHygiene env i l = l := by
  induction i with
  | zero => rfl
  | succ i ih =>
    unfold RosterHygiene
    cases hl : l[i]? with
    | none => exact ih
    | some a =>
      simp only [h a (List.getElem?_mem hl), Bool.true_eq_false, if_false]
      exact ih

/-- An iteration whose cell is not empty records the read and changes nothing
else. -/
theorem GenerateLoopBody_occupied (env : Env) (M : FIntVector) (CellsArray : List FCell)
    (Y X : Nat) (st : FGenerateLoop) (CellIt : FCell)
    (hidx : CellsArray[(M.X * Y + X).toNat]? = some CellIt)
    (he : IsEmptyCell env st.Map CellIt none = false) :
    GenerateLoopBody env M CellsArray Y st X =
      some { st with Visited := st.Visited ++ [(M.X * (Y : Int) + (X : Int), CellIt)] } := by
  unfold GenerateLoopBody
  simp only [hidx, he, if_true]

theorem RemoveActorFromGridArray_Find_ne (s : AGeneratedMap) (a : AActor) (c : FCell)
    (hk : s.GridArray_.GetKeys.Nodup) (hc : s.GridArray_.Find c ≠ some (some a)) :
    (RemoveActorFromGridArray s a).GridArray_.Find c = s.GridArray_.Find c := by
  unfold RemoveActorFromGridArray
  cases hf : s.GridArray_.FindKey (some a) with
  | none => rfl
  | some c0 =>
    have h0 : s.GridArray_.Find c0 = some (some a) :=
      TMap.Find_of_FindKey s.GridArray_ (some a) c0 hk hf
    have e : c ≠ c0 := by
      intro e
      rw [e] at hc
      exact hc h0
    exact TMap.Find_Add_ne s.GridArray_ c0 c none e

theorem AddActorToGridArray_SpawnCalls (env : Env) (s : AGeneratedMap) (Cell : FCell)
    (p : Option AActor) : (AddActorToGridArray env s Cell p).SpawnCalls = s.SpawnCalls := by
  cases p with
  | none => rfl
  | some a =>
    unfold AddActorToGridArray
    simp only
    split_ifs <;> first | rfl | (unfold RemoveActorFromGridArray; split <;> rfl)

theorem SpawnActorByType_SpawnCalls (env : Env) (m : AGeneratedMap) (T : EActorTypeEnum)
    (Cell : FCell) : m.SpawnCalls ≤ (SpawnActorByType env m T Cell).1.SpawnCalls := by
  unfold SpawnActorByType
  split_ifs
  · exact Nat.le_refl _
  · simp only
    rw [AddActorToGridArray_SpawnCalls]
    exact Nat.le_succ _

/-- A spawn at another cell, of an actor other than the occupant, leaves the
occupant of a cell in place. -/
theorem SpawnActorByType_frame (env : Env) (m : AGeneratedMap) (T : EActorTypeEnum)
    (Cell c : FCell) (a : AActor) (hk : m.GridArray_.GetKeys.Nodup)
    (hf : m.GridArray_.Find c = some (some a)) (hne : c ≠ Cell)
    (hfresh : env.SpawnActorAbsolute m.SpawnCalls T Cell ≠ some a) :
    (SpawnActorByType env m T Cell).1.GridArray_.Find c = some (some a) := by
  unfold SpawnActorByType
  split_ifs
  · exact hf
  · simp only
    rcases AddActorToGridArray_grid_cases env { m with SpawnCalls := m.SpawnCalls + 1 } Cell
      (env.SpawnActorAbsolute m.SpawnCalls T Cell) with e | ⟨b, hb, -, -, -, -, e⟩
    · rw [e]
      exact hf
    · rw [e, TMap.Find_Add_ne _ Cell c _ hne,
        RemoveActorFromGridArray_Find_ne { m with SpawnCalls := m.SpawnCalls + 1 } b c hk]
      · exact hf
      · intro h
        have hab : a = b := by
          have h' : m.GridArray_.Find c = some (some b) := h
          rw [hf] at h'
          simpa using h'
        exact hfresh (by rw [hab]; exact hb)

theorem CountDraw_SpawnCalls (b : Bool) (m : AGeneratedMap) :
    (CountDraw b m).SpawnCalls = m.SpawnCalls := by
  cases b <;> rfl

/-- One iteration keeps the keys, does not lower the count of spawns, and
keeps on its cell a valid occupant that the spawner does not hand out from
now on. -/
theorem GenerateLoopBody_frame (env : Env) (M : FIntVector) (CellsArray : List FCell)
    (Y X : Nat) (st st' : FGenerateLoop)
    (hb : GenerateLoopBody env M CellsArray Y st X = some st') :
    st'.Map.GridArray_.GetKeys = st.Map.GridArray_.GetKeys ∧
    st.Map.SpawnCalls ≤ st'.Map.SpawnCalls ∧
    (st.Map.GridArray_.GetKeys.Nodup → ∀ (c : FCell) (a : AActor),
      st.Map.GridArray_.Find c = some (some a) → env.IS_VALID a = true →
      (∀ k T' c', st.Map.SpawnCalls ≤ k → env.SpawnActorAbsolute k T' c' ≠ some a) →
      st'.Map.GridArray_.Find c = some (some a)) := by
  unfold GenerateLoopBody at hb
  cases hc : CellsArray[(M.X * ↑Y + ↑X).toNat]? with
  | none => simp [hc] at hb
  | some CellIt =>
    simp only [hc] at hb
    by_cases he : IsEmptyCell env st.Map CellIt none = false
    · simp only [he, if_true, Option.some.injEq] at hb
      rw [← hb]
      exact ⟨rfl, Nat.le_refl _, fun _ c a hf _ _ => hf⟩
    · have he' : IsEmptyCell env st.Map CellIt none = true := by simpa using he
      simp only [he', Bool.true_eq_false, if_false, Option.some.injEq] at hb
      rw [← hb]
      simp only
      have hd := CountDraw_fields
        (SelectActorType M st.Map.CharactersNumber st.Map.BoxesChance_ st.SpawnedCharactersN
          (RandRange env st.Map.RandCalls 0 99) Y X).2.2 st.Map
      have hs := CountDraw_SpawnCalls
        (SelectActorType M st.Map.CharactersNumber st.Map.BoxesChance_ st.SpawnedCharactersN
          (RandRange env st.Map.RandCalls 0 99) Y X).2.2 st.Map
      refine ⟨?_, ?_, ?_⟩
      · split_ifs
        · rw [SpawnActorByType_GetKeys, hd.1]
        · rw [hd.1]
      · split_ifs
        · exact hs ▸ SpawnActorByType_SpawnCalls env _ _ CellIt
        · exact Nat.le_of_eq hs.symm
      · intro hk c a hf hv hfresh
        have hne : c ≠ CellIt := by
          intro e
          rw [← e] at he'
          unfold IsEmptyCell at he'
          rw [hf] at he'
          simp [Env.IsValidPtr, hv] at he'
        split_ifs
        · exact SpawnActorByType_frame env _ _ CellIt c a (by rw [hd.1]; exact hk)
            (by rw [hd.1]; exact hf) hne (hfresh _ _ _ (Nat.le_of_eq hs.symm))
        · rw [hd.1]
          exact hf

/-- A pass keeps the keys of the grid array, and keeps on its cell a valid
occupant that the spawner does not hand out from now on. -/
theorem GenerateLevelActorsTrace_frame (env : Env) (s : AGeneratedMap) (r : FGenerateLoop)
    (hk : s.GridArray_.GetKeys.Nodup) (h : GenerateLevelActorsTrace env s = some r)
    (c : FCell) (a : AActor) (hf : s.GridArray_.Find c = some (some a))
    (hv : env.IS_VALID a = true)
    (hfresh : ∀ k T' c', s.SpawnCalls ≤ k → env.SpawnActorAbsolute k T' c' ≠ some a) :
    r.Map.GridArray_.Find c = some (some a) := by
  unfold GenerateLevelActorsTrace at h
  by_cases h0 : s.GridArray_.Num = 0
  · simp only [h0, if_true, Option.some.injEq] at h
    rw [← h]
    exact hf
  · simp only [h0, if_false] at h
    have hinv := foldlM_preserves
      (fun st : FGenerateLoop => st.Map.GridArray_.GetKeys.Nodup ∧
        s.SpawnCalls ≤ st.Map.SpawnCalls ∧
        st.Map.GridArray_.Find c = some (some a)) _ ?_ _ _ r ⟨hk, Nat.le_refl _, hf⟩ h
    · exact hinv.2.2
    · intro st Y st' hst hrow
      refine foldlM_preserves
        (fun st : FGenerateLoop => st.Map.GridArray_.GetKeys.Nodup ∧
          s.SpawnCalls ≤ st.Map.SpawnCalls ∧
          st.Map.GridArray_.Find c = some (some a)) _ ?_ _ _ st' hst hrow
      intro st1 X st2 hst1 hbody
      obtain ⟨e1, e2, e3⟩ := GenerateLoopBody_frame env _ _ Y X st1 st2 hbody
      exact ⟨by rw [e1]; exact hst1.1, Nat.le_trans hst1.2.1 e2,
        e3 hst1.1 c a hst1.2.2 hv (fun k T' c' hk' => hfresh k T' c' (Nat.le_trans hst1.2.1 hk'))⟩

/-- A pass over a grid array of `W * L` cells that all hold a valid occupant,
with a roster of valid characters, returns the Level Map unchanged: nothing
is selected, spawned or drawn. -/
theorem GenerateLevelActors_occupied_unchanged (env : Env) (s : AGeneratedMap) (W L : ℕ)
    (hX : (FIntVector.ofVector s.ActorScale3D).X = (W : Int))
    (hY : (FIntVector.ofVector s.ActorScale3D).Y = (L : Int))
    (hnum : s.GridArray_.Num = W * L)
    (hocc : ∀ c ∈ s.GridArray_.GetKeys, IsEmptyCell env s c none = false)
    (hroster : ∀ a ∈ s.CharactersOnMap, env.IS_VALID a = true) :
    (∃ r, GenerateLevelActorsTrace env s = some r ∧ r.Map = s ∧ r.SpawnedCharactersN = 0 ∧
      r.Selected = []) ∧
    GenerateLevelActors env s = some s := by
  have hlen : s.GridArray_.GetKeys.length = W * L := by
    simpa [TMap.Num, TMap.GetKeys] using hnum
  have htrace : ∃ r, GenerateLevelActorsTrace env s = some r ∧ r.Map = s ∧
      r.SpawnedCharactersN = 0 ∧ r.Selected = [] := by
    unfold GenerateLevelActorsTrace
    split_ifs with h0
    · exact ⟨_, rfl, rfl, rfl, rfl⟩
    · rw [RosterHygiene_valid env _ _ hroster]
      show ∃ r, GenerateLoops env (FIntVector.ofVector s.ActorScale3D) s.GridArray_.GetKeys
        ⟨s, 0, [], []⟩ = some r ∧ r.Map = s ∧ r.SpawnedCharactersN = 0 ∧ r.Selected = []
      unfold GenerateLoops
      rw [hY, Int.toNat_ofNat]
      refine range_foldlM_invariant
        (GenerateRow env (FIntVector.ofVector s.ActorScale3D) s.GridArray_.GetKeys)
        (fun _ st => st.Map = s ∧ st.SpawnedCharactersN = 0 ∧ st.Selected = []) L
        (fun Y st hYL hst => by
          unfold GenerateRow
          rw [hX, Int.toNat_ofNat]
          exact range_foldlM_invariant
            (GenerateLoopBody env (FIntVector.ofVector s.ActorScale3D) s.GridArray_.GetKeys Y)
            (fun _ st1 => st1.Map = s ∧ st1.SpawnedCharactersN = 0 ∧ st1.Selected = []) W
            (fun X st1 hXW hst1 => by
              have hlt : W * Y + X < s.GridArray_.GetKeys.length := by
                rw [hlen]
                have := Nat.mul_le_mul_left W (Nat.succ_le_of_lt hYL)
                rw [Nat.mul_succ] at this
                omega
              have hidx : ((FIntVector.ofVector s.ActorScale3D).X * (Y : Int) + (X : Int)).toNat
                  = W * Y + X := by
                rw [hX]
                have : ((W : Int) * (Y : Int) + (X : Int)) = ((W * Y + X : Nat) : Int) := by
                  push_cast; ring
                rw [this, Int.toNat_ofNat]
              refine ⟨_, GenerateLoopBody_occupied env _ _ Y X st1
                (s.GridArray_.GetKeys[W * Y + X])
                (by rw [hidx, List.getElem?_eq_getElem hlt]) ?_, hst1⟩
              rw [hst1.1]
              exact hocc _ (List.getElem_mem _))
            st hst)
        ⟨s, 0, [], []⟩ ⟨rfl, rfl, rfl⟩
  refine ⟨htrace, ?_⟩
  obtain ⟨r, hr, hm, -⟩ := htrace
  unfold GenerateLevelActors
  rw [hr]
  simp [hm]

/-- The loops keep on its cell every occupant that is valid and that the
spawner does not hand out from now on. -/
theorem GenerateLoops_frame (env : Env) (M : FIntVector) (CellsArray : List FCell)
    (st0 r : FGenerateLoop) (hk : st0.Map.GridArray_.GetKeys.Nodup)
    (h : GenerateLoops env M CellsArray st0 = some r)
    (c : FCell) (a : AActor) (hf : st0.Map.GridArray_.Find c = some (some a))
    (hv : env.IS_VALID a = true)
    (hfresh : ∀ k T' c', st0.Map.SpawnCalls ≤ k → env.SpawnActorAbsolute k T' c' ≠ some a) :
    r.Map.GridArray_.Find c = some (some a) := by
  have hinv := GenerateLoops_preserves
    (fun st : FGenerateLoop => st.Map.GridArray_.GetKeys.Nodup ∧
      st0.Map.SpawnCalls ≤ st.Map.SpawnCalls ∧
      st.Map.GridArray_.Find c = some (some a)) env M CellsArray ?_ st0 r
    ⟨hk, Nat.le_refl _, hf⟩ h
  · exact hinv.2.2
  · intro Y X st1 st2 hst1 hbody
    obtain ⟨e1, e2, e3⟩ := GenerateLoopBody_frame env _ _ Y X st1 st2 hbody
    exact ⟨by rw [e1]; exact hst1.1, Nat.le_trans hst1.2.1 e2,
      e3 hst1.1 c a hst1.2.2 hv (fun k T' c' hk' => hfresh k T' c' (Nat.le_trans hst1.2.1 hk'))⟩

/-- C9, as the code has it. In the game build, for a Level Map with distinct
keys (such as the one a first pass leaves) and a spawner that hands out new
actors only, a further pass keeps every valid occupant on its cell; an
iteration whose cell holds a valid occupant records its read and changes
nothing else; and when all `W * L` cells hold a valid occupant and the roster
is valid, the pass returns the Level Map as it is. Cells that are still empty
go through the selection again. In the editor build the pass first destroys
the editor-only actors attached to the Level Map and broadcasts, and then
keeps every occupant that is valid in the world after the destruction and on
its cell after the broadcast. -/
theorem GenerateLevelActors_second_pass (env : Env) (s : AGeneratedMap)
    (hk : s.GridArray_.GetKeys.Nodup)
    (hfresh : ∀ (k : Nat) (T : EActorTypeEnum) (c : FCell) (a : AActor), s.SpawnCalls ≤ k →
      env.SpawnActorAbsolute k T c = some a → ∀ c', s.GridArray_.Find c' ≠ some (some a)) :
    (∀ r, GenerateLevelActorsTrace env s = some r →
      ∀ (c : FCell) (a : AActor), s.GridArray_.Find c = some (some a) →
        env.IS_VALID a = true → r.Map.GridArray_.Find c = some (some a)) ∧
    (∀ (w : Env) (M : FIntVector) (CellsArray : List FCell) (Y X : Nat) (st : FGenerateLoop)
        (CellIt : FCell), CellsArray[(M.X * Y + X).toNat]? = some CellIt →
        IsEmptyCell w st.Map CellIt none = false →
        GenerateLoopBody w M CellsArray Y st X =
          some { st with Visited := st.Visited ++ [(M.X * (Y : Int) + (X : Int), CellIt)] }) ∧
    (∀ W L : ℕ, (FIntVector.ofVector s.ActorScale3D).X = (W : Int) →
      (FIntVector.ofVector s.ActorScale3D).Y = (L : Int) → s.GridArray_.Num = W * L →
      (∀ c ∈ s.GridArray_.GetKeys, IsEmptyCell env s c none = false) →
      (∀ a ∈ s.CharactersOnMap, env.IS_VALID a = true) →
      GenerateLevelActors env s = some s) ∧
    (∀ (ed : EditorEnv) (r : FGenerateLoop),
      (EditorStart env ed s).GridArray_.GetKeys.Nodup →
      (∀ (k : Nat) (T : EActorTypeEnum) (c : FCell) (a : AActor),
        (EditorStart env ed s).SpawnCalls ≤ k → env.SpawnActorAbsolute k T c = some a →
        ∀ c', (EditorStart env ed s).GridArray_.Find c' ≠ some (some a)) →
      s.GridArray_.Num ≠ 0 →
      GenerateLevelActorsTraceEditor env ed s = some r →
      ∀ (c : FCell) (a : AActor), (EditorStart env ed s).GridArray_.Find c = some (some a) →
        (EditorWorld env ed s).IS_VALID a = true → r.Map.GridArray_.Find c = some (some a)) := by
  refine ⟨?_, ?_, ?_, ?_⟩
  · intro r hr c a hf hv
    refine GenerateLevelActorsTrace_frame env s r hk hr c a hf hv ?_
    intro k T' c' hle hsp
    exact hfresh k T' c' a hle hsp c hf
  · intro w M CellsArray Y X st CellIt hidx he
    exact GenerateLoopBody_occupied w M CellsArray Y X st CellIt hidx he
  · intro W L hX hY hnum hocc hroster
    exact (GenerateLevelActors_occupied_unchanged env s W L hX hY hnum hocc hroster).2
  · intro ed r hk2 hfresh2 hnum hr c a hf hv
    rcases GenerateLevelActorsTraceEditor_cases env ed s r hr with ⟨h0, -⟩ | ⟨-, hloops⟩
    · exact absurd h0 hnum
    · refine GenerateLoops_frame (EditorWorld env ed s) _ _ _ r hk2 hloops c a hf hv ?_
      intro k T' c' hle hsp
      rw [EditorWorld, (DestroyAttachedActors_world env ed _ true).1] at hsp
      exact hfresh2 k T' c' a hle hsp c hf

theorem TMap.mem_of_Find (m : TMap) (c : FCell) (v : Option AActor) (h : TMap.Find m c = some v) :
    (c, v) ∈ m := by
  induction m with
  | nil => simp [TMap.Find] at h
  | cons p m ih =>
    obtain ⟨k0, v0⟩ := p
    unfold TMap.Find at h
    by_cases hk : k0 = c
    · simp only [hk, if_true, Option.some.injEq] at h
      simp [hk, h]
    · simp only [hk, if_false] at h
      exact List.mem_cons_of_mem _ (ih h)

theorem BoundBelow_Find (m : TMap) (n : Nat) (h : BoundBelow m n = true) (c : FCell)
    (a : AActor) (hf : TMap.Find m c = some (some a)) : a.UniqueID < n := by
  unfold BoundBelow at h
  rw [List.all_eq_true] at h
  have := h (c, some a) (TMap.mem_of_Find m c (some a) hf)
  simpa using this

/-- The spawner of `DemoEnv` hands out no actor with an id below `4 * (k + 1)`
at its call `k`. -/
theorem DemoEnv_fresh (d : Nat) (s : AGeneratedMap)
    (h : BoundBelow s.GridArray_ (4 * (s.SpawnCalls + 1)) = true) (k : Nat)
    (T : EActorTypeEnum) (c : FCell) (a : AActor) (hle : s.SpawnCalls ≤ k)
    (hsp : (DemoEnv d).SpawnActorAbsolute k T c = some a) (c' : FCell) :
    s.GridArray_.Find c' ≠ some (some a) := by
  intro hf
  have hlt := BoundBelow_Find s.GridArray_ _ h c' a hf
  simp only [DemoEnv, Option.some.injEq] at hsp
  rw [← hsp] at hlt
  simp only at hlt
  omega

theorem GenerateLevelActors_second_pass_witness :
    (∃ r, GenerateLevelActorsTrace (DemoEnv 0) DemoAfterPass = some r ∧
      r.Map.GridArray_.Find (DemoCell (-200) (-200)) = some (some ⟨17⟩)) ∧
    GenerateLevelActors (DemoEnv 99) DemoFull = some DemoFull := by
  constructor
  · have h1 : (GenerateLevelActorsTrace (DemoEnv 0) DemoAfterPass).isSome = true := by decide!
    cases hr : GenerateLevelActorsTrace (DemoEnv 0) DemoAfterPass with
    | none => simp [hr] at h1
    | some r =>
      exact ⟨r, rfl,
        (GenerateLevelActors_second_pass (DemoEnv 0) DemoAfterPass (by decide!)
          (fun k T c a hle hsp c' =>
            DemoEnv_fresh 0 DemoAfterPass (by decide!) k T c a hle hsp c')).1 r hr
          (DemoCell (-200) (-200)) ⟨17⟩ (by decide!) rfl⟩
  · exact (GenerateLevelActors_second_pass (DemoEnv 99) DemoFull (by decide!)
      (fun k T c a hle hsp c' =>
        DemoEnv_fresh 99 DemoFull (by decide!) k T c a hle hsp c')).2.2.1 1 1 (by decide!)
      (by decide!) (by decide!) (by decide!) (by decide!)

/-- C9 as stated fails: on the board of 3 x 3 cells with 4 characters a first
pass leaves 4 characters in the roster and a second pass, with nothing
destroyed in between, spawns 4 more at the corners, which the grid array
still has as empty. -/
theorem GenerateLevelActors_twice_counterexample :
    ¬ (∀ (env : Env) (s s1 s2 : AGeneratedMap), GenerateLevelActors env s = some s1 →
        GenerateLevelActors env s1 = some s2 →
        s2.GridArray_ = s1.GridArray_ ∧ s2.CharactersOnMap = s1.CharactersOnMap) := by
  intro h
  have h1 : (GenerateLevelActors (DemoEnv 99)
      (OnConstruction (DemoEnv 99) (DemoMap 2 2 4 0))).map
        (fun t => t.CharactersOnMap.length) = some 4 := by decide!
  have h2 : ((GenerateLevelActors (DemoEnv 99)
      (OnConstruction (DemoEnv 99) (DemoMap 2 2 4 0))).bind
        (GenerateLevelActors (DemoEnv 99))).map
          (fun t => t.CharactersOnMap.length) = some 8 := by decide!
  cases hs1 : GenerateLevelActors (DemoEnv 99) (OnConstruction (DemoEnv 99) (DemoMap 2 2 4 0)) with
  | none => simp [hs1] at h1
  | some s1 =>
    simp only [hs1, Option.map_some', Option.some.injEq, Option.some_bind] at h1 h2
    cases hs2 : GenerateLevelActors (DemoEnv 99) s1 with
    | none => simp [hs2] at h2
    | some s2 =>
      simp only [hs2, Option.map_some', Option.some.injEq] at h2
      have := (h (DemoEnv 99) _ s1 s2 hs1 hs2).2
      rw [this] at h2
      omega

/-! ## C10: destroying the actors of a set of cells -/

/-- C10 on the code. `DestroyActorsFromMap_Implementation` returns the Level
Map it was given; on the row of three cells with the wall on the first one,
called with the occupied first cell and the empty second cell, the wall is
still the occupant of the first cell and the cell is not empty. -/
theorem DestroyActorsFromMap_keeps_occupant :
    (∀ (s : AGeneratedMap) (Keys : List FCell), DestroyActorsFromMap_Implementation s Keys = s) ∧
    DemoRow.GridArray_.Find (DemoCell (-200) 0) = some (some DemoWall) ∧
    (DestroyActorsFromMap_Implementation DemoRow
        [DemoCell (-200) 0, DemoCell 0 0]).GridArray_.Find (DemoCell (-200) 0)
      = some (some DemoWall) ∧
    IsEmptyCell (DemoEnv 99)
        (DestroyActorsFromMap_Implementation DemoRow [DemoCell (-200) 0, DemoCell 0 0])
        (DemoCell (-200) 0) none = false :=
  ⟨fun _ _ => rfl, by decide!, by decide!, by decide!⟩

/-! ## C11: the intersection of cells and actor types -/

/-- C11 on the code. `IntersectionCellsByTypes_Implementation` returns the
cells it was given, whatever the bitmask and the excluded character; on the
row of three cells with the wall on the first one, called with the wall's
cell and the empty second cell, the result still holds the empty cell. -/
theorem IntersectionCellsByTypes_returns_input :
    (∀ (s : AGeneratedMap) (Cells : List FCell) (Bitmask : Int) (ExcludePlayer : Option AActor),
      IntersectionCellsByTypes_Implementation s Cells Bitmask ExcludePlayer = Cells) ∧
    DemoRow.GridArray_.Find (DemoCell (-200) 0) = some (some DemoWall) ∧
    DemoRow.GridArray_.Find (DemoCell 0 0) = some none ∧
    (∀ Bitmask : Int,
      IntersectionCellsByTypes_Implementation DemoRow [DemoCell (-200) 0, DemoCell 0 0] Bitmask
        none = [DemoCell (-200) 0, DemoCell 0 0]) ∧
    (∀ Bitmask : Int,
      IntersectionCellsByTypes_Implementation DemoRow [DemoCell (-200) 0, DemoCell 0 0] Bitmask
        none ≠ [DemoCell (-200) 0]) :=
  ⟨fun _ _ _ _ => rfl, by decide!, by decide!, fun _ => rfl, fun _ => by
    simp [IntersectionCellsByTypes_Implementation]⟩

/-! ## C12: the binding a spawn creates -/

/-- A spawn that returns an actor went past the two checks and added the
actor the world handed out. -/
theorem SpawnActorByType_returned (env : Env) (s : AGeneratedMap) (T : EActorTypeEnum)
    (Cell : FCell) (a : AActor) (hret : (SpawnActorByType env s T Cell).2 = some a) :
    (SpawnActorByType env s T Cell).1 =
      AddActorToGridArray env { s with SpawnCalls := s.SpawnCalls + 1 } Cell (some a) := by
  unfold SpawnActorByType at hret ⊢
  by_cases h : (env.HasWorld = false || decide (Cell = FCell.ZeroCell)) = true
  · rw [if_pos h] at hret
    simp at hret
  · rw [if_neg h] at hret ⊢
    simp only at hret ⊢
    rw [hret]

/-- C12, as the code has it. When `SpawnActorByType` returns an actor that
was bound to no cell of a grid array with distinct keys: no cell other than
the given one changes its binding; the given cell maps to the actor when the
actor is valid, not a character and of a level type and the cell is a key;
and the grid array is left as it is when the actor is a character or the cell
is not a key. -/
theorem SpawnActorByType_binding (env : Env) (s : AGeneratedMap) (T : EActorTypeEnum)
    (Cell : FCell) (a : AActor) (hk : s.GridArray_.GetKeys.Nodup)
    (hret : (SpawnActorByType env s T Cell).2 = some a)
    (hfresh : ∀ c, s.GridArray_.Find c ≠ some (some a)) :
    (∀ c, c ≠ Cell →
      (SpawnActorByType env s T Cell).1.GridArray_.Find c = s.GridArray_.Find c) ∧
    (env.IS_VALID a = true → s.GridArray_.Contains Cell = true →
      env.IsMyCharacter a = false → env.IsActorInTypes a = true →
      (SpawnActorByType env s T Cell).1.GridArray_.Find Cell = some (some a)) ∧
    (env.IsMyCharacter a = true ∨ s.GridArray_.Contains Cell = false →
      (SpawnActorByType env s T Cell).1.GridArray_ = s.GridArray_) := by
  rw [SpawnActorByType_returned env s T Cell a hret]
  refine ⟨?_, ?_, ?_⟩
  · intro c hc
    rcases AddActorToGridArray_grid_cases env { s with SpawnCalls := s.SpawnCalls + 1 } Cell
      (some a) with e | ⟨b, hb, -, -, -, -, e⟩
    · rw [e]
    · have hab : a = b := by simpa using hb
      subst hab
      rw [e, TMap.Find_Add_ne _ Cell c _ hc,
        RemoveActorFromGridArray_Find_ne { s with SpawnCalls := s.SpawnCalls + 1 } a c hk
          (hfresh c)]
  · intro hv hc hch ht
    rw [AddActorToGridArray_grid_placed env { s with SpawnCalls := s.SpawnCalls + 1 } Cell a hv
      hc hch ht]
    exact TMap.Find_Add_self _ _ _
  · rintro (hch | hc)
    · exact AddActorToGridArray_grid_character env _ Cell a hch
    · simp [AddActorToGridArray, hc]

theorem SpawnActorByType_binding_witness :
    ((∀ c, c ≠ DemoCell 0 (-200) →
      (SpawnActorByType (DemoEnv 99) (OnConstruction (DemoEnv 99) (DemoMap 2 2 4 0))
        EActorTypeEnum.Wall (DemoCell 0 (-200))).1.GridArray_.Find c =
        (OnConstruction (DemoEnv 99) (DemoMap 2 2 4 0)).GridArray_.Find c) ∧
    (SpawnActorByType (DemoEnv 99) (OnConstruction (DemoEnv 99) (DemoMap 2 2 4 0))
        EActorTypeEnum.Wall (DemoCell 0 (-200))).1.GridArray_.Find (DemoCell 0 (-200))
      = some (some ⟨5⟩)) ∧
    (SpawnActorByType (DemoEnv 99) (OnConstruction (DemoEnv 99) (DemoMap 2 2 4 0))
        EActorTypeEnum.Player (DemoCell (-200) (-200))).1.GridArray_ =
      (OnConstruction (DemoEnv 99) (DemoMap 2 2 4 0)).GridArray_ :=
  have hw := SpawnActorByType_binding (DemoEnv 99)
    (OnConstruction (DemoEnv 99) (DemoMap 2 2 4 0)) EActorTypeEnum.Wall (DemoCell 0 (-200)) ⟨5⟩
    (by decide!) (by decide!)
    (fun c hf => absurd (BoundBelow_Find _ 1 (by decide!) c _ hf) (by decide))
  have hp := SpawnActorByType_binding (DemoEnv 99)
    (OnConstruction (DemoEnv 99) (DemoMap 2 2 4 0)) EActorTypeEnum.Player
    (DemoCell (-200) (-200)) ⟨7⟩ (by decide!) (by decide!)
    (fun c hf => absurd (BoundBelow_Find _ 1 (by decide!) c _ hf) (by decide))
  ⟨⟨hw.1, hw.2.1 rfl (by decide!) rfl rfl⟩, hp.2.2 (Or.inl rfl)⟩

/-- C12 as stated fails for the player type: on the board of 3 x 3 cells the
spawn of a player at the corner cell returns the new character, and the grid
array still maps the cell to no occupant. -/
theorem SpawnActorByType_binding_player_counterexample :
    ¬ (∀ (env : Env) (s : AGeneratedMap) (T : EActorTypeEnum) (Cell : FCell) (a : AActor),
        (SpawnActorByType env s T Cell).2 = some a →
        (SpawnActorByType env s T Cell).1.GridArray_.Find Cell = some (some a)) := by
  intro h
  have h1 := h (DemoEnv 99) (OnConstruction (DemoEnv 99) (DemoMap 2 2 4 0))
    EActorTypeEnum.Player (DemoCell (-200) (-200)) ⟨7⟩ (by decide!)
  revert h1
  decide!

/-! ## C13: the emptiness test -/

/-- C13, as the code has it. For a cell that is a key of the grid array,
`IsEmptyCell` is true exactly when the cell has no occupant, or its occupant
is the excluded actor, or its occupant is not valid, and so it is false when
the cell holds a valid occupant other than the excluded actor; for a cell
that is not a key it is false. -/
theorem IsEmptyCell_cases (env : Env) (s : AGeneratedMap) (Cell : FCell)
    (ExcludeActor : Option AActor) :
    (∀ v, s.GridArray_.Find Cell = some v →
      (IsEmptyCell env s Cell ExcludeActor = true ↔
        (v = none ∨ v = ExcludeActor ∨ ∃ a, v = some a ∧ env.IS_VALID a = false)) ∧
      ((∃ a, v = some a ∧ env.IS_VALID a = true ∧ v ≠ ExcludeActor) →
        IsEmptyCell env s Cell ExcludeActor = false)) ∧
    (s.GridArray_.Find Cell = none → IsEmptyCell env s Cell ExcludeActor = false) := by
  constructor
  · intro v hv
    unfold IsEmptyCell
    rw [hv]
    cases v with
    | none => simp [Env.IsValidPtr]
    | some a =>
      constructor
      · by_cases he : some a = ExcludeActor
        · simp [he]
        · cases hval : env.IS_VALID a <;> simp [Env.IsValidPtr, he, hval]
      · rintro ⟨b, hb, hval, hne⟩
        have hab : a = b := by simpa using hb
        subst hab
        simp [Env.IsValidPtr, hne, hval]
  · intro hn
    unfold IsEmptyCell
    rw [hn]

theorem IsEmptyCell_cases_witness :
    IsEmptyCell (DemoEnv 99) DemoRow (DemoCell 0 0) none = true ∧
    IsEmptyCell (DemoEnv 99) DemoRow (DemoCell (-200) 0) (some DemoWall) = true ∧
    IsEmptyCell (DemoEnv 99) DemoRow (DemoCell (-200) 0) (some DemoBox) = false ∧
    IsEmptyCell (DemoEnv 99) DemoRow (DemoCell 1000 0) none = false :=
  ⟨((IsEmptyCell_cases (DemoEnv 99) DemoRow (DemoCell 0 0) none).1 none (by decide!)).1.mpr
      (Or.inl rfl),
    ((IsEmptyCell_cases (DemoEnv 99) DemoRow (DemoCell (-200) 0) (some DemoWall)).1
      (some DemoWall) (by decide!)).1.mpr (Or.inr (Or.inl rfl)),
    ((IsEmptyCell_cases (DemoEnv 99) DemoRow (DemoCell (-200) 0) (some DemoBox)).1
      (some DemoWall) (by decide!)).2 ⟨DemoWall, rfl, rfl, by decide⟩,
    (IsEmptyCell_cases (DemoEnv 99) DemoRow (DemoCell 1000 0) none).2 (by decide!)⟩

/-- C13 as stated fails for a cell that is not a key: the cell (1000, 0, 0)
is not a key of the row of three cells, so it has no occupant, and
`IsEmptyCell` returns false for it. -/
theorem IsEmptyCell_not_a_key_counterexample :
    ¬ (∀ (env : Env) (s : AGeneratedMap) (Cell : FCell) (ExcludeActor : Option AActor),
        (∀ a, s.GridArray_.Find Cell ≠ some (some a)) →
        IsEmptyCell env s Cell ExcludeActor = true) := by
  intro h
  have h1 := h (DemoEnv 99) DemoRow (DemoCell 1000 0) none (fun a hf => by
    have : DemoRow.GridArray_.Find (DemoCell 1000 0) = none := by decide!
    rw [this] at hf
    simp at hf)
  revert h1
  decide!

/-! ## C14: the rebuild discards the bindings -/

theorem Find_Add_none_values (m : TMap) (k : FCell)
    (h : ∀ c v, TMap.Find m c = some v → v = none) :
    ∀ c v, TMap.Find (TMap.Add m k none) c = some v → v = none := by
  intro c v hf
  by_cases e : c = k
  · rw [e, TMap.Find_Add_self] at hf
    simpa using hf.symm
  · rw [TMap.Find_Add_ne m k c none e] at hf
    exact h c v hf

/-- C14. Whatever the grid array held before, after `OnConstruction` on a
Level Map that is not transient every key maps to no occupant and
`IsEmptyCell` is true for every key. -/
theorem OnConstruction_all_empty (env : Env) (s : AGeneratedMap) (hs : s.bTransient = false) :
    ∀ c ∈ (OnConstruction env s).GridArray_.GetKeys,
      (OnConstruction env s).GridArray_.Find c = some none ∧
      IsEmptyCell env (OnConstruction env s) c none = true := by
  have hall := OnConstruction_GridArray_induction env s hs
    (fun m => ∀ c v, TMap.Find m c = some v → v = none)
    (fun c v hf => by simp [TMap.Find] at hf)
    (fun m k h => Find_Add_none_values m k h)
  intro c hc
  have hsome := (TMap.Find_isSome_iff _ c).mpr hc
  cases hf : (OnConstruction env s).GridArray_.Find c with
  | none => simp [hf] at hsome
  | some v =>
    have hv := hall c v hf
    subst hv
    refine ⟨rfl, ?_⟩
    unfold IsEmptyCell
    rw [hf]
    simp

theorem OnConstruction_all_empty_witness :
    DemoRow.GridArray_.Find (DemoCell (-200) 0) = some (some DemoWall) ∧
    ∀ c ∈ (OnConstruction (DemoEnv 99) DemoRow).GridArray_.GetKeys,
      (OnConstruction (DemoEnv 99) DemoRow).GridArray_.Find c = some none ∧
      IsEmptyCell (DemoEnv 99) (OnConstruction (DemoEnv 99) DemoRow) c none = true :=
  ⟨by decide!, OnConstruction_all_empty (DemoEnv 99) DemoRow (by decide!)⟩

/-! ## C15: the keys are fixed -/

/-- A pass that returns leaves the list of keys as it was. -/
theorem GenerateLevelActorsTrace_GetKeys (env : Env) (s : AGeneratedMap) (r : FGenerateLoop)
    (h : GenerateLevelActorsTrace env s = some r) :
    r.Map.GridArray_.GetKeys = s.GridArray_.GetKeys := by
  unfold GenerateLevelActorsTrace at h
  by_cases h0 : s.GridArray_.Num = 0
  · simp only [h0, if_true, Option.some.injEq] at h
    rw [← h]
  · simp only [h0, if_false] at h
    refine foldlM_preserves
      (fun st : FGenerateLoop => st.Map.GridArray_.GetKeys = s.GridArray_.GetKeys) _ ?_ _ _ r rfl h
    intro st Y st' hst hrow
    refine foldlM_preserves
      (fun st : FGenerateLoop => st.Map.GridArray_.GetKeys = s.GridArray_.GetKeys) _ ?_ _ _ st'
      hst hrow
    intro st1 X st2 hst1 hbody
    rw [(GenerateLoopBody_frame env _ _ Y X st1 st2 hbody).1]
    exact hst1

/-- One iteration returns when its index is in range. -/
theorem GenerateLoopBody_returns (env : Env) (M : FIntVector) (CellsArray : List FCell)
    (Y X : Nat) (st : FGenerateLoop) (CellIt : FCell)
    (hidx : CellsArray[(M.X * Y + X).toNat]? = some CellIt) :
    ∃ st', GenerateLoopBody env M CellsArray Y st X = some st' := by
  unfold GenerateLoopBody
  simp only [hidx]
  by_cases he : IsEmptyCell env st.Map CellIt none = false
  · rw [if_pos he]
    exact ⟨_, rfl⟩
  · rw [if_neg he]
    exact ⟨_, rfl⟩

/-- The index of the iteration `(X, Y)` of a board of width `W`. -/
theorem flat_index_toNat (M : FIntVector) (W : Nat) (hMX : M.X = (W : Int)) (Y X : Nat) :
    (M.X * (Y : Int) + (X : Int)).toNat = W * Y + X := by
  rw [hMX]
  have : ((W : Int) * (Y : Int) + (X : Int)) = ((W * Y + X : Nat) : Int) := by push_cast; ring
  rw [this, Int.toNat_ofNat]

theorem flat_index_lt (W L X Y : Nat) (hX : X < W) (hY : Y < L) : W * Y + X < W * L := by
  have := Nat.mul_le_mul_left W (Nat.succ_le_of_lt hY)
  rw [Nat.mul_succ] at this
  omega

/-- The two loops return when the array of cells has at least `W * L`
entries. -/
theorem GenerateLoops_returns (env : Env) (M : FIntVector) (W L : Nat) (hMX : M.X = (W : Int))
    (hMY : M.Y = (L : Int)) (CellsArray : List FCell) (hlen : W * L ≤ CellsArray.length)
    (st : FGenerateLoop) : ∃ st', GenerateLoops env M CellsArray st = some st' := by
  unfold GenerateLoops
  rw [hMY, Int.toNat_ofNat]
  obtain ⟨st', hr, -⟩ := range_foldlM_invariant (GenerateRow env M CellsArray)
    (fun _ _ => True) L
    (fun Y st1 hYL _ => by
      unfold GenerateRow
      rw [hMX, Int.toNat_ofNat]
      obtain ⟨st2, hr2, -⟩ := range_foldlM_invariant (GenerateLoopBody env M CellsArray Y)
        (fun _ _ => True) W
        (fun X st3 hXW _ => by
          have hlt : W * Y + X < CellsArray.length :=
            Nat.lt_of_lt_of_le (flat_index_lt W L X Y hXW hYL) hlen
          obtain ⟨st4, h4⟩ := GenerateLoopBody_returns env M CellsArray Y X st3
            (CellsArray[W * Y + X])
            (by rw [flat_index_toNat M W hMX Y X, List.getElem?_eq_getElem hlt])
          exact ⟨st4, h4, trivial⟩)
        st1 trivial
      exact ⟨st2, hr2, trivial⟩)
    st trivial
  exact ⟨st', hr⟩

/-- A pass returns when the grid array has at least `W * L` keys for the
width `W` and the length `L` of the scale. -/
theorem GenerateLevelActorsTrace_returns (env : Env) (s : AGeneratedMap) (W L : Nat)
    (hX : (FIntVector.ofVector s.ActorScale3D).X = (W : Int))
    (hY : (FIntVector.ofVector s.ActorScale3D).Y = (L : Int))
    (hnum : W * L ≤ s.GridArray_.Num) : ∃ r, GenerateLevelActorsTrace env s = some r := by
  unfold GenerateLevelActorsTrace
  split_ifs
  · exact ⟨_, rfl⟩
  · exact GenerateLoops_returns env _ W L hX hY _
      (by simpa [TMap.Num, TMap.GetKeys] using hnum) _

/-- C15. `AddActorToGridArray`, `RemoveActorFromGridArray`, `SpawnActorByType`
and `GenerateLevelActors` leave the list of the keys of the grid array as it
was: no key is added and none is removed; and the pass returns when the grid
array has the `W * L` keys of the scale. -/
theorem GetKeys_fixed (env : Env) (s : AGeneratedMap) :
    (∀ (Cell : FCell) (UpdateActor : Option AActor),
      (AddActorToGridArray env s Cell UpdateActor).GridArray_.GetKeys = s.GridArray_.GetKeys) ∧
    (∀ Actor : AActor,
      (RemoveActorFromGridArray s Actor).GridArray_.GetKeys = s.GridArray_.GetKeys) ∧
    (∀ (T : EActorTypeEnum) (Cell : FCell),
      (SpawnActorByType env s T Cell).1.GridArray_.GetKeys = s.GridArray_.GetKeys) ∧
    (∀ s', GenerateLevelActors env s = some s' →
      s'.GridArray_.GetKeys = s.GridArray_.GetKeys) ∧
    (∀ W L : Nat, (FIntVector.ofVector s.ActorScale3D).X = (W : Int) →
      (FIntVector.ofVector s.ActorScale3D).Y = (L : Int) → s.GridArray_.Num = W * L →
      ∃ s', GenerateLevelActors env s = some s' ∧
        s'.GridArray_.GetKeys = s.GridArray_.GetKeys) := by
  have hgen : ∀ s', GenerateLevelActors env s = some s' →
      s'.GridArray_.GetKeys = s.GridArray_.GetKeys := by
    intro s' h
    unfold GenerateLevelActors at h
    cases hr : GenerateLevelActorsTrace env s with
    | none => simp [hr] at h
    | some r =>
      simp only [hr, Option.map_some', Option.some.injEq] at h
      rw [← h]
      exact GenerateLevelActorsTrace_GetKeys env s r hr
  refine ⟨fun Cell p => AddActorToGridArray_GetKeys env s Cell p,
    fun a => RemoveActorFromGridArray_GetKeys s a,
    fun T Cell => SpawnActorByType_GetKeys env s T Cell, hgen, ?_⟩
  intro W L hX hY hnum
  obtain ⟨r, hr⟩ := GenerateLevelActorsTrace_returns env s W L hX hY (Nat.le_of_eq hnum.symm)
  have hs' : GenerateLevelActors env s = some r.Map := by
    unfold GenerateLevelActors
    rw [hr]
    rfl
  exact ⟨r.Map, hs', hgen r.Map hs'⟩

theorem GetKeys_fixed_witness :
    ∃ s', GenerateLevelActors (DemoEnv 0) (OnConstruction (DemoEnv 0) (DemoMap 4 4 4 100))
        = some s' ∧
      s'.GridArray_.GetKeys = (OnConstruction (DemoEnv 0) (DemoMap 4 4 4 100)).GridArray_.GetKeys :=
  (GetKeys_fixed (DemoEnv 0) (OnConstruction (DemoEnv 0) (DemoMap 4 4 4 100))).2.2.2.2 5 5
    (by decide!) (by decide!) (by decide!)

/-! ## C16: what the removal changes -/

/-- C16. On a grid array with distinct keys in which every occupant is bound
to at most one cell: after `RemoveActorFromGridArray` of an actor no cell
maps to the actor, the cell that mapped to it maps to no occupant, every cell
that did not map to the actor keeps its binding, and the roster is unchanged;
when the actor was bound to no cell the Level Map is left as it is. -/
theorem RemoveActorFromGridArray_effect (s : AGeneratedMap) (a : AActor)
    (hk : s.GridArray_.GetKeys.Nodup) (hsingle : SingleCell s.GridArray_) :
    (∀ c, (RemoveActorFromGridArray s a).GridArray_.Find c ≠ some (some a)) ∧
    (∀ c, s.GridArray_.Find c = some (some a) →
      (RemoveActorFromGridArray s a).GridArray_.Find c = some none) ∧
    (∀ c, s.GridArray_.Find c ≠ some (some a) →
      (RemoveActorFromGridArray s a).GridArray_.Find c = s.GridArray_.Find c) ∧
    (RemoveActorFromGridArray s a).CharactersOnMap = s.CharactersOnMap ∧
    ((∀ c, s.GridArray_.Find c ≠ some (some a)) → RemoveActorFromGridArray s a = s) := by
  have hbound : ∀ c, s.GridArray_.Find c = some (some a) →
      (RemoveActorFromGridArray s a).GridArray_.Find c = some none := by
    intro c hc
    unfold RemoveActorFromGridArray
    cases hf : s.GridArray_.FindKey (some a) with
    | none => exact absurd hc (TMap.FindKey_eq_none s.GridArray_ (some a) hf c)
    | some c0 =>
      have h0 := TMap.Find_of_FindKey s.GridArray_ (some a) c0 hk hf
      rw [hsingle c c0 a hc h0]
      exact TMap.Find_Add_self _ _ _
  refine ⟨?_, hbound, fun c hc => RemoveActorFromGridArray_Find_ne s a c hk hc,
    (RemoveActorFromGridArray_fields s a).2.2.2, ?_⟩
  · intro c hc
    by_cases hb : s.GridArray_.Find c = some (some a)
    · rw [hbound c hb] at hc
      simp at hc
    · rw [RemoveActorFromGridArray_Find_ne s a c hk hb] at hc
      exact hb hc
  · intro hnone
    unfold RemoveActorFromGridArray
    cases hf : s.GridArray_.FindKey (some a) with
    | none => rfl
    | some c0 => exact absurd (TMap.Find_of_FindKey s.GridArray_ (some a) c0 hk hf) (hnone c0)

theorem RemoveActorFromGridArray_effect_witness :
    DemoRow.GridArray_.Find (DemoCell (-200) 0) = some (some DemoWall) ∧
    (∀ c, (RemoveActorFromGridArray DemoRow DemoWall).GridArray_.Find c ≠ some (some DemoWall)) ∧
    (RemoveActorFromGridArray DemoRow DemoWall).GridArray_.Find (DemoCell (-200) 0)
      = some none ∧
    (RemoveActorFromGridArray DemoRow DemoWall).CharactersOnMap = DemoRow.CharactersOnMap :=
  have hd : DemoRow.GridArray_.Find (DemoCell (-200) 0) = some (some DemoWall) := by decide!
  have h := RemoveActorFromGridArray_effect DemoRow DemoWall (by decide!)
    (Reachable_GridInv (DemoEnv 99) DemoRow
      (Reachable.add _ _ _ (Reachable.rebuild (DemoMap 3 1 4 0) rfl))).single
  ⟨hd, h.1, h.2.1 (DemoCell (-200) 0) hd, h.2.2.2.1⟩

/-! ## C17: invalid input -/

/-- C17. `SpawnActorByType` without a world or with the zero cell returns no
actor and the Level Map it was given; `AddActorToGridArray` with a null
actor, with an actor that is not valid, or with a cell that is not a key of
the grid array returns the Level Map it was given. -/
theorem invalid_input_no_effect (env : Env) (s : AGeneratedMap) :
    (∀ (T : EActorTypeEnum) (Cell : FCell), env.HasWorld = false ∨ Cell = FCell.ZeroCell →
      SpawnActorByType env s T Cell = (s, none)) ∧
    (∀ Cell : FCell, AddActorToGridArray env s Cell none = s) ∧
    (∀ (Cell : FCell) (a : AActor), env.IS_VALID a = false →
      AddActorToGridArray env s Cell (some a) = s) ∧
    (∀ (Cell : FCell) (UpdateActor : Option AActor), s.GridArray_.Contains Cell = false →
      AddActorToGridArray env s Cell UpdateActor = s) := by
  refine ⟨?_, fun _ => rfl, ?_, ?_⟩
  · intro T Cell h
    unfold SpawnActorByType
    rcases h with h | h
    · simp [h]
    · simp [h]
  · intro Cell a hv
    simp [AddActorToGridArray, hv]
  · intro Cell p hc
    cases p with
    | none => rfl
    | some a => simp [AddActorToGridArray, hc]

theorem invalid_input_no_effect_witness :
    SpawnActorByType (DemoEnv 99) DemoRow EActorTypeEnum.Wall FCell.ZeroCell = (DemoRow, none) ∧
    AddActorToGridArray (DemoEnv 99) DemoRow (DemoCell 0 0) none = DemoRow ∧
    AddActorToGridArray StaleEnv DemoRow (DemoCell 0 0) (some ⟨1000⟩) = DemoRow ∧
    AddActorToGridArray (DemoEnv 99) DemoRow (DemoCell 1000 0) (some DemoBox) = DemoRow :=
  have h := invalid_input_no_effect (DemoEnv 99) DemoRow
  ⟨h.1 EActorTypeEnum.Wall FCell.ZeroCell (Or.inr rfl), h.2.1 (DemoCell 0 0),
    (invalid_input_no_effect StaleEnv DemoRow).2.2.1 (DemoCell 0 0) ⟨1000⟩ rfl,
    h.2.2.2 (DemoCell 1000 0) (some DemoBox) (by decide!)⟩

/-! ## C18: the rounding of the scale -/

/-- The correction on a negative odd width: the remainder of -3 by 2 is -1,
not 1, so 1 is added and -2 is stored. -/
theorem CorrectedMapScale_negative_odd :
    CorrectedMapScale ⟨-3, 3, 1⟩ = ⟨-2, 3, 1⟩ := by decide!

/-! ## C19: the roster -/

/-- The hygiene of the roster keeps a sublist, in order. -/
theorem RosterHygiene_sublist (env : Env) (i : Nat) (l : List AActor) :
    (RosterHygiene env i l).Sublist l := by
  induction i generalizing l with
  | zero => exact List.Sublist.refl l
  | succ i ih =>
    unfold RosterHygiene
    cases hl : l[i]? with
    | none => exact ih l
    | some a =>
      simp only
      split_ifs
      · exact (ih _).trans (List.eraseIdx_sublist l i)
      · exact ih l

/-- The roster after `AddActorToGridArray` is the old one, or the old one
with the actor appended when the actor is a valid character that is not in
it and the cell is a key. -/
theorem AddActorToGridArray_roster (env : Env) (s : AGeneratedMap) (Cell : FCell)
    (p : Option AActor) :
    (AddActorToGridArray env s Cell p).CharactersOnMap = s.CharactersOnMap ∨
      ∃ a, p = some a ∧ env.IS_VALID a = true ∧ s.GridArray_.Contains Cell = true ∧
        env.IsMyCharacter a = true ∧ a ∉ s.CharactersOnMap ∧
        (AddActorToGridArray env s Cell p).CharactersOnMap = s.CharactersOnMap ++ [a] := by
  cases p with
  | none => exact Or.inl rfl
  | some a =>
    by_cases hv : env.IS_VALID a = true
    · by_cases hc : s.GridArray_.Contains Cell = true
      · by_cases hch : env.IsMyCharacter a = true
        · by_cases hm : a ∈ s.CharactersOnMap
          · left
            simp [AddActorToGridArray, hv, hc, hch, hm]
          · right
            exact ⟨a, rfl, hv, hc, hch, hm, by simp [AddActorToGridArray, hv, hc, hch, hm]⟩
        · left
          have hr := (RemoveActorFromGridArray_fields s a).2.2.2
          have hch' : env.IsMyCharacter a = false := by simpa using hch
          by_cases ht : env.IsActorInTypes a = true
          · simp [AddActorToGridArray, hv, hc, hch', ht, hr]
          · simp [AddActorToGridArray, hv, hc, hch', ht]
      · left
        simp [AddActorToGridArray, hc]
    · left
      simp [AddActorToGridArray, hv]

theorem Nodup_append_new (l : List AActor) (a : AActor) (h : l.Nodup) (ha : a ∉ l) :
    (l ++ [a]).Nodup := by
  rw [List.nodup_append]
  exact ⟨h, List.nodup_singleton a, by
    intro x hx hx'
    rw [List.mem_singleton] at hx'
    exact ha (hx' ▸ hx)⟩

theorem AddActorToGridArray_roster_nodup (env : Env) (s : AGeneratedMap) (Cell : FCell)
    (p : Option AActor) (h : s.CharactersOnMap.Nodup) :
    (AddActorToGridArray env s Cell p).CharactersOnMap.Nodup := by
  rcases AddActorToGridArray_roster env s Cell p with e | ⟨a, -, -, -, -, hm, e⟩
  · rw [e]
    exact h
  · rw [e]
    exact Nodup_append_new _ a h hm

/-- The roster after `AddActorToGridArray` starts with the old roster. -/
theorem AddActorToGridArray_roster_prefix (env : Env) (s : AGeneratedMap) (Cell : FCell)
    (p : Option AActor) :
    ∃ l, (AddActorToGridArray env s Cell p).CharactersOnMap = s.CharactersOnMap ++ l := by
  rcases AddActorToGridArray_roster env s Cell p with e | ⟨a, -, -, -, -, -, e⟩
  · exact ⟨[], by rw [e, List.append_nil]⟩
  · exact ⟨[a], e⟩

/-- One iteration keeps the roster duplicate-free and only appends to it. -/
theorem GenerateLoopBody_roster (env : Env) (M : FIntVector) (CellsArray : List FCell)
    (Y X : Nat) (st st' : FGenerateLoop)
    (hb : GenerateLoopBody env M CellsArray Y st X = some st') :
    (st.Map.CharactersOnMap.Nodup → st'.Map.CharactersOnMap.Nodup) ∧
    ∃ l, st'.Map.CharactersOnMap = st.Map.CharactersOnMap ++ l := by
  unfold GenerateLoopBody at hb
  cases hc : CellsArray[(M.X * ↑Y + ↑X).toNat]? with
  | none => simp [hc] at hb
  | some CellIt =>
    simp only [hc] at hb
    by_cases he : IsEmptyCell env st.Map CellIt none = false
    · simp only [he, if_true, Option.some.injEq] at hb
      rw [← hb]
      exact ⟨fun h => h, [], by rw [List.append_nil]⟩
    · have he' : IsEmptyCell env st.Map CellIt none = true := by simpa using he
      simp only [he', Bool.true_eq_false, if_false, Option.some.injEq] at hb
      rw [← hb]
      simp only
      have hd := (CountDraw_fields
        (SelectActorType M st.Map.CharactersNumber st.Map.BoxesChance_ st.SpawnedCharactersN
          (RandRange env st.Map.RandCalls 0 99) Y X).2.2 st.Map).2.2.2.2
      by_cases hT : (SelectActorType M st.Map.CharactersNumber st.Map.BoxesChance_
          st.SpawnedCharactersN (RandRange env st.Map.RandCalls 0 99) Y X).1 ≠ EActorTypeEnum.None
      · rw [if_pos hT]
        unfold SpawnActorByType
        split_ifs
        · simp only
          rw [hd]
          exact ⟨fun h => h, [], by rw [List.append_nil]⟩
        · simp only
          constructor
          · intro h
            exact AddActorToGridArray_roster_nodup env _ CellIt _ (by simpa [hd] using h)
          · obtain ⟨l, hl⟩ := AddActorToGridArray_roster_prefix env
              { CountDraw (SelectActorType M st.Map.CharactersNumber st.Map.BoxesChance_
                  st.SpawnedCharactersN (RandRange env st.Map.RandCalls 0 99) Y X).2.2 st.Map with
                SpawnCalls := (CountDraw (SelectActorType M st.Map.CharactersNumber
                  st.Map.BoxesChance_ st.SpawnedCharactersN
                  (RandRange env st.Map.RandCalls 0 99) Y X).2.2 st.Map).SpawnCalls + 1 }
              CellIt
              (env.SpawnActorAbsolute (CountDraw (SelectActorType M st.Map.CharactersNumber
                  st.Map.BoxesChance_ st.SpawnedCharactersN
                  (RandRange env st.Map.RandCalls 0 99) Y X).2.2 st.Map).SpawnCalls
                (SelectActorType M st.Map.CharactersNumber st.Map.BoxesChance_
                  st.SpawnedCharactersN (RandRange env st.Map.RandCalls 0 99) Y X).1 CellIt)
            exact ⟨l, by rw [hl]; simp only [hd]⟩
      · rw [if_neg hT, hd]
        exact ⟨fun h => h, [], by rw [List.append_nil]⟩

/-- A pass that returns keeps the roster duplicate-free; its roster is a
sublist of the old one, in order, followed by the characters it appended. -/
theorem GenerateLevelActorsTrace_roster (env : Env) (s : AGeneratedMap) (r : FGenerateLoop)
    (h : GenerateLevelActorsTrace env s = some r) :
    (s.CharactersOnMap.Nodup → r.Map.CharactersOnMap.Nodup) ∧
    ∃ base l, base.Sublist s.CharactersOnMap ∧ r.Map.CharactersOnMap = base ++ l := by
  unfold GenerateLevelActorsTrace at h
  by_cases h0 : s.GridArray_.Num = 0
  · simp only [h0, if_true, Option.some.injEq] at h
    rw [← h]
    exact ⟨fun hn => hn, s.CharactersOnMap, [], List.Sublist.refl _, by rw [List.append_nil]⟩
  · simp only [h0, if_false] at h
    have hsub := RosterHygiene_sublist env s.CharactersOnMap.length s.CharactersOnMap
    have hinv := foldlM_preserves
      (fun st : FGenerateLoop =>
        (s.CharactersOnMap.Nodup → st.Map.CharactersOnMap.Nodup) ∧
        ∃ l, st.Map.CharactersOnMap =
          RosterHygiene env s.CharactersOnMap.length s.CharactersOnMap ++ l) _ ?_ _ _ r
      ⟨fun hn => List.Nodup.sublist hsub hn, [], by rw [List.append_nil]⟩ h
    · exact ⟨hinv.1, _, _, hsub, hinv.2.choose_spec⟩
    · intro st Y st' hst hrow
      refine foldlM_preserves
        (fun st : FGenerateLoop =>
          (s.CharactersOnMap.Nodup → st.Map.CharactersOnMap.Nodup) ∧
          ∃ l, st.Map.CharactersOnMap =
            RosterHygiene env s.CharactersOnMap.length s.CharactersOnMap ++ l) _ ?_ _ _ st' hst
        hrow
      intro st1 X st2 hst1 hbody
      obtain ⟨e1, l2, e2⟩ := GenerateLoopBody_roster env _ _ Y X st1 st2 hbody
      obtain ⟨l1, hl1⟩ := hst1.2
      exact ⟨fun hn => e1 (hst1.1 hn), l1 ++ l2, by rw [e2, hl1, List.append_assoc]⟩

theorem RosterReachable_nodup (env : Env) (s : AGeneratedMap) (h : RosterReachable env s) :
    s.CharactersOnMap.Nodup := by
  induction h with
  | start s hs => exact hs
  | construct s _ ih =>
    by_cases ht : s.bTransient = true
    · simp only [OnConstruction, ht, if_true]
      exact ih
    · rw [(OnConstruction_frame env s (by simpa using ht)).2.2.2.1]
      exact ih
  | add s Cell p _ ih => exact AddActorToGridArray_roster_nodup env s Cell p ih
  | remove s a _ ih =>
    rw [(RemoveActorFromGridArray_fields s a).2.2.2]
    exact ih
  | generate s s' _ hg ih =>
    unfold GenerateLevelActors at hg
    cases hr : GenerateLevelActorsTrace env s with
    | none => simp [hr] at hg
    | some r =>
      simp only [hr, Option.map_some', Option.some.injEq] at hg
      rw [← hg]
      exact (GenerateLevelActorsTrace_roster env s r hr).1 ih

/-- C19. In every state reachable from a duplicate-free roster by
constructions, `AddActorToGridArray`, `RemoveActorFromGridArray` and passes
of `GenerateLevelActors`, the roster is duplicate-free. Adding, at a key, a
valid character that is not in the roster appends it at the end; adding a
character that is in the roster, or an actor that is not a character, leaves
the roster as it is; and a pass keeps the entries it does not prune in their
order and appends the characters it spawns. -/
theorem roster_duplicate_free (env : Env) :
    (∀ s, RosterReachable env s → s.CharactersOnMap.Nodup) ∧
    (∀ (s : AGeneratedMap) (Cell : FCell) (a : AActor), env.IS_VALID a = true →
      s.GridArray_.Contains Cell = true → env.IsMyCharacter a = true → a ∉ s.CharactersOnMap →
      (AddActorToGridArray env s Cell (some a)).CharactersOnMap = s.CharactersOnMap ++ [a]) ∧
    (∀ (s : AGeneratedMap) (Cell : FCell) (a : AActor), env.IsMyCharacter a = true →
      a ∈ s.CharactersOnMap →
      (AddActorToGridArray env s Cell (some a)).CharactersOnMap = s.CharactersOnMap) ∧
    (∀ (s : AGeneratedMap) (Cell : FCell) (a : AActor), env.IsMyCharacter a = false →
      (AddActorToGridArray env s Cell (some a)).CharactersOnMap = s.CharactersOnMap) ∧
    (∀ (s s' : AGeneratedMap), GenerateLevelActors env s = some s' →
      ∃ base l, base.Sublist s.CharactersOnMap ∧ s'.CharactersOnMap = base ++ l) := by
  refine ⟨RosterReachable_nodup env, ?_, ?_, ?_, ?_⟩
  · intro s Cell a hv hc hch hm
    simp [AddActorToGridArray, hv, hc, hch, hm]
  · intro s Cell a hch hm
    rcases AddActorToGridArray_roster env s Cell (some a) with e | ⟨b, hb, -, -, -, hnm, -⟩
    · exact e
    · have hab : a = b := by simpa using hb
      exact absurd (hab ▸ hm) hnm
  · intro s Cell a hch
    rcases AddActorToGridArray_roster env s Cell (some a) with e | ⟨b, hb, -, -, hchb, -, -⟩
    · exact e
    · have hab : a = b := by simpa using hb
      rw [← hab, hch] at hchb
      simp at hchb
  · intro s s' hg
    unfold GenerateLevelActors at hg
    cases hr : GenerateLevelActorsTrace env s with
    | none => simp [hr] at hg
    | some r =>
      simp only [hr, Option.map_some', Option.some.injEq] at hg
      rw [← hg]
      exact (GenerateLevelActorsTrace_roster env s r hr).2

theorem roster_duplicate_free_witness :
    RosterReachable (DemoEnv 99) DemoTwice ∧ DemoTwice.CharactersOnMap.Nodup ∧
    (AddActorToGridArray (DemoEnv 99) (OnConstruction (DemoEnv 99) (DemoMap 2 2 4 0))
        (DemoCell 0 0) (some DemoCharacter)).CharactersOnMap = [] ++ [DemoCharacter] ∧
    DemoTwice.CharactersOnMap = [DemoCharacter] ∧
    (AddActorToGridArray (DemoEnv 99) DemoTwice (DemoCell 0 0) (some DemoWall)).CharactersOnMap
      = DemoTwice.CharactersOnMap :=
  have hr : RosterReachable (DemoEnv 99) DemoTwice :=
    RosterReachable.add _ _ _ (RosterReachable.add _ _ _
      (RosterReachable.construct _ (RosterReachable.start (DemoMap 2 2 4 0) List.nodup_nil)))
  have h := roster_duplicate_free (DemoEnv 99)
  ⟨hr, h.1 DemoTwice hr,
    h.2.1 (OnConstruction (DemoEnv 99) (DemoMap 2 2 4 0)) (DemoCell 0 0) DemoCharacter rfl
      (by decide!) rfl (by decide!),
    (h.2.2.1 _ (DemoCell 200 0) DemoCharacter rfl (by decide!)).trans (by decide!),
    h.2.2.2.1 DemoTwice (DemoCell 0 0) DemoWall rfl⟩

/-! ## C20: occupied cells in a pass -/

/-- One iteration records its read; it changes nothing else when its cell is
not empty, and appends to the record of the selections the selection for its
cell when the cell is empty. -/
theorem GenerateLoopBody_cases (env : Env) (M : FIntVector) (CellsArray : List FCell)
    (Y X : Nat) (st st' : FGenerateLoop)
    (hb : GenerateLoopBody env M CellsArray Y st X = some st') :
    ∃ CellIt, CellsArray[(M.X * Y + X).toNat]? = some CellIt ∧
      st'.Visited = st.Visited ++ [(M.X * (Y : Int) + (X : Int), CellIt)] ∧
      ((IsEmptyCell env st.Map CellIt none = false ∧ st'.Map = st.Map ∧
          st'.SpawnedCharactersN = st.SpawnedCharactersN ∧ st'.Selected = st.Selected) ∨
        (IsEmptyCell env st.Map CellIt none = true ∧
          ∃ T, st'.Selected = st.Selected ++ [(X, Y, T)])) := by
  unfold GenerateLoopBody at hb
  cases hc : CellsArray[(M.X * ↑Y + ↑X).toNat]? with
  | none => simp [hc] at hb
  | some CellIt =>
    simp only [hc] at hb
    refine ⟨CellIt, rfl, ?_⟩
    by_cases he : IsEmptyCell env st.Map CellIt none = false
    · simp only [he, if_true, Option.some.injEq] at hb
      rw [← hb]
      exact ⟨rfl, Or.inl ⟨he, rfl, rfl, rfl⟩⟩
    · have he' : IsEmptyCell env st.Map CellIt none = true := by simpa using he
      simp only [he', Bool.true_eq_false, if_false, Option.some.injEq] at hb
      rw [← hb]
      exact ⟨rfl, Or.inr ⟨he', _, rfl⟩⟩

/-- A cell that holds a valid occupant is not empty. -/
theorem IsEmptyCell_occupied (env : Env) (m : AGeneratedMap) (c : FCell) (a : AActor)
    (hf : m.GridArray_.Find c = some (some a)) (hv : env.IS_VALID a = true) :
    IsEmptyCell env m c none = false := by
  unfold IsEmptyCell
  rw [hf]
  simp [Env.IsValidPtr, hv]

/-- The loops, started with an empty record on a grid array with distinct
keys in a world whose spawner hands out new actors only, leave on its cell
every occupant that is valid, and select nothing for a cell with such an
occupant. -/
theorem GenerateLoops_untouched (env : Env) (M : FIntVector) (CellsArray : List FCell)
    (st0 r : FGenerateLoop) (hk : st0.Map.GridArray_.GetKeys.Nodup)
    (hsel : st0.Selected = [])
    (hfresh : ∀ (k : Nat) (T : EActorTypeEnum) (c : FCell) (a : AActor),
      st0.Map.SpawnCalls ≤ k → env.SpawnActorAbsolute k T c = some a →
      ∀ c', st0.Map.GridArray_.Find c' ≠ some (some a))
    (h : GenerateLoops env M CellsArray st0 = some r) :
    (∀ (c : FCell) (a : AActor), st0.Map.GridArray_.Find c = some (some a) →
      env.IS_VALID a = true → r.Map.GridArray_.Find c = some (some a)) ∧
    (∀ (X Y : Nat) (T : EActorTypeEnum), (X, Y, T) ∈ r.Selected →
      ∀ c, CellsArray[(M.X * Y + X).toNat]? = some c →
        ¬ ∃ a, st0.Map.GridArray_.Find c = some (some a) ∧ env.IS_VALID a = true) := by
  have hinv := GenerateLoops_preserves
    (fun st : FGenerateLoop => st.Map.GridArray_.GetKeys.Nodup ∧
      st0.Map.SpawnCalls ≤ st.Map.SpawnCalls ∧
      (∀ (c : FCell) (a : AActor), st0.Map.GridArray_.Find c = some (some a) →
        env.IS_VALID a = true → st.Map.GridArray_.Find c = some (some a)) ∧
      (∀ e ∈ st.Selected, ∀ c,
        CellsArray[(M.X * e.2.1 + e.1).toNat]? = some c →
        ¬ ∃ a, st0.Map.GridArray_.Find c = some (some a) ∧ env.IS_VALID a = true))
    env M CellsArray ?_ st0 r
    ⟨hk, Nat.le_refl _, fun c a hf _ => hf, fun e he => by rw [hsel] at he; simp at he⟩ h
  · exact ⟨hinv.2.2.1, fun X Y T hmem => hinv.2.2.2 (X, Y, T) hmem⟩
  · intro Y X st1 st2 ⟨g1, g2, g3, g4⟩ hbody
    obtain ⟨e1, e2, e3⟩ := GenerateLoopBody_frame env _ _ Y X st1 st2 hbody
    refine ⟨by rw [e1]; exact g1, Nat.le_trans g2 e2, ?_, ?_⟩
    · intro c a hf hv
      exact e3 g1 c a (g3 c a hf hv) hv
        (fun k T' c' hk' hsp => hfresh k T' c' a (Nat.le_trans g2 hk') hsp c hf)
    · obtain ⟨CellIt, hidx, -, hcase | ⟨hemp, T, hsel'⟩⟩ :=
        GenerateLoopBody_cases env _ _ Y X st1 st2 hbody
      · rw [hcase.2.2.2]
        exact g4
      · rw [hsel']
        intro e he c hc
        rcases List.mem_append.mp he with he | he
        · exact g4 e he c hc
        · rw [List.mem_singleton.mp he] at hc
          simp only at hc
          rw [hidx] at hc
          have hcc : CellIt = c := by simpa using hc
          rintro ⟨a, hf, hv⟩
          rw [← hcc] at hf
          have := IsEmptyCell_occupied env st1.Map CellIt a (g3 CellIt a hf hv) hv
          rw [hemp] at this
          simp at this

/-- C20, as the code has it. For a grid array with distinct keys and a
spawner that hands out new actors only. In the game build: after a pass every
cell that held a valid occupant holds the same occupant, and the record of
the pass has no selection for such a cell, so nothing is spawned at it. In
every build an iteration on a cell that is not empty leaves the Level Map,
the counter of characters and the record of the selections as they are, so it
takes no player slot and no draw. In the editor build, where the pass first
destroys the editor-only actors attached to the Level Map and broadcasts, the
two statements on the pass hold of the occupants that are valid in the world
after the destruction, on the Level Map after the broadcast. -/
theorem GenerateLevelActors_occupied_untouched (env : Env) (s : AGeneratedMap)
    (hk : s.GridArray_.GetKeys.Nodup)
    (hfresh : ∀ (k : Nat) (T : EActorTypeEnum) (c : FCell) (a : AActor), s.SpawnCalls ≤ k →
      env.SpawnActorAbsolute k T c = some a → ∀ c', s.GridArray_.Find c' ≠ some (some a)) :
    (∀ r, GenerateLevelActorsTrace env s = some r →
      (∀ (c : FCell) (a : AActor), s.GridArray_.Find c = some (some a) →
        env.IS_VALID a = true → r.Map.GridArray_.Find c = some (some a)) ∧
      (∀ (X Y : Nat) (T : EActorTypeEnum), (X, Y, T) ∈ r.Selected →
        ∀ c, s.GridArray_.GetKeys[((FIntVector.ofVector s.ActorScale3D).X * Y + X).toNat]?
            = some c →
          ¬ ∃ a, s.GridArray_.Find c = some (some a) ∧ env.IS_VALID a = true)) ∧
    (∀ (w : Env) (M : FIntVector) (CellsArray : List FCell) (Y X : Nat) (st : FGenerateLoop)
        (CellIt : FCell), CellsArray[(M.X * Y + X).toNat]? = some CellIt →
        IsEmptyCell w st.Map CellIt none = false →
        GenerateLoopBody w M CellsArray Y st X =
          some { st with Visited := st.Visited ++ [(M.X * (Y : Int) + (X : Int), CellIt)] }) ∧
    (∀ (ed : EditorEnv) (r : FGenerateLoop),
      (EditorStart env ed s).GridArray_.GetKeys.Nodup →
      (∀ (k : Nat) (T : EActorTypeEnum) (c : FCell) (a : AActor),
        (EditorStart env ed s).SpawnCalls ≤ k → env.SpawnActorAbsolute k T c = some a →
        ∀ c', (EditorStart env ed s).GridArray_.Find c' ≠ some (some a)) →
      s.GridArray_.Num ≠ 0 →
      GenerateLevelActorsTraceEditor env ed s = some r →
      (∀ (c : FCell) (a : AActor), (EditorStart env ed s).GridArray_.Find c = some (some a) →
        (EditorWorld env ed s).IS_VALID a = true → r.Map.GridArray_.Find c = some (some a)) ∧
      (∀ (X Y : Nat) (T : EActorTypeEnum), (X, Y, T) ∈ r.Selected →
        ∀ c, (EditorStart env ed s).GridArray_.GetKeys[
            ((FIntVector.ofVector (EditorStart env ed s).ActorScale3D).X * Y + X).toNat]?
            = some c →
          ¬ ∃ a, (EditorStart env ed s).GridArray_.Find c = some (some a) ∧
            (EditorWorld env ed s).IS_VALID a = true)) := by
  refine ⟨?_, fun w M CellsArray Y X st CellIt hidx he =>
    GenerateLoopBody_occupied w M CellsArray Y X st CellIt hidx he, ?_⟩
  · intro r hr
    rcases GenerateLevelActorsTrace_cases env s r hr with ⟨-, e⟩ | ⟨-, hloops⟩
    · rw [e]
      exact ⟨fun c a hf _ => hf, fun X Y T hmem => by simp at hmem⟩
    · exact GenerateLoops_untouched env _ _ ⟨AfterHygiene env s, 0, [], []⟩ r hk rfl hfresh
        hloops
  · intro ed r hk2 hfresh2 hnum hr
    rcases GenerateLevelActorsTraceEditor_cases env ed s r hr with ⟨h0, -⟩ | ⟨-, hloops⟩
    · exact absurd h0 hnum
    · refine GenerateLoops_untouched (EditorWorld env ed s) _ _
        ⟨EditorStart env ed s, 0, [], []⟩ r hk2 rfl ?_ hloops
      intro k T c a hle hsp
      rw [EditorWorld, (DestroyAttachedActors_world env ed _ true).1] at hsp
      exact hfresh2 k T c a hle hsp

theorem GenerateLevelActors_occupied_untouched_witness :
    DemoAfterPass.GridArray_.Find (DemoCell 0 (-400)) = some (some ⟨10⟩) ∧
    ∃ r, GenerateLevelActorsTrace (DemoEnv 0) DemoAfterPass = some r ∧
      r.Map.GridArray_.Find (DemoCell 0 (-400)) = some (some ⟨10⟩) ∧
      ∀ T, (2, 0, T) ∉ r.Selected := by
  have hf : DemoAfterPass.GridArray_.Find (DemoCell 0 (-400)) = some (some ⟨10⟩) := by decide!
  refine ⟨hf, ?_⟩
  have h1 : (GenerateLevelActorsTrace (DemoEnv 0) DemoAfterPass).isSome = true := by decide!
  cases hr : GenerateLevelActorsTrace (DemoEnv 0) DemoAfterPass with
  | none => simp [hr] at h1
  | some r =>
    have h := (GenerateLevelActors_occupied_untouched (DemoEnv 0) DemoAfterPass (by decide!)
      (fun k T c a hle hsp c' =>
        DemoEnv_fresh 0 DemoAfterPass (by decide!) k T c a hle hsp c')).1 r hr
    refine ⟨r, rfl, h.1 (DemoCell 0 (-400)) ⟨10⟩ hf rfl, ?_⟩
    intro T hmem
    exact h.2 2 0 T hmem (DemoCell 0 (-400)) (by decide!) ⟨⟨10⟩, hf, rfl⟩

/-- C20 as stated fails in the editor build: on the board of 3 x 1 cells
whose first cell holds a valid wall that is attached to the Level Map and
editor-only, the pass destroys the wall, finds its cell empty, selects the
player for it and spawns a character there, which takes a player slot. -/
theorem GenerateLevelActors_editor_counterexample :
    ¬ (∀ (env : Env) (ed : EditorEnv) (s : AGeneratedMap) (r : FGenerateLoop),
        s.GridArray_.GetKeys.Nodup →
        (∀ (k : Nat) (T : EActorTypeEnum) (c : FCell) (a : AActor), s.SpawnCalls ≤ k →
          env.SpawnActorAbsolute k T c = some a → ∀ c', s.GridArray_.Find c' ≠ some (some a)) →
        GenerateLevelActorsTraceEditor env ed s = some r →
        ∀ (X Y : Nat) (T : EActorTypeEnum), (X, Y, T) ∈ r.Selected →
          ∀ c, s.GridArray_.GetKeys[((FIntVector.ofVector s.ActorScale3D).X * Y + X).toNat]?
              = some c →
            ¬ ∃ a, s.GridArray_.Find c = some (some a) ∧ env.IS_VALID a = true) := by
  intro h
  have h1 : (GenerateLevelActorsTraceEditor (DemoEnv 99) DemoEditor DemoRow).map
      (fun r => (r.Selected, r.SpawnedCharactersN, r.Map.CharactersOnMap)) =
      some ([(0, 0, EActorTypeEnum.Player), (1, 0, EActorTypeEnum.None),
        (2, 0, EActorTypeEnum.Player)], 2, [⟨7⟩, ⟨11⟩]) := by decide!
  cases hr : GenerateLevelActorsTraceEditor (DemoEnv 99) DemoEditor DemoRow with
  | none => simp [hr] at h1
  | some r =>
    simp only [hr, Option.map_some', Option.some.injEq, Prod.mk.injEq] at h1
    exact h (DemoEnv 99) DemoEditor DemoRow r (by decide!)
      (fun k T c a hle hsp c' => DemoEnv_fresh 99 DemoRow (by decide!) k T c a hle hsp c')
      hr 0 0 EActorTypeEnum.Player (by rw [h1.1]; simp) (DemoCell (-200) 0) (by decide!)
      ⟨DemoWall, by decide!, rfl⟩

/-! ## C21: the hygiene of the roster -/

/-- The loop from index `i - 1` down to `0` filters the first `i` entries and
leaves the others. -/
theorem RosterHygiene_take (env : Env) (i : Nat) (l : List AActor) (hi : i ≤ l.length) :
    RosterHygiene env i l = (l.take i).filter env.IS_VALID ++ l.drop i := by
  induction i generalizing l with
  | zero => simp [RosterHygiene]
  | succ i ih =>
    have hlt : i < l.length := by omega
    unfold RosterHygiene
    rw [List.getElem?_eq_getElem hlt]
    simp only
    have htake : l.take (i + 1) = l.take i ++ [l[i]] := by
      rw [List.take_succ, List.getElem?_eq_getElem hlt]
      rfl
    have hdrop : l.drop i = l[i] :: l.drop (i + 1) := by
      rw [List.drop_eq_getElem_cons hlt]
    by_cases hv : env.IS_VALID l[i] = false
    · rw [if_pos hv, ih (l.eraseIdx i) (by rw [List.length_eraseIdx, if_pos hlt]; omega)]
      have e1 : (l.eraseIdx i).take i = l.take i := by
        rw [List.eraseIdx_eq_take_drop_succ, List.take_append_of_le_length (by
          rw [List.length_take]; omega), List.take_take, Nat.min_self]
      have e2 : (l.eraseIdx i).drop i = l.drop (i + 1) := by
        rw [List.eraseIdx_eq_take_drop_succ, List.drop_append_of_le_length (by
          rw [List.length_take]; omega)]
        have hlen : (l.take i).length = i := by rw [List.length_take]; omega
        rw [List.drop_eq_nil_of_le (Nat.le_of_eq hlen), List.nil_append]
      rw [e1, e2, htake, List.filter_append]
      simp [hv]
    · have hv' : env.IS_VALID l[i] = true := by simpa using hv
      rw [if_neg hv, ih l (by omega), htake, List.filter_append, hdrop]
      simp [hv']

/-- The hygiene loop over the whole roster keeps the valid entries, in order. -/
theorem RosterHygiene_eq_filter (env : Env) (l : List AActor) :
    RosterHygiene env l.length l = l.filter env.IS_VALID := by
  rw [RosterHygiene_take env l.length l (Nat.le_refl _), List.take_length, List.drop_length,
    List.append_nil]

/-- The roster of a pass on a grid array with keys starts with the roster
the hygiene loop leaves. -/
theorem GenerateLevelActorsTrace_roster_prefix (env : Env) (s : AGeneratedMap)
    (r : FGenerateLoop) (h0 : s.GridArray_.Num ≠ 0)
    (h : GenerateLevelActorsTrace env s = some r) :
    ∃ l, r.Map.CharactersOnMap =
      RosterHygiene env s.CharactersOnMap.length s.CharactersOnMap ++ l := by
  unfold GenerateLevelActorsTrace at h
  simp only [h0, if_false] at h
  refine foldlM_preserves
    (fun st : FGenerateLoop => ∃ l, st.Map.CharactersOnMap =
      RosterHygiene env s.CharactersOnMap.length s.CharactersOnMap ++ l) _ ?_ _ _ r
    ⟨[], by rw [List.append_nil]⟩ h
  intro st Y st' hst hrow
  refine foldlM_preserves
    (fun st : FGenerateLoop => ∃ l, st.Map.CharactersOnMap =
      RosterHygiene env s.CharactersOnMap.length s.CharactersOnMap ++ l) _ ?_ _ _ st' hst hrow
  intro st1 X st2 hst1 hbody
  obtain ⟨-, l2, e2⟩ := GenerateLoopBody_roster env _ _ Y X st1 st2 hbody
  obtain ⟨l1, hl1⟩ := hst1
  exact ⟨l1 ++ l2, by rw [e2, hl1, List.append_assoc]⟩

/-- C21. On a Level Map whose grid array has keys, the hygiene loop at the
start of `GenerateLevelActors` leaves the entries of the roster that are
valid, in their order, and no other: its result is the roster filtered by
`IS_VALID`. An entry is in the result exactly when it is a valid entry of the
roster, and the roster of a pass that returns starts with this result. -/
theorem GenerateLevelActors_roster_hygiene (env : Env) (s : AGeneratedMap)
    (hnum : s.GridArray_.Num ≠ 0) :
    RosterHygiene env s.CharactersOnMap.length s.CharactersOnMap =
        s.CharactersOnMap.filter env.IS_VALID ∧
      (RosterHygiene env s.CharactersOnMap.length s.CharactersOnMap).Sublist
        s.CharactersOnMap ∧
      (∀ a, a ∈ RosterHygiene env s.CharactersOnMap.length s.CharactersOnMap ↔
        a ∈ s.CharactersOnMap ∧ env.IS_VALID a = true) ∧
      ∀ r, GenerateLevelActorsTrace env s = some r →
        ∃ l, r.Map.CharactersOnMap = s.CharactersOnMap.filter env.IS_VALID ++ l := by
  have e := RosterHygiene_eq_filter env s.CharactersOnMap
  refine ⟨e, RosterHygiene_sublist env _ _, ?_, ?_⟩
  · intro a
    rw [e, List.mem_filter]
  · intro r hr
    rw [← e]
    exact GenerateLevelActorsTrace_roster_prefix env s r hnum hr

theorem GenerateLevelActors_roster_hygiene_witness :
    DemoStale.GridArray_.Num ≠ 0 ∧
      RosterHygiene StaleEnv DemoStale.CharactersOnMap.length DemoStale.CharactersOnMap =
        [⟨3⟩, ⟨7⟩, ⟨11⟩] ∧
      (GenerateLevelActors StaleEnv DemoStale).map AGeneratedMap.CharactersOnMap =
        some [⟨3⟩, ⟨7⟩, ⟨11⟩] :=
  ⟨by decide!,
    (GenerateLevelActors_roster_hygiene StaleEnv DemoStale (by decide!)).1.trans (by decide!),
    by decide!⟩

/-! ## C22: the indices of the pass -/

/-- Two nested loops over `L` rows of `W` columns are one loop over the
`W * L` pairs, row after row. -/
theorem foldlM_rows {σ : Type} (f : Nat → σ → Nat → Option σ) (W L : Nat) (st : σ) :
    (List.range L).foldlM (fun st Y => (List.range W).foldlM (f Y) st) st =
      (RowMajorCells (fun Y X => (Y, X)) W L).foldlM (fun st p => f p.1 st p.2) st := by
  induction L with
  | zero => rfl
  | succ L ih =>
    unfold RowMajorCells
    rw [List.range_succ, List.foldlM_append, List.foldlM_append, ih]
    congr 1
    funext st1
    rw [List.foldlM_map]
    simp [List.foldlM_cons, List.foldlM_nil]

/-- The two loops of the pass are one loop over the `W * L` pairs `(Y, X)`,
row after row. -/
theorem GenerateLoops_eq_iterations (env : Env) (M : FIntVector) (W L : Nat)
    (hMX : M.X = (W : Int)) (hMY : M.Y = (L : Int)) (CellsArray : List FCell)
    (st : FGenerateLoop) :
    GenerateLoops env M CellsArray st =
      (RowMajorCells (fun Y X => (Y, X)) W L).foldlM
        (fun st p => GenerateLoopBody env M CellsArray p.1 st p.2) st := by
  rw [← foldlM_rows (fun Y st X => GenerateLoopBody env M CellsArray Y st X) W L st]
  unfold GenerateLoops
  rw [hMY, Int.toNat_ofNat]
  congr 1
  funext st1 Y
  unfold GenerateRow
  rw [hMX, Int.toNat_ofNat]

/-- With a length below zero the loops of the pass run no iteration. -/
theorem GenerateLoops_negative (env : Env) (M : FIntVector) (hMY : M.Y < 0)
    (CellsArray : List FCell) (st : FGenerateLoop) :
    GenerateLoops env M CellsArray st = some st := by
  unfold GenerateLoops
  rw [Int.toNat_eq_zero.mpr (Int.le_of_lt hMY)]
  rfl

/-- One iteration whose index is in range returns, and appends to the record
of the reads its index and the cell it read. -/
theorem GenerateLoopBody_Visited (env : Env) (M : FIntVector) (CellsArray : List FCell)
    (Y X : Nat) (st : FGenerateLoop) (CellIt : FCell)
    (hidx : CellsArray[(M.X * Y + X).toNat]? = some CellIt) :
    ∃ st', GenerateLoopBody env M CellsArray Y st X = some st' ∧
      st'.Visited = st.Visited ++ [(M.X * (Y : Int) + (X : Int), CellIt)] := by
  unfold GenerateLoopBody
  simp only [hidx]
  by_cases he : IsEmptyCell env st.Map CellIt none = false
  · rw [if_pos he]
    exact ⟨_, rfl, rfl⟩
  · rw [if_neg he]
    exact ⟨_, rfl, rfl⟩

/-- The loops over an array of at least `W * L` cells return, and the reads
they add to the record are, in their order, those of the indices
`0, 1, ..., W * L - 1`, each with the cell the array has there. -/
theorem GenerateLoops_Visited (env : Env) (M : FIntVector) (W L : Nat) (hMX : M.X = (W : Int))
    (hMY : M.Y = (L : Int)) (CellsArray : List FCell) (hlen : W * L ≤ CellsArray.length)
    (st0 : FGenerateLoop) :
    ∃ r, GenerateLoops env M CellsArray st0 = some r ∧
      r.Visited.map Prod.fst =
        st0.Visited.map Prod.fst ++ (List.range (W * L)).map Int.ofNat ∧
      r.Visited.map Prod.snd = st0.Visited.map Prod.snd ++ CellsArray.take (W * L) := by
  unfold GenerateLoops
  rw [hMY, Int.toNat_ofNat]
  have hstep : ∀ Y st, Y < L →
      (st.Visited.map Prod.fst =
          st0.Visited.map Prod.fst ++ (List.range (W * Y)).map Int.ofNat ∧
        st.Visited.map Prod.snd = st0.Visited.map Prod.snd ++ CellsArray.take (W * Y)) →
      ∃ st', GenerateRow env M CellsArray st Y = some st' ∧
        (st'.Visited.map Prod.fst =
            st0.Visited.map Prod.fst ++ (List.range (W * (Y + 1))).map Int.ofNat ∧
          st'.Visited.map Prod.snd =
            st0.Visited.map Prod.snd ++ CellsArray.take (W * (Y + 1))) := by
    intro Y st hYL hst
    unfold GenerateRow
    rw [hMX, Int.toNat_ofNat]
    have hinner := range_foldlM_invariant (GenerateLoopBody env M CellsArray Y)
      (fun X st1 =>
        st1.Visited.map Prod.fst =
            st0.Visited.map Prod.fst ++ (List.range (W * Y + X)).map Int.ofNat ∧
          st1.Visited.map Prod.snd = st0.Visited.map Prod.snd ++ CellsArray.take (W * Y + X))
      W
      (fun X st1 hXW hst1 => by
        have hlt : W * Y + X < CellsArray.length :=
          Nat.lt_of_lt_of_le (flat_index_lt W L X Y hXW hYL) hlen
        have hidx : CellsArray[(M.X * (Y : Int) + (X : Int)).toNat]? =
            some (CellsArray[W * Y + X]) := by
          rw [flat_index_toNat M W hMX Y X, List.getElem?_eq_getElem hlt]
        obtain ⟨st2, h2, hv⟩ := GenerateLoopBody_Visited env M CellsArray Y X st1 _ hidx
        refine ⟨st2, h2, ?_, ?_⟩
        · rw [← Nat.add_assoc, hv, List.map_append, hst1.1, List.append_assoc, List.range_succ,
            List.map_append]
          congr 2
          simp only [List.map_cons, List.map_nil, List.cons.injEq, and_true]
          rw [hMX]
          show (W : Int) * (Y : Int) + (X : Int) = ((W * Y + X : Nat) : Int)
          push_cast
          ring
        · rw [← Nat.add_assoc, hv, List.map_append, hst1.2, List.append_assoc, List.take_succ,
            List.getElem?_eq_getElem hlt]
          rfl)
      st (by simpa using hst)
    obtain ⟨st', h1, h2⟩ := hinner
    refine ⟨st', h1, ?_⟩
    rw [Nat.mul_succ]
    exact h2
  have houter := range_foldlM_invariant (GenerateRow env M CellsArray)
    (fun Y st =>
      st.Visited.map Prod.fst =
          st0.Visited.map Prod.fst ++ (List.range (W * Y)).map Int.ofNat ∧
        st.Visited.map Prod.snd = st0.Visited.map Prod.snd ++ CellsArray.take (W * Y))
    L hstep st0 (by simp)
  exact houter

/-- A list of reads whose indices are `0, 1, ..., n - 1` and whose cells are
the `n` entries of an array has every index in range and every cell at its
index. -/
theorem Visited_in_range (V : List (Int × FCell)) (cells : List FCell)
    (h1 : V.map Prod.fst = (List.range cells.length).map Int.ofNat)
    (h2 : V.map Prod.snd = cells) :
    ∀ e ∈ V, 0 ≤ e.1 ∧ e.1 < (cells.length : Int) ∧ cells[e.1.toNat]? = some e.2 := by
  intro e he
  obtain ⟨i, hi, hei⟩ := List.getElem_of_mem he
  have hlenV : V.length = cells.length := by
    have := congrArg List.length h2
    simpa using this
  have hi' : i < cells.length := by omega
  have e1 : e.1 = (i : Int) := by
    have h := congrArg (fun l => l[i]?) h1
    simp only [List.getElem?_map, List.getElem?_eq_getElem hi, hei, Option.map_some',
      List.getElem?_range hi'] at h
    simpa using h
  have e2 : cells[i]? = some e.2 := by
    have h := congrArg (fun l => l[i]?) h2
    simp only [List.getElem?_map, List.getElem?_eq_getElem hi, hei, Option.map_some'] at h
    exact h.symm
  rw [e1]
  refine ⟨by omega, by omega, ?_⟩
  rw [Int.toNat_ofNat]
  exact e2

/-- C22. On a Level Map whose scale has the width `W` and the length `L`
(both at least zero) and whose grid array has `W * L` keys, the pass returns,
and the record of its reads `CellsArray[MapScale.X * Y + X]` has, in the
order of the iterations, the indices `0, 1, ..., W * L - 1` and with them the
keys of the grid array in their order: every index is in range, every key is
read once, and there are `W * L` reads. The two loops are one loop over the
`W * L` pairs `(Y, X)`. In the editor build the same holds for the width, the
length and the keys of the Level Map after the broadcast, on which the loops
run. -/
theorem GenerateLevelActors_indices_in_range (env : Env) (s : AGeneratedMap) (W L : Nat)
    (hX : (FIntVector.ofVector s.ActorScale3D).X = (W : Int))
    (hY : (FIntVector.ofVector s.ActorScale3D).Y = (L : Int))
    (hnum : s.GridArray_.Num = W * L) :
    (∃ r, GenerateLevelActorsTrace env s = some r ∧
      r.Visited.map Prod.fst = (List.range (W * L)).map Int.ofNat ∧
      r.Visited.map Prod.snd = s.GridArray_.GetKeys ∧
      r.Visited.length = W * L ∧
      ∀ e ∈ r.Visited, 0 ≤ e.1 ∧ e.1 < (s.GridArray_.Num : Int) ∧
        s.GridArray_.GetKeys[e.1.toNat]? = some e.2) ∧
    (∀ st, GenerateLoops env (FIntVector.ofVector s.ActorScale3D) s.GridArray_.GetKeys st =
      (RowMajorCells (fun Y X => (Y, X)) W L).foldlM
        (fun st p => GenerateLoopBody env (FIntVector.ofVector s.ActorScale3D)
          s.GridArray_.GetKeys p.1 st p.2) st) ∧
    (RowMajorCells (fun Y X => (Y, X)) W L).length = W * L ∧
    (∀ (ed : EditorEnv) (W1 L1 : Nat), s.GridArray_.Num ≠ 0 →
      (FIntVector.ofVector (EditorStart env ed s).ActorScale3D).X = (W1 : Int) →
      (FIntVector.ofVector (EditorStart env ed s).ActorScale3D).Y = (L1 : Int) →
      (EditorStart env ed s).GridArray_.Num = W1 * L1 →
      ∃ r, GenerateLevelActorsTraceEditor env ed s = some r ∧
        r.Visited.map Prod.fst = (List.range (W1 * L1)).map Int.ofNat ∧
        r.Visited.map Prod.snd = (EditorStart env ed s).GridArray_.GetKeys) := by
  have hlen : s.GridArray_.GetKeys.length = W * L := by
    simpa [TMap.Num, TMap.GetKeys] using hnum
  refine ⟨?_, fun st => GenerateLoops_eq_iterations env _ W L hX hY _ st,
    RowMajorCells_length _ W L, ?_⟩
  · have hmain : ∃ r, GenerateLevelActorsTrace env s = some r ∧
        r.Visited.map Prod.fst = (List.range (W * L)).map Int.ofNat ∧
        r.Visited.map Prod.snd = s.GridArray_.GetKeys := by
      unfold GenerateLevelActorsTrace
      by_cases h0 : s.GridArray_.Num = 0
      · rw [if_pos h0]
        have hWL : W * L = 0 := by rw [← hnum]; exact h0
        have hnil : s.GridArray_.GetKeys = [] := by
          apply List.eq_nil_of_length_eq_zero
          rw [hlen, hWL]
        exact ⟨_, rfl, by simp [hWL], by simp [hnil]⟩
      · rw [if_neg h0]
        obtain ⟨r, hr, h1, h2⟩ := GenerateLoops_Visited env
          (FIntVector.ofVector s.ActorScale3D) W L hX hY s.GridArray_.GetKeys
          (Nat.le_of_eq hlen.symm)
          ⟨{ s with CharactersOnMap :=
              RosterHygiene env s.CharactersOnMap.length s.CharactersOnMap }, 0, [], []⟩
        refine ⟨r, hr, by simpa using h1, ?_⟩
        rw [h2, ← hlen, List.take_length]
        rfl
    obtain ⟨r, hr, h1, h2⟩ := hmain
    have hl : r.Visited.length = W * L := by
      have := congrArg List.length h2
      simpa [hlen] using this
    refine ⟨r, hr, h1, h2, hl, ?_⟩
    have := Visited_in_range r.Visited s.GridArray_.GetKeys (by rw [hlen]; exact h1) h2
    intro e he
    have h3 := this e he
    rw [hlen] at h3
    rw [hnum]
    exact ⟨h3.1, by exact_mod_cast h3.2.1, h3.2.2⟩
  · intro ed W1 L1 h0 hX1 hY1 hnum1
    have hlen1 : (EditorStart env ed s).GridArray_.GetKeys.length = W1 * L1 := by
      simpa [TMap.Num, TMap.GetKeys] using hnum1
    obtain ⟨r, hr, h1, h2⟩ := GenerateLoops_Visited (EditorWorld env ed s)
      (FIntVector.ofVector (EditorStart env ed s).ActorScale3D) W1 L1 hX1 hY1
      (EditorStart env ed s).GridArray_.GetKeys (Nat.le_of_eq hlen1.symm)
      ⟨EditorStart env ed s, 0, [], []⟩
    refine ⟨r, ?_, by simpa using h1, ?_⟩
    · unfold GenerateLevelActorsTraceEditor
      rw [if_neg h0]
      exact hr
    · rw [h2, ← hlen1, List.take_length]
      rfl

theorem GenerateLevelActors_indices_in_range_witness :
    (OnConstruction (DemoEnv 0) (DemoMap 4 4 4 100)).GridArray_.Num = 5 * 5 ∧
      ∃ r, GenerateLevelActorsTrace (DemoEnv 0) (OnConstruction (DemoEnv 0) (DemoMap 4 4 4 100)) =
          some r ∧
        r.Visited.map Prod.fst = (List.range (5 * 5)).map Int.ofNat ∧
        r.Visited.map Prod.snd =
          (OnConstruction (DemoEnv 0) (DemoMap 4 4 4 100)).GridArray_.GetKeys :=
  have h := (GenerateLevelActors_indices_in_range (DemoEnv 0)
    (OnConstruction (DemoEnv 0) (DemoMap 4 4 4 100)) 5 5 (by decide!) (by decide!)
    (by decide!)).1
  ⟨by decide!, h.choose, h.choose_spec.1, h.choose_spec.2.1, h.choose_spec.2.2.1⟩

end Bomber
